import Mathlib

/-!
# firebase-queue: the transaction functions of `src/lib/transaction_helper.js`
and `src/lib/task_worker.js`

A shallow embedding of the read-modify-write functions that the queue hands to
the store's `transaction` primitive, followed by theorems about them.

## Modelling conventions

* `JSVal` is the universe of JavaScript values that occur: `undefined`, `null`,
  booleans, numbers, strings, arrays and plain objects.  Function values and
  class instances are not represented.
* Numbers are the integers plus `NaN`, with exact arithmetic.  Fractions,
  infinities and negative zero are not represented.  The model agrees with the
  source as long as the numbers involved are safe integers (magnitude at most
  `2^53`): past that the source rounds a sum to the nearest double, so that
  `2^53 + 1` is `2^53`, and prints a number by its shortest round-trip digits
  or in exponent form (`1e+21`).  Statements about `x + 1` for a stored `x` and
  about the text of a number carry that bound.  A numeric string is recognised
  when it is an optionally signed run of decimal digits (surrounded by white
  space), every other non-empty string converts to `NaN`.
* An object is an association list of own properties, first binding wins.
  Reading a missing property gives `undefined`; writing replaces the existing
  binding in place or appends a new one; `delete` removes the binding.
* The source mutates the record it is given and returns it; here every
  function returns the updated value instead.
* `===` between two objects is reference identity.  A stored record and the
  task spec never share a reference, so `strictEq` on two objects or arrays is
  `false`.
* `Date.now()` is an explicit argument `now`.
* A thrown exception is `Except.error`; a returned value is `Except.ok`.
  A transaction function returns `undefined` to leave the record untouched,
  `null` to delete it, and any other value to commit that value; `transact`
  applies one function to a stored value by that rule.
* A committed record carries the sentinel `SERVER_TIMESTAMP` in
  `_state_changed`; the store replaces it by its clock value when it writes.
-/

namespace FirebaseQueue

/-- JavaScript values. An array carries its elements and, separately, the named
own properties that an assignment such as `a._state = x` adds to it. -/
inductive JSVal where
  | undefined
  | null
  | bool (b : Bool)
  | num (n : Int)
  | nan
  | str (s : String)
  | arr (elems : List JSVal) (props : List (String × JSVal))
  | obj (fields : List (String × JSVal))

/-- Own properties of an object, in insertion order. -/
abbrev Fields := List (String × JSVal)

namespace JSVal

/-! ## Objects -/

/-- Value of `o[key]` on a property list: `undefined` when there is no binding. -/
def getField : Fields → String → JSVal
  | [], _ => undefined
  | (k, v) :: rest, key => if k = key then v else getField rest key

/-- Effect of `o[key] = v` on a property list. -/
def setField : Fields → String → JSVal → Fields
  | [], key, v => [(key, v)]
  | (k, w) :: rest, key, v =>
    if k = key then (k, v) :: rest else (k, w) :: setField rest key v

/-- Effect of `delete o[key]` on a property list. -/
def delField : Fields → String → Fields
  | [], _ => []
  | (k, w) :: rest, key =>
    if k = key then delField rest key else (k, w) :: delField rest key

/-- Whether the property list has a binding for `key` (`key in o` for own properties). -/
def hasField : Fields → String → Bool
  | [], _ => false
  | (k, _) :: rest, key => if k = key then true else hasField rest key

/-- Property read `v.key` for a key that is not a built-in property name
(every key the source reads is `_`-prefixed, `attempts` or `previous_state`).
On a primitive the read goes to the wrapper's prototype and finds nothing.
The source never reads a property of `undefined` or `null` without a guard. -/
def getProp : JSVal → String → JSVal
  | obj fs, key => getField fs key
  | arr _ ps, key => getField ps key
  | _, _ => undefined

/-- Property write `v.key = x` followed by reading `v` back. The module is
not in strict mode, so a write to a primitive is silently dropped. -/
def setProp : JSVal → String → JSVal → JSVal
  | obj fs, key, x => obj (setField fs key x)
  | arr es ps, key, x => arr es (setField ps key x)
  | v, _, _ => v

/-- Lodash `_.isPlainObject`. -/
def isPlainObject : JSVal → Bool
  | obj _ => true
  | _ => false

/-! ## Operators -/

/-- JavaScript `ToBoolean`. -/
def truthy : JSVal → Bool
  | undefined => false
  | null => false
  | bool b => b
  | num n => decide (n ≠ 0)
  | nan => false
  | str s => decide (s ≠ "")
  | arr _ _ => true
  | obj _ => true

/-- The operator `a || b`. -/
def jsOr (a b : JSVal) : JSVal := if truthy a then a else b

/-- The operator `a && b`. -/
def jsAnd (a b : JSVal) : JSVal := if truthy a then b else a

/-- A destructuring default `{ key: name = d }`: the default is taken exactly
when the value read is `undefined`. -/
def defaultTo : JSVal → JSVal → JSVal
  | undefined, d => d
  | v, _ => v

/-- The operator `a === b`. -/
def strictEq : JSVal → JSVal → Bool
  | undefined, undefined => true
  | null, null => true
  | bool a, bool b => decide (a = b)
  | num a, num b => decide (a = b)
  | str a, str b => decide (a = b)
  | _, _ => false

/-- The test `typeof v === 'string'`. -/
def isString : JSVal → Bool
  | str _ => true
  | _ => false

mutual
/-- JavaScript `ToString` (for an array: `Array.prototype.join`). A number
prints as its decimal digits, as the source prints every integer of magnitude
up to `2^53`; the shortest-digits and exponent forms of larger numbers are not
represented. -/
def toStr : JSVal → String
  | undefined => "undefined"
  | null => "null"
  | bool true => "true"
  | bool false => "false"
  | num n => toString n
  | nan => "NaN"
  | str s => s
  | arr es _ => joinStr es
  | obj _ => "[object Object]"
termination_by structural v => v
/-- Elements joined with commas, `undefined` and `null` printed as nothing. -/
def joinStr : List JSVal → String
  | [] => ""
  | x :: rest =>
    (match x with
      | undefined => ""
      | null => ""
      | v => toStr v) ++
    (match rest with
      | [] => ""
      | _ :: _ => "," ++ joinStr rest)
termination_by structural l => l
end

/-- JavaScript `ToPrimitive` with the default methods of `Object.prototype`
and `Array.prototype`. -/
def toPrimitive : JSVal → JSVal
  | arr es ps => str (toStr (arr es ps))
  | obj fs => str (toStr (obj fs))
  | v => v

/-- White space and line terminators that `StringToNumber` strips. -/
def isStrWhiteSpace (c : Char) : Bool :=
  let n := c.toNat
  n = 9 || n = 10 || n = 11 || n = 12 || n = 13 || n = 32 || n = 160 || n = 5760 ||
  (8192 ≤ n && n ≤ 8202) || n = 8232 || n = 8233 || n = 8239 || n = 8287 ||
  n = 12288 || n = 65279

/-- Value of a run of decimal digits, `none` when a character is not a digit. -/
def digitsValue : List Char → Nat → Option Nat
  | [], acc => some acc
  | c :: cs, acc =>
    if 48 ≤ c.toNat ∧ c.toNat ≤ 57 then digitsValue cs (acc * 10 + (c.toNat - 48)) else none

/-- `StringToNumber` on the integer fragment; `none` stands for `NaN`. -/
def stringToNumber (s : String) : Option Int :=
  let body := ((s.toList.dropWhile isStrWhiteSpace).reverse.dropWhile isStrWhiteSpace).reverse
  match body with
  | [] => some 0
  | '-' :: d :: ds => (digitsValue (d :: ds) 0).map (fun n => - (n : Int))
  | '+' :: d :: ds => (digitsValue (d :: ds) 0).map (fun n => (n : Int))
  | '-' :: [] => none
  | '+' :: [] => none
  | ds => (digitsValue ds 0).map (fun n => (n : Int))

/-- JavaScript `ToNumber`; `none` stands for `NaN`. -/
def toNumber : JSVal → Option Int
  | undefined => none
  | null => some 0
  | bool true => some 1
  | bool false => some 0
  | num n => some n
  | nan => none
  | str s => stringToNumber s
  | arr es ps => stringToNumber (toStr (arr es ps))
  | obj _ => none

/-- The operator `a + b`: concatenation when either primitive is a string,
numeric addition otherwise. The sum is exact, as in the source whenever the
operands and the sum are safe integers (magnitude at most `2^53`); the rounding
of larger sums to a double is not represented. -/
def jsAdd (a b : JSVal) : JSVal :=
  let pa := toPrimitive a
  let pb := toPrimitive b
  if isString pa || isString pb then str (toStr pa ++ toStr pb)
  else
    match toNumber pa, toNumber pb with
    | some x, some y => num (x + y)
    | _, _ => nan

/-- The operator `a - b`, exact in the same range as `jsAdd`. -/
def jsSub (a b : JSVal) : JSVal :=
  match toNumber a, toNumber b with
  | some x, some y => num (x - y)
  | _, _ => nan

/-- UTF-16 code units of a character. -/
def utf16Units (c : Char) : List Nat :=
  if c.toNat < 65536 then [c.toNat]
  else [55296 + (c.toNat - 65536) / 1024, 56320 + (c.toNat - 65536) % 1024]

/-- UTF-16 code units of a string. -/
def codeUnits (s : String) : List Nat := (s.toList.map utf16Units).flatten

/-- Lexicographic order on code-unit sequences. -/
def unitsLt : List Nat → List Nat → Bool
  | _, [] => false
  | [], _ :: _ => true
  | a :: as, b :: bs => decide (a < b) || (decide (a = b) && unitsLt as bs)

/-- The abstract relational comparison `a < b`; `none` is its `undefined`
result (an operand is `NaN`). -/
def jsLess (a b : JSVal) : Option Bool :=
  match toPrimitive a, toPrimitive b with
  | str x, str y => some (unitsLt (codeUnits x) (codeUnits y))
  | pa, pb =>
    match toNumber pa, toNumber pb with
    | some x, some y => some (decide (x < y))
    | _, _ => none

/-- The operator `a > b`. -/
def jsGt (a b : JSVal) : Bool :=
  match jsLess b a with
  | some r => r
  | none => false

/-- The operator `a >= b`. -/
def jsGe (a b : JSVal) : Bool :=
  match jsLess a b with
  | some r => !r
  | none => false

end JSVal

open JSVal

/-! ## `transaction_helper.js` -/

/-- The constant `SERVER_TIMESTAMP`, the store's server-timestamp sentinel. -/
def SERVER_TIMESTAMP : JSVal := obj [(".sv", str "timestamp")]

/-- The `spec` object as the constructor destructures it; a property that is
not there reads as `undefined`. -/
structure TaskSpec where
  startState : JSVal
  inProgressState : JSVal
  finishedState : JSVal
  errorState : JSVal
  timeout : JSVal
  retries : JSVal

/-- The variables a `TransactionHelper` closes over. -/
structure TransactionHelper where
  serverOffset : JSVal
  taskNumber : JSVal
  processId : JSVal
  spec : TaskSpec

/-- The expression `_.isPlainObject(newTask) ? _.clone(newTask) : {}`: the own
properties of the shallow copy, or none. -/
def coerceReplacement : JSVal → Fields
  | obj fs => fs
  | _ => []

namespace TransactionHelper

/-- The constructor `new TransactionHelper({ serverOffset, taskNumber = 0, processId, spec })`. -/
def create (serverOffset taskNumber processId : JSVal) (spec : TaskSpec) :
    Except String TransactionHelper :=
  let taskNumber := defaultTo taskNumber (num 0)
  if !truthy processId then Except.error "no processId"
  else Except.ok { serverOffset := serverOffset, taskNumber := taskNumber,
                   processId := processId, spec := spec }

/-- The claim token `processId + ':' + taskNumber`. -/
def owner (h : TransactionHelper) : JSVal :=
  jsAdd (jsAdd h.processId (str ":")) h.taskNumber

/-- The method `cloneForNextTask`. -/
def cloneForNextTask (h : TransactionHelper) : Except String TransactionHelper :=
  create h.serverOffset (jsAdd h.taskNumber (num 1)) h.processId h.spec

/-- The helper `_isOwner`. -/
def _isOwner (h : TransactionHelper) (task : JSVal) : Bool :=
  strictEq (getProp task "_owner") h.owner

/-- The helper `_isInProgress`. -/
def _isInProgress (h : TransactionHelper) (task : JSVal) : Bool :=
  strictEq (getProp task "_state") h.spec.inProgressState

/-- The method `resetIfTimedOut`, at clock reading `now`. -/
def resetIfTimedOut (h : TransactionHelper) (now : Int) (task : JSVal) : Except String JSVal :=
  match task with
  | null => Except.ok null
  | undefined => Except.error "TypeError"
  | task =>
    let timeSinceUpdate :=
      jsSub (jsAdd (num now) h.serverOffset) (jsOr (getProp task "_state_changed") (num 0))
    let timedOut := jsAnd h.spec.timeout (bool (jsGe timeSinceUpdate h.spec.timeout))
    if _isInProgress h task && truthy timedOut then
      let task := setProp task "_state" h.spec.startState
      let task := setProp task "_state_changed" SERVER_TIMESTAMP
      let task := setProp task "_owner" null
      let task := setProp task "_progress" null
      let task := setProp task "_error_details" null
      Except.ok task
    else Except.ok undefined

/-- The method `resolveWith(newTask)` applied to `task`. -/
def resolveWith (h : TransactionHelper) (newTask : JSVal) (task : JSVal) : Except String JSVal :=
  match task with
  | null => Except.ok null
  | undefined => Except.error "TypeError"
  | task =>
    if _isOwner h task && _isInProgress h task then
      let replacement : Fields := coerceReplacement newTask
      let newState := getField replacement "_new_state"
      let replacement := delField replacement "_new_state"
      let validNewState := strictEq newState null || isString newState
      let shouldRemove :=
        strictEq newState (bool false) || !(validNewState || truthy h.spec.finishedState)
      if shouldRemove then Except.ok null
      else
        let replacement :=
          setField replacement "_state" (if validNewState then newState else h.spec.finishedState)
        let replacement := setField replacement "_state_changed" SERVER_TIMESTAMP
        let replacement := setField replacement "_owner" null
        let replacement := setField replacement "_progress" (num 100)
        let replacement := setField replacement "_error_details" null
        Except.ok (obj replacement)
    else Except.ok undefined

/-- The method `rejectWith(errorString, errorStack)` applied to `task`. -/
def rejectWith (h : TransactionHelper) (errorString errorStack : JSVal) (task : JSVal) :
    Except String JSVal :=
  match task with
  | null => Except.ok null
  | undefined => Except.error "TypeError"
  | task =>
    if _isOwner h task && _isInProgress h task then
      let details := jsOr (getProp task "_error_details") (obj [])
      let previousAttempts := defaultTo (getProp details "attempts") (num 0)
      let previousState := getProp details "previous_state"
      let attempts :=
        if strictEq previousState h.spec.inProgressState then jsAdd previousAttempts (num 1)
        else num 1
      let task :=
        setProp task "_state"
          (if jsGt attempts h.spec.retries then h.spec.errorState else h.spec.startState)
      let task := setProp task "_state_changed" SERVER_TIMESTAMP
      let task := setProp task "_owner" null
      let task :=
        setProp task "_error_details"
          (obj [("previous_state", h.spec.inProgressState), ("error", errorString),
                ("error_stack", errorStack), ("attempts", attempts)])
      Except.ok task
    else Except.ok undefined

/-- The method `updateProgressWith(progress)` applied to `task`. -/
def updateProgressWith (h : TransactionHelper) (progress : JSVal) (task : JSVal) :
    Except String JSVal :=
  match task with
  | null => Except.ok null
  | undefined => Except.error "TypeError"
  | task =>
    if _isOwner h task && _isInProgress h task then
      Except.ok (setProp task "_progress" progress)
    else Except.ok undefined

/-- The method `claim`. The pattern `obj fs` is the case `_.isPlainObject(task)`;
every other value that is not null takes the malformed-task branch. -/
def claim (h : TransactionHelper) (task : JSVal) : Except String JSVal :=
  match task with
  | null => Except.ok null
  | obj fs =>
    if strictEq (jsOr (getField fs "_state") null) h.spec.startState then
      let fs := setField fs "_state" h.spec.inProgressState
      let fs := setField fs "_state_changed" SERVER_TIMESTAMP
      let fs := setField fs "_owner" h.owner
      let fs := setField fs "_progress" (num 0)
      Except.ok (obj fs)
    else Except.ok undefined
  | task =>
    Except.ok (obj [("_state", h.spec.errorState), ("_state_changed", SERVER_TIMESTAMP),
                    ("_error_details",
                      obj [("error", str "Task was malformed"), ("original_task", task)])])

end TransactionHelper

/-! ## `task_worker.js` -/

/-- The variables a `TaskWorker` closes over; of `spec` it reads `startState`,
`inProgressState`, `finishedState` and `timeout`. -/
structure TaskWorker where
  serverOffset : JSVal
  owner : JSVal
  spec : TaskSpec

namespace TaskWorker

/-- The helper `_isOwner`. -/
def _isOwner (w : TaskWorker) (task : JSVal) : Bool :=
  strictEq (getProp task "_owner") w.owner

/-- The helper `_isInProgress`. -/
def _isInProgress (w : TaskWorker) (task : JSVal) : Bool :=
  strictEq (getProp task "_state") w.spec.inProgressState

/-- The helper `_reset`. -/
def _reset (w : TaskWorker) (task : JSVal) : JSVal :=
  let task := setProp task "_state" w.spec.startState
  let task := setProp task "_state_changed" SERVER_TIMESTAMP
  let task := setProp task "_owner" null
  let task := setProp task "_progress" null
  let task := setProp task "_error_details" null
  task

/-- The method `reset`. -/
def reset (w : TaskWorker) (task : JSVal) : Except String JSVal :=
  match task with
  | null => Except.ok null
  | undefined => Except.error "TypeError"
  | task =>
    if _isOwner w task && _isInProgress w task then Except.ok (_reset w task)
    else Except.ok undefined

/-- The method `resetIfTimedOut`, at clock reading `now`. -/
def resetIfTimedOut (w : TaskWorker) (now : Int) (task : JSVal) : Except String JSVal :=
  match task with
  | null => Except.ok null
  | undefined => Except.error "TypeError"
  | task =>
    let timeSinceUpdate :=
      jsSub (jsSub (num now) w.serverOffset) (jsOr (getProp task "_state_changed") (num 0))
    let timedOut := jsAnd w.spec.timeout (bool (jsGe timeSinceUpdate w.spec.timeout))
    if _isInProgress w task && truthy timedOut then Except.ok (_reset w task)
    else Except.ok undefined

/-- The method `resolveWith(newTask)` applied to `task`. -/
def resolveWith (w : TaskWorker) (newTask : JSVal) (task : JSVal) : Except String JSVal :=
  match task with
  | null => Except.ok null
  | undefined => Except.error "TypeError"
  | task =>
    if _isOwner w task && _isInProgress w task then
      let replacement : Fields := coerceReplacement newTask
      let newState := getField replacement "_new_state"
      let replacement := delField replacement "_new_state"
      let validNewState := strictEq newState null || isString newState
      let shouldRemove :=
        strictEq newState (bool false) || !(validNewState || truthy w.spec.finishedState)
      if shouldRemove then Except.ok null
      else
        let replacement :=
          setField replacement "_state" (if validNewState then newState else w.spec.finishedState)
        let replacement := setField replacement "_state_changed" SERVER_TIMESTAMP
        let replacement := setField replacement "_owner" null
        let replacement := setField replacement "_progress" (num 100)
        let replacement := setField replacement "_error_details" null
        Except.ok (obj replacement)
    else Except.ok undefined

end TaskWorker

/-! ## The store and the retry scenario -/

/-- Modelled from the spec: the store's compare-and-apply primitive `transact`
(sections 4.1 and 6) is an external collaborator and not part of the sources.
It applies a transaction function to the stored value: a result of `undefined`
leaves the value untouched, `null` deletes it (the stored value becomes null)
and any other value is committed. A function that throws aborts the
transaction and leaves the value untouched. -/
def transact (f : JSVal → Except String JSVal) (stored : JSVal) : JSVal :=
  match f stored with
  | Except.ok undefined => stored
  | Except.ok v => v
  | Except.error _ => stored

/-- One cycle of the retry scenario: the helper `h` claims the stored value,
then rejects it with `rejectWith(e, s)`, each as one transaction. -/
def claimThenReject (h : TransactionHelper) (e s : JSVal) (stored : JSVal) : JSVal :=
  transact (TransactionHelper.rejectWith h e s) (transact (TransactionHelper.claim h) stored)

/-- The retry scenario: one `claimThenReject` cycle per list entry, in order,
each with its own helper and error arguments. -/
def rejectionCycles : List (TransactionHelper × JSVal × JSVal) → JSVal → JSVal
  | [], stored => stored
  | (h, e, s) :: rest, stored => rejectionCycles rest (claimThenReject h e s stored)

/-! ## Property lists -/

namespace JSVal

theorem getField_setField (fs : Fields) (k k' : String) (v : JSVal) :
    getField (setField fs k v) k' = if k' = k then v else getField fs k' := by
  induction fs with
  | nil =>
    by_cases hk : k' = k
    · simp [setField, getField, hk]
    · have hk2 : ¬ k = k' := fun e => hk e.symm
      simp [setField, getField, hk, hk2]
  | cons p rest ih =>
    obtain ⟨a, w⟩ := p
    by_cases ha : a = k
    · by_cases hk : k' = k
      · simp [setField, getField, ha, hk]
      · have hk2 : ¬ k = k' := fun e => hk e.symm
        simp [setField, getField, ha, hk, hk2]
    · by_cases hk : k' = k
      · subst hk
        simp [setField, getField, ha, ih]
      · by_cases hak : a = k'
        · simp [setField, getField, ha, hk, hak]
        · simp [setField, getField, ha, hk, hak, ih]

theorem getField_delField (fs : Fields) (k k' : String) :
    getField (delField fs k) k' = if k' = k then undefined else getField fs k' := by
  induction fs with
  | nil => simp [delField, getField]
  | cons p rest ih =>
    obtain ⟨a, w⟩ := p
    by_cases ha : a = k
    · by_cases hk : k' = k
      · subst hk
        simpa [delField, ha] using ih
      · have hk2 : ¬ k = k' := fun e => hk e.symm
        simp [delField, getField, ha, ih, hk, hk2]
    · by_cases hk : k' = k
      · subst hk
        simp [delField, getField, ha, ih]
      · by_cases hak : a = k'
        · simp [delField, getField, ha, hk, hak]
        · simp [delField, getField, ha, hk, hak, ih]

theorem hasField_setField (fs : Fields) (k k' : String) (v : JSVal) :
    hasField (setField fs k v) k' = if k' = k then true else hasField fs k' := by
  induction fs with
  | nil =>
    by_cases hk : k' = k
    · simp [setField, hasField, hk]
    · have hk2 : ¬ k = k' := fun e => hk e.symm
      simp [setField, hasField, hk, hk2]
  | cons p rest ih =>
    obtain ⟨a, w⟩ := p
    by_cases ha : a = k
    · by_cases hk : k' = k
      · simp [setField, hasField, ha, hk]
      · have hk2 : ¬ k = k' := fun e => hk e.symm
        simp [setField, hasField, ha, hk, hk2]
    · by_cases hk : k' = k
      · subst hk
        simp [setField, hasField, ha, ih]
      · by_cases hak : a = k'
        · simp [setField, hasField, ha, hk, hak]
        · simp [setField, hasField, ha, hk, hak, ih]

theorem hasField_delField (fs : Fields) (k k' : String) :
    hasField (delField fs k) k' = if k' = k then false else hasField fs k' := by
  induction fs with
  | nil => simp [delField, hasField]
  | cons p rest ih =>
    obtain ⟨a, w⟩ := p
    by_cases ha : a = k
    · by_cases hk : k' = k
      · subst hk
        simpa [delField, ha] using ih
      · have hk2 : ¬ k = k' := fun e => hk e.symm
        simp [delField, hasField, ha, ih, hk, hk2]
    · by_cases hk : k' = k
      · subst hk
        simp [delField, hasField, ha, ih]
      · by_cases hak : a = k'
        · simp [delField, hasField, ha, hk, hak]
        · simp [delField, hasField, ha, hk, hak, ih]

/-! ## Operators -/

theorem strictEq_eq {a b : JSVal} (h : strictEq a b = true) : a = b := by
  cases a <;> cases b <;> simp_all [strictEq]

theorem strictEq_str (a : JSVal) (s : String) : strictEq a (str s) = true ↔ a = str s := by
  constructor
  · exact strictEq_eq
  · intro h
    subst h
    simp [strictEq]

theorem strictEq_null (a : JSVal) : strictEq a null = true ↔ a = null := by
  constructor
  · exact strictEq_eq
  · intro h
    subst h
    simp [strictEq]

theorem strictEq_false_of_ne {a b : JSVal} (h : a ≠ b) : strictEq a b = false := by
  cases hs : strictEq a b
  · rfl
  · exact absurd (strictEq_eq hs) h

theorem strictEq_truthy_left {a b : JSVal} (h : strictEq a b = true) : truthy b = truthy a := by
  rw [strictEq_eq h]

theorem jsOr_of_truthy {a b : JSVal} (h : truthy a = true) : jsOr a b = a := by
  simp [jsOr, h]

theorem jsOr_of_falsy {a b : JSVal} (h : truthy a = false) : jsOr a b = b := by
  simp [jsOr, h]

theorem jsAdd_str_right (a : JSVal) (s : String) :
    jsAdd a (str s) = str (toStr (toPrimitive a) ++ s) := by
  simp [jsAdd, toPrimitive, isString, toStr]

theorem jsAdd_str_left (s : String) (b : JSVal) :
    jsAdd (str s) b = str (s ++ toStr (toPrimitive b)) := by
  simp [jsAdd, toPrimitive, isString, toStr]

theorem jsAdd_num_num (x y : Int) : jsAdd (num x) (num y) = num (x + y) := by
  simp [jsAdd, toPrimitive, isString, toNumber]

theorem jsGt_num_num (x y : Int) : jsGt (num x) (num y) = decide (y < x) := by
  simp [jsGt, jsLess, toPrimitive, toNumber]

end JSVal

namespace TransactionHelper

theorem owner_eq_str (h : TransactionHelper) :
    h.owner = str (toStr (toPrimitive h.processId) ++ ":" ++ toStr (toPrimitive h.taskNumber)) := by
  simp [owner, jsAdd_str_right, jsAdd_str_left]

theorem isOwner_iff (h : TransactionHelper) (task : JSVal) :
    _isOwner h task = true ↔ getProp task "_owner" = h.owner := by
  unfold _isOwner
  rw [owner_eq_str, strictEq_str]

theorem isInProgress_eq {h : TransactionHelper} {task : JSVal}
    (hp : _isInProgress h task = true) : getProp task "_state" = h.spec.inProgressState :=
  strictEq_eq hp

end TransactionHelper

/-! ## Claim -/

namespace TransactionHelper

/-- The record `claim` commits when its guard holds. -/
theorem claim_of_match (h : TransactionHelper) (fs : Fields)
    (hm : strictEq (jsOr (getField fs "_state") null) h.spec.startState = true) :
    claim h (obj fs) =
      Except.ok (obj (setField (setField (setField (setField fs
        "_state" h.spec.inProgressState) "_state_changed" SERVER_TIMESTAMP)
        "_owner" h.owner) "_progress" (num 0))) := by
  simp [claim, hm]

/-- The result of `claim` when its guard fails on a plain object. -/
theorem claim_of_no_match (h : TransactionHelper) (fs : Fields)
    (hm : strictEq (jsOr (getField fs "_state") null) h.spec.startState = false) :
    claim h (obj fs) = Except.ok undefined := by
  simp [claim, hm]

/-- What the guard of `claim` reads in a record that is in progress. -/
theorem claim_guard_in_progress (h : TransactionHelper) (fs : Fields)
    (hs : getField fs "_state" = h.spec.inProgressState)
    (hnz : truthy h.spec.inProgressState = true)
    (hne : h.spec.inProgressState ≠ h.spec.startState) :
    strictEq (jsOr (getField fs "_state") null) h.spec.startState = false := by
  rw [hs, jsOr_of_truthy hnz]
  exact strictEq_false_of_ne hne

/-- C1, as stated, fails: with no start state configured (`startState` null) the
record `{_state: ''}` is claimed although its `_state` is present and is not
`startState`; and with `startState` the empty string the record `{_state: ''}`,
whose `_state` equals `startState`, is left untouched. -/
theorem claim_empty_state_counterexample :
    (claim ⟨num 0, num 0, str "w", ⟨null, str "busy", null, str "error", null, num 0⟩⟩
        (obj [("_state", str "")]) =
      Except.ok (obj [("_state", str "busy"), ("_state_changed", SERVER_TIMESTAMP),
                      ("_owner", str "w:0"), ("_progress", num 0)]) ∧
      getField [("_state", str "")] "_state" ≠ undefined ∧
      getField [("_state", str "")] "_state" ≠ null) ∧
    (claim ⟨num 0, num 0, str "w", ⟨str "", str "busy", null, str "error", null, num 0⟩⟩
        (obj [("_state", str "")]) = Except.ok undefined ∧
      getField [("_state", str "")] "_state" = str "") := by
  refine ⟨⟨rfl, ?_, ?_⟩, rfl, rfl⟩ <;> simp [getField]

/-- C1 (amended): on a plain-object record `claim` either commits a record or
returns `undefined`, and it commits exactly when `(_state || null) === startState`:
a falsy `_state` (absent, null, the empty string, 0, false, NaN) matches exactly a
null `startState`, a truthy `_state` must be strictly equal to `startState`, and
in particular a non-empty string `_state` must be that same string. -/
theorem claim_commits_iff (h : TransactionHelper) (fs : Fields) :
    (truthy (getField fs "_state") = false →
      ((∃ r, claim h (obj fs) = Except.ok (obj r)) ↔ h.spec.startState = null)) ∧
    (truthy (getField fs "_state") = true →
      ((∃ r, claim h (obj fs) = Except.ok (obj r)) ↔
        strictEq (getField fs "_state") h.spec.startState = true)) ∧
    (∀ x : String, getField fs "_state" = str x → x ≠ "" →
      ((∃ r, claim h (obj fs) = Except.ok (obj r)) ↔ h.spec.startState = str x)) ∧
    ((¬ ∃ r, claim h (obj fs) = Except.ok (obj r)) → claim h (obj fs) = Except.ok undefined) := by
  have key : (∃ r, claim h (obj fs) = Except.ok (obj r)) ↔
      strictEq (jsOr (getField fs "_state") null) h.spec.startState = true := by
    constructor
    · rintro ⟨r, hr⟩
      cases hm : strictEq (jsOr (getField fs "_state") null) h.spec.startState
      · rw [claim_of_no_match h fs hm] at hr
        cases hr
      · rfl
    · intro hm
      exact ⟨_, claim_of_match h fs hm⟩
  refine ⟨?_, ?_, ?_, ?_⟩
  · intro hf
    rw [key, jsOr_of_falsy hf]
    constructor
    · intro hm
      exact (strictEq_eq hm).symm
    · intro hn
      rw [hn]
      rfl
  · intro ht
    rw [key, jsOr_of_truthy ht]
  · intro x hx hne
    have ht : truthy (getField fs "_state") = true := by
      rw [hx]
      simp [truthy, hne]
    rw [key, jsOr_of_truthy ht, hx]
    constructor
    · intro hm
      exact (strictEq_eq hm).symm
    · intro hn
      rw [hn]
      simp [strictEq]
  · intro hno
    cases hm : strictEq (jsOr (getField fs "_state") null) h.spec.startState
    · exact claim_of_no_match h fs hm
    · exact absurd (key.mpr hm) hno

/-- C1 (amended), at the spec's example: `{_state: 'start'}` is claimed under
`startState` 'start', and `{}` is not. -/
theorem claim_commits_iff_witness :
    ((∃ r, claim ⟨num 0, num 0, str "w", ⟨str "start", str "busy", null, str "error", null, num 0⟩⟩
        (obj [("_state", str "start")]) = Except.ok (obj r)) ↔
      (⟨str "start", str "busy", null, str "error", null, num 0⟩ : TaskSpec).startState
        = str "start") ∧
    ((∃ r, claim ⟨num 0, num 0, str "w", ⟨str "start", str "busy", null, str "error", null, num 0⟩⟩
        (obj []) = Except.ok (obj r)) ↔
      (⟨str "start", str "busy", null, str "error", null, num 0⟩ : TaskSpec).startState
        = null) :=
  ⟨(claim_commits_iff _ [("_state", str "start")]).2.2.1 "start" rfl (by decide),
   (claim_commits_iff _ []).1 rfl⟩

/-- C2, as stated, fails: with `inProgressState` the empty string and no start
state (so the two differ), worker `a` claims the record `{}` and worker `b` then
claims the committed record again, replacing `_owner`. -/
theorem double_claim_counterexample :
    (⟨null, str "", null, str "error", null, num 0⟩ : TaskSpec).inProgressState ≠
      (⟨null, str "", null, str "error", null, num 0⟩ : TaskSpec).startState ∧
    claim ⟨num 0, num 0, str "a", ⟨null, str "", null, str "error", null, num 0⟩⟩ (obj []) =
      Except.ok (obj [("_state", str ""), ("_state_changed", SERVER_TIMESTAMP),
                      ("_owner", str "a:0"), ("_progress", num 0)]) ∧
    claim ⟨num 0, num 0, str "b", ⟨null, str "", null, str "error", null, num 0⟩⟩
        (obj [("_state", str ""), ("_state_changed", SERVER_TIMESTAMP),
              ("_owner", str "a:0"), ("_progress", num 0)]) =
      Except.ok (obj [("_state", str ""), ("_state_changed", SERVER_TIMESTAMP),
                      ("_owner", str "b:0"), ("_progress", num 0)]) := by
  refine ⟨?_, rfl, rfl⟩
  simp

/-- C2 (amended): for every spec whose `inProgressState` is truthy (a non-empty
string) and differs from `startState`, and any two helpers `A` and `B` on that
spec, if `A.claim` commits a plain-object record then `B.claim` on the committed
record returns `undefined`, and the record carries `_owner` = `A`'s token. -/
theorem no_double_claim (A B : TransactionHelper) (fs r : Fields)
    (hspec : B.spec = A.spec)
    (hnz : truthy A.spec.inProgressState = true)
    (hne : A.spec.inProgressState ≠ A.spec.startState)
    (hc : claim A (obj fs) = Except.ok (obj r)) :
    claim B (obj r) = Except.ok undefined ∧ getField r "_owner" = A.owner := by
  cases hm : strictEq (jsOr (getField fs "_state") null) A.spec.startState
  · rw [claim_of_no_match A fs hm] at hc
    cases hc
  · rw [claim_of_match A fs hm] at hc
    injection hc with hc
    injection hc with hc
    subst hc
    constructor
    · apply claim_of_no_match
      apply claim_guard_in_progress
      · rw [hspec]
        simp [getField_setField]
      · rw [hspec]
        exact hnz
      · rw [hspec]
        exact hne
    · simp [getField_setField]

/-- C2 (amended), at a concrete pair of workers. -/
theorem no_double_claim_witness :
    claim ⟨num 0, num 3, str "b", ⟨str "start", str "busy", null, str "error", null, num 0⟩⟩
        (obj [("_state", str "busy"), ("_state_changed", SERVER_TIMESTAMP),
              ("_owner", str "a:0"), ("_progress", num 0)]) = Except.ok undefined ∧
    getField [("_state", str "busy"), ("_state_changed", SERVER_TIMESTAMP),
              ("_owner", str "a:0"), ("_progress", num 0)] "_owner" =
      owner ⟨num 0, num 0, str "a", ⟨str "start", str "busy", null, str "error", null, num 0⟩⟩ :=
  no_double_claim
    ⟨num 0, num 0, str "a", ⟨str "start", str "busy", null, str "error", null, num 0⟩⟩
    ⟨num 0, num 3, str "b", ⟨str "start", str "busy", null, str "error", null, num 0⟩⟩
    [("_state", str "start")] _ rfl rfl (by simp) rfl

end TransactionHelper

/-! ## Ownership -/

namespace TransactionHelper

/-- Without ownership of an in-progress record, `resolveWith` changes nothing. -/
theorem resolveWith_of_guard_false (h : TransactionHelper) (x task : JSVal)
    (hn : task ≠ null) (hu : task ≠ undefined)
    (hg : (_isOwner h task && _isInProgress h task) = false) :
    resolveWith h x task = Except.ok undefined := by
  cases task <;> simp_all [resolveWith]

/-- Without ownership of an in-progress record, `rejectWith` changes nothing. -/
theorem rejectWith_of_guard_false (h : TransactionHelper) (e s task : JSVal)
    (hn : task ≠ null) (hu : task ≠ undefined)
    (hg : (_isOwner h task && _isInProgress h task) = false) :
    rejectWith h e s task = Except.ok undefined := by
  cases task <;> simp_all [rejectWith]

/-- Without ownership of an in-progress record, `updateProgressWith` changes nothing. -/
theorem updateProgressWith_of_guard_false (h : TransactionHelper) (p task : JSVal)
    (hn : task ≠ null) (hu : task ≠ undefined)
    (hg : (_isOwner h task && _isInProgress h task) = false) :
    updateProgressWith h p task = Except.ok undefined := by
  cases task <;> simp_all [updateProgressWith]

/-- The guard shared by resolve, reject and progress fails when the owner or the
state is another one. -/
theorem guard_false_of_ne (h : TransactionHelper) (task : JSVal)
    (hpre : getProp task "_owner" ≠ h.owner ∨ getProp task "_state" ≠ h.spec.inProgressState) :
    (_isOwner h task && _isInProgress h task) = false := by
  rcases hpre with ho | hs
  · have : _isOwner h task = false := strictEq_false_of_ne ho
    simp [this]
  · have : _isInProgress h task = false := strictEq_false_of_ne hs
    simp [this]

/-- A record that passes `_isOwner` is an object or an array, not a primitive. -/
theorem ne_null_of_isOwner {h : TransactionHelper} {task : JSVal}
    (ho : _isOwner h task = true) : task ≠ null ∧ task ≠ undefined := by
  rw [isOwner_iff, owner_eq_str] at ho
  constructor <;> intro ht <;> subst ht <;> simp [getProp] at ho

/-- Truthiness of `timeout && b` for a boolean `b`. -/
theorem truthy_jsAnd_bool (t : JSVal) (b : Bool) :
    truthy (jsAnd t (bool b)) = (truthy t && b) := by
  unfold jsAnd
  cases ht : truthy t
  · simpa using ht
  · simp [truthy]

/-- The method `resetIfTimedOut` on a plain object, branch by branch. -/
theorem resetIfTimedOut_obj (h : TransactionHelper) (now : Int) (fs : Fields) :
    resetIfTimedOut h now (obj fs) =
      if (_isInProgress h (obj fs) && (truthy h.spec.timeout &&
            jsGe (jsSub (jsAdd (num now) h.serverOffset)
              (jsOr (getField fs "_state_changed") (num 0))) h.spec.timeout)) = true then
        Except.ok (obj (setField (setField (setField (setField (setField fs
          "_state" h.spec.startState) "_state_changed" SERVER_TIMESTAMP)
          "_owner" null) "_progress" null) "_error_details" null))
      else Except.ok undefined := by
  simp [resetIfTimedOut, truthy_jsAnd_bool, setProp, getProp]

/-- C3, as stated, fails: with `inProgressState` the empty string and no start
state, the record `{_state: '', _owner: 'a:0'}` is in progress and owned by
`a:0`, and `claim` of the helper with token `b:0` commits it with `_owner` = `b:0`. -/
theorem foreign_claim_counterexample :
    (⟨null, str "", null, str "error", null, num 0⟩ : TaskSpec).inProgressState ≠
      (⟨null, str "", null, str "error", null, num 0⟩ : TaskSpec).startState ∧
    _isInProgress ⟨num 0, num 0, str "b", ⟨null, str "", null, str "error", null, num 0⟩⟩
      (obj [("_state", str ""), ("_owner", str "a:0")]) = true ∧
    getField [("_state", str ""), ("_owner", str "a:0")] "_owner" ≠
      owner ⟨num 0, num 0, str "b", ⟨null, str "", null, str "error", null, num 0⟩⟩ ∧
    claim ⟨num 0, num 0, str "b", ⟨null, str "", null, str "error", null, num 0⟩⟩
        (obj [("_state", str ""), ("_owner", str "a:0")]) =
      Except.ok (obj [("_state", str ""), ("_owner", str "b:0"),
                      ("_state_changed", SERVER_TIMESTAMP), ("_progress", num 0)]) := by
  refine ⟨?_, rfl, ?_, rfl⟩
  · simp
  · have e : owner ⟨num 0, num 0, str "b", ⟨null, str "", null, str "error", null, num 0⟩⟩
        = str "b:0" := rfl
    rw [e]
    simp [getField]

/-- C3 (amended): for every spec whose `inProgressState` is truthy (a non-empty
string) and differs from `startState`, every plain-object record in
`inProgressState` whose `_owner` is not the helper's token is left untouched by
the helper's `claim`, `resolveWith(x)`, `rejectWith(e, s)` and
`updateProgressWith(p)`; `resetIfTimedOut` leaves it untouched too, unless a
timeout is configured and has elapsed, in which case it commits a record with
`_state` = `startState` and `_owner` = null. -/
theorem foreign_helper_cannot_take_over (h : TransactionHelper) (fs : Fields)
    (hs : getField fs "_state" = h.spec.inProgressState)
    (ho : getField fs "_owner" ≠ h.owner)
    (hnz : truthy h.spec.inProgressState = true)
    (hne : h.spec.inProgressState ≠ h.spec.startState) :
    claim h (obj fs) = Except.ok undefined ∧
    (∀ x, resolveWith h x (obj fs) = Except.ok undefined) ∧
    (∀ e s, rejectWith h e s (obj fs) = Except.ok undefined) ∧
    (∀ p, updateProgressWith h p (obj fs) = Except.ok undefined) ∧
    (∀ now : Int,
      resetIfTimedOut h now (obj fs) = Except.ok undefined ∨
      (truthy h.spec.timeout = true ∧
        jsGe (jsSub (jsAdd (num now) h.serverOffset)
          (jsOr (getField fs "_state_changed") (num 0))) h.spec.timeout = true ∧
        ∃ r, resetIfTimedOut h now (obj fs) = Except.ok (obj r) ∧
          getField r "_state" = h.spec.startState ∧ getField r "_owner" = null)) := by
  have hg : (_isOwner h (obj fs) && _isInProgress h (obj fs)) = false :=
    guard_false_of_ne h (obj fs) (Or.inl ho)
  refine ⟨?_, ?_, ?_, ?_, ?_⟩
  · exact claim_of_no_match h fs (claim_guard_in_progress h fs hs hnz hne)
  · intro x
    exact resolveWith_of_guard_false h x _ (by simp) (by simp) hg
  · intro e s
    exact rejectWith_of_guard_false h e s _ (by simp) (by simp) hg
  · intro p
    exact updateProgressWith_of_guard_false h p _ (by simp) (by simp) hg
  · intro now
    rw [resetIfTimedOut_obj]
    split
    · rename_i hc
      simp only [Bool.and_eq_true] at hc
      right
      refine ⟨hc.2.1, hc.2.2, _, rfl, ?_, ?_⟩ <;> simp [getField_setField]
    · left
      rfl

/-- C3 (amended), at a record owned by `a:0` and the helper with token `b:0`. -/
theorem foreign_helper_cannot_take_over_witness :
    claim ⟨num 0, num 0, str "b", ⟨str "start", str "busy", null, str "error", num 10, num 0⟩⟩
        (obj [("_state", str "busy"), ("_owner", str "a:0")]) = Except.ok undefined ∧
    (∀ x, resolveWith
        ⟨num 0, num 0, str "b", ⟨str "start", str "busy", null, str "error", num 10, num 0⟩⟩ x
        (obj [("_state", str "busy"), ("_owner", str "a:0")]) = Except.ok undefined) :=
  have w := foreign_helper_cannot_take_over
    ⟨num 0, num 0, str "b", ⟨str "start", str "busy", null, str "error", num 10, num 0⟩⟩
    [("_state", str "busy"), ("_owner", str "a:0")] rfl
    (by
      have e : owner ⟨num 0, num 0, str "b",
          ⟨str "start", str "busy", null, str "error", num 10, num 0⟩⟩ = str "b:0" := rfl
      rw [e]
      simp [getField])
    rfl (by simp)
  ⟨w.1, w.2.1⟩

/-- C4: on every stored value other than null whose `_owner` is not the helper's
token, or whose `_state` is not `inProgressState` (a record with no `_state`
included), `resolveWith(x)`, `rejectWith(e, s)` and `updateProgressWith(p)` each
return `undefined`, whatever the arguments. -/
theorem not_owned_or_not_in_progress (h : TransactionHelper) (x e s p task : JSVal)
    (hn : task ≠ null) (hu : task ≠ undefined)
    (hpre : getProp task "_owner" ≠ h.owner ∨
      getProp task "_state" ≠ h.spec.inProgressState) :
    resolveWith h x task = Except.ok undefined ∧
    rejectWith h e s task = Except.ok undefined ∧
    updateProgressWith h p task = Except.ok undefined :=
  have hg := guard_false_of_ne h task hpre
  ⟨resolveWith_of_guard_false h x task hn hu hg,
   rejectWith_of_guard_false h e s task hn hu hg,
   updateProgressWith_of_guard_false h p task hn hu hg⟩

/-- C4, at a record that carries the helper's token but has no `_state`. -/
theorem not_owned_or_not_in_progress_witness :
    resolveWith ⟨num 0, num 0, str "w", ⟨null, str "busy", str "done", str "error", null, num 0⟩⟩
        (obj [("foo", str "bar")]) (obj [("_owner", str "w:0")]) = Except.ok undefined ∧
    rejectWith ⟨num 0, num 0, str "w", ⟨null, str "busy", str "done", str "error", null, num 0⟩⟩
        (str "boom") undefined (obj [("_owner", str "w:0")]) = Except.ok undefined ∧
    updateProgressWith
        ⟨num 0, num 0, str "w", ⟨null, str "busy", str "done", str "error", null, num 0⟩⟩
        (num 50) (obj [("_owner", str "w:0")]) = Except.ok undefined :=
  not_owned_or_not_in_progress
    ⟨num 0, num 0, str "w", ⟨null, str "busy", str "done", str "error", null, num 0⟩⟩
    (obj [("foo", str "bar")]) (str "boom") undefined (num 50) (obj [("_owner", str "w:0")])
    (by simp) (by simp) (Or.inr (by simp [getProp, getField]))

end TransactionHelper

/-! ## Resolve -/

namespace TransactionHelper

/-- The method `resolveWith` on an in-progress record that the helper owns. -/
theorem resolveWith_of_guard (h : TransactionHelper) (x task : JSVal)
    (ho : _isOwner h task = true) (hp : _isInProgress h task = true) :
    resolveWith h x task =
      if (strictEq (getField (coerceReplacement x) "_new_state") (bool false) ||
          !((strictEq (getField (coerceReplacement x) "_new_state") null ||
              isString (getField (coerceReplacement x) "_new_state")) ||
            truthy h.spec.finishedState)) = true then Except.ok null
      else
        Except.ok (obj (setField (setField (setField (setField (setField
          (delField (coerceReplacement x) "_new_state")
          "_state"
            (if (strictEq (getField (coerceReplacement x) "_new_state") null ||
                isString (getField (coerceReplacement x) "_new_state")) = true
              then getField (coerceReplacement x) "_new_state" else h.spec.finishedState))
          "_state_changed" SERVER_TIMESTAMP) "_owner" null) "_progress" (num 100))
          "_error_details" null)) := by
  have hnn := ne_null_of_isOwner ho
  cases task <;> simp_all [resolveWith]

/-- A value committed by `resolveWith` is a plain object only on the owned,
in-progress path. -/
theorem guard_of_resolveWith_commit (h : TransactionHelper) (x task : JSVal) (r : Fields)
    (hr : resolveWith h x task = Except.ok (obj r)) :
    _isOwner h task = true ∧ _isInProgress h task = true := by
  cases hg : (_isOwner h task && _isInProgress h task)
  · exfalso
    cases task <;> simp_all [resolveWith]
  · simpa using hg

/-- What `resolveWith` commits, and that deletion was not chosen. -/
theorem resolveWith_commit (h : TransactionHelper) (x task : JSVal) (r : Fields)
    (hr : resolveWith h x task = Except.ok (obj r)) :
    (strictEq (getField (coerceReplacement x) "_new_state") (bool false) ||
      !((strictEq (getField (coerceReplacement x) "_new_state") null ||
          isString (getField (coerceReplacement x) "_new_state")) ||
        truthy h.spec.finishedState)) = false ∧
    r = setField (setField (setField (setField (setField
          (delField (coerceReplacement x) "_new_state")
          "_state"
            (if (strictEq (getField (coerceReplacement x) "_new_state") null ||
                isString (getField (coerceReplacement x) "_new_state")) = true
              then getField (coerceReplacement x) "_new_state" else h.spec.finishedState))
          "_state_changed" SERVER_TIMESTAMP) "_owner" null) "_progress" (num 100))
          "_error_details" null := by
  obtain ⟨ho, hp⟩ := guard_of_resolveWith_commit h x task r hr
  rw [resolveWith_of_guard h x task ho hp] at hr
  split at hr
  · cases hr
  · rename_i hc
    constructor
    · simpa using hc
    · injection hr with hr
      injection hr with hr
      exact hr.symm

/-- C5: on an in-progress record owned by the helper's token, `resolveWith` of
any replacement returns null (delete) or a record with `_owner` = null,
`_progress` = 100, `_error_details` = null and `_state_changed` = the
server-timestamp sentinel, also when the replacement carries such fields itself;
the returned record never has `_owner` = the token. -/
theorem resolve_releases_ownership (h : TransactionHelper) (x task : JSVal)
    (ho : _isOwner h task = true) (hp : _isInProgress h task = true) :
    resolveWith h x task = Except.ok null ∨
    ∃ r, resolveWith h x task = Except.ok (obj r) ∧
      getField r "_owner" = null ∧ getField r "_progress" = num 100 ∧
      getField r "_error_details" = null ∧ getField r "_state_changed" = SERVER_TIMESTAMP ∧
      getField r "_owner" ≠ h.owner := by
  rw [resolveWith_of_guard h x task ho hp]
  split
  · left
    rfl
  · right
    refine ⟨_, rfl, ?_, ?_, ?_, ?_, ?_⟩
    · simp [getField_setField]
    · simp [getField_setField]
    · simp [getField_setField]
    · simp [getField_setField]
    · rw [owner_eq_str]
      simp [getField_setField]

/-- C5, at a replacement that tries to keep the record for the worker. -/
theorem resolve_releases_ownership_witness :
    resolveWith ⟨num 0, num 0, str "w", ⟨null, str "busy", str "done", str "error", null, num 0⟩⟩
        (obj [("_owner", str "w:0"), ("_progress", num 7), ("foo", str "bar")])
        (obj [("_state", str "busy"), ("_owner", str "w:0")]) = Except.ok null ∨
    ∃ r, resolveWith
        ⟨num 0, num 0, str "w", ⟨null, str "busy", str "done", str "error", null, num 0⟩⟩
        (obj [("_owner", str "w:0"), ("_progress", num 7), ("foo", str "bar")])
        (obj [("_state", str "busy"), ("_owner", str "w:0")]) = Except.ok (obj r) ∧
      getField r "_owner" = null ∧ getField r "_progress" = num 100 ∧
      getField r "_error_details" = null ∧ getField r "_state_changed" = SERVER_TIMESTAMP ∧
      getField r "_owner" ≠
        owner ⟨num 0, num 0, str "w", ⟨null, str "busy", str "done", str "error", null, num 0⟩⟩ :=
  resolve_releases_ownership
    ⟨num 0, num 0, str "w", ⟨null, str "busy", str "done", str "error", null, num 0⟩⟩
    (obj [("_owner", str "w:0"), ("_progress", num 7), ("foo", str "bar")])
    (obj [("_state", str "busy"), ("_owner", str "w:0")]) rfl rfl

/-- C6, as stated, fails: with `finishedState` configured as the empty string,
`resolveWith({})` on an owned in-progress record deletes it although
`_new_state` is absent (not false) and a `finishedState` string is configured. -/
theorem resolve_empty_finished_counterexample :
    resolveWith ⟨num 0, num 0, str "w", ⟨null, str "busy", str "", str "error", null, num 0⟩⟩
        (obj []) (obj [("_state", str "busy"), ("_owner", str "w:0")]) = Except.ok null ∧
    getField (coerceReplacement (obj [])) "_new_state" ≠ bool false ∧
    (⟨null, str "busy", str "", str "error", null, num 0⟩ : TaskSpec).finishedState = str "" ∧
    _isOwner ⟨num 0, num 0, str "w", ⟨null, str "busy", str "", str "error", null, num 0⟩⟩
      (obj [("_state", str "busy"), ("_owner", str "w:0")]) = true ∧
    _isInProgress ⟨num 0, num 0, str "w", ⟨null, str "busy", str "", str "error", null, num 0⟩⟩
      (obj [("_state", str "busy"), ("_owner", str "w:0")]) = true := by
  refine ⟨rfl, ?_, rfl, rfl, rfl⟩
  simp [coerceReplacement, getField]

/-- C6 (amended): on an in-progress record owned by the token, `resolveWith`
returns null (delete) exactly when the replacement's `_new_state` is `false`, or
`_new_state` is neither a string nor null (absent included) and `finishedState`
is falsy: absent, null or the empty string. -/
theorem resolve_deletes_iff (h : TransactionHelper) (x task : JSVal)
    (ho : _isOwner h task = true) (hp : _isInProgress h task = true) :
    resolveWith h x task = Except.ok null ↔
      (getField (coerceReplacement x) "_new_state" = bool false ∨
        (isString (getField (coerceReplacement x) "_new_state") = false ∧
          getField (coerceReplacement x) "_new_state" ≠ null ∧
          truthy h.spec.finishedState = false)) := by
  rw [resolveWith_of_guard h x task ho hp]
  generalize getField (coerceReplacement x) "_new_state" = ns
  have e1 : strictEq ns (bool false) = true ↔ ns = bool false := by
    constructor
    · exact strictEq_eq
    · intro e
      subst e
      rfl
  have e2 : strictEq ns null = false ↔ ns ≠ null := by
    constructor
    · intro hf e
      subst e
      simp [strictEq] at hf
    · exact strictEq_false_of_ne
  constructor
  · intro hr
    split at hr
    · rename_i hc
      simp only [Bool.or_eq_true, Bool.not_eq_true', Bool.or_eq_false_iff] at hc
      rcases hc with hc | ⟨⟨h1, h2⟩, h3⟩
      · exact Or.inl (e1.mp hc)
      · exact Or.inr ⟨h2, e2.mp h1, h3⟩
    · cases hr
  · intro hc
    rw [if_pos]
    simp only [Bool.or_eq_true, Bool.not_eq_true', Bool.or_eq_false_iff]
    rcases hc with hc | ⟨h2, h1, h3⟩
    · exact Or.inl (e1.mpr hc)
    · exact Or.inr ⟨⟨e2.mpr h1, h2⟩, h3⟩

/-- C6 (amended), at `_new_state` = false with a finished state configured. -/
theorem resolve_deletes_iff_witness :
    resolveWith ⟨num 0, num 0, str "w", ⟨null, str "busy", str "done", str "error", null, num 0⟩⟩
        (obj [("foo", str "bar"), ("_new_state", bool false)])
        (obj [("_state", str "busy"), ("_owner", str "w:0")]) = Except.ok null :=
  (resolve_deletes_iff
    ⟨num 0, num 0, str "w", ⟨null, str "busy", str "done", str "error", null, num 0⟩⟩
    (obj [("foo", str "bar"), ("_new_state", bool false)])
    (obj [("_state", str "busy"), ("_owner", str "w:0")]) rfl rfl).mpr (Or.inl rfl)

/-- C7: when `resolveWith(replacement)` commits a record (does not delete), the
committed `_state` is the replacement's `_new_state` whenever that is a string or
null, whatever `finishedState` is configured; otherwise (`_new_state` absent or of
another type) it is `finishedState`. -/
theorem resolve_next_state (h : TransactionHelper) (x task : JSVal) (r : Fields)
    (hr : resolveWith h x task = Except.ok (obj r)) :
    ((isString (getField (coerceReplacement x) "_new_state") = true ∨
        getField (coerceReplacement x) "_new_state" = null) →
      getField r "_state" = getField (coerceReplacement x) "_new_state") ∧
    (¬ (isString (getField (coerceReplacement x) "_new_state") = true ∨
        getField (coerceReplacement x) "_new_state" = null) →
      getField r "_state" = h.spec.finishedState) := by
  obtain ⟨_, hr2⟩ := resolveWith_commit h x task r hr
  subst hr2
  generalize getField (coerceReplacement x) "_new_state" = ns
  constructor
  · intro hv
    have hv2 : (strictEq ns null || isString ns) = true := by
      rcases hv with hv | hv
      · simp [hv]
      · subst hv
        rfl
    simp [getField_setField, hv2]
  · intro hv
    have hv2 : (strictEq ns null || isString ns) = false := by
      simp only [Bool.or_eq_false_iff]
      constructor
      · cases hs : strictEq ns null
        · rfl
        · exact absurd (Or.inr (strictEq_eq hs)) hv
      · cases hs : isString ns
        · rfl
        · exact absurd (Or.inl hs) hv
    simp [getField_setField, hv2]

/-- C7, at the three cases of the tests: a string `_new_state`, a null
`_new_state` and an object `_new_state`, each with `finishedState` configured. -/
theorem resolve_next_state_witness :
    getField [("foo", str "bar"), ("_state", str "valid_new_state"),
        ("_state_changed", SERVER_TIMESTAMP), ("_owner", null), ("_progress", num 100),
        ("_error_details", null)] "_state" = str "valid_new_state" ∧
    getField [("foo", str "bar"), ("_state", null),
        ("_state_changed", SERVER_TIMESTAMP), ("_owner", null), ("_progress", num 100),
        ("_error_details", null)] "_state" = null ∧
    getField [("foo", str "bar"), ("_state", str "finished_state"),
        ("_state_changed", SERVER_TIMESTAMP), ("_owner", null), ("_progress", num 100),
        ("_error_details", null)] "_state" = str "finished_state" :=
  ⟨(resolve_next_state
      ⟨num 0, num 0, str "w",
        ⟨null, str "in_progress", str "finished_state", str "error", null, num 0⟩⟩
      (obj [("foo", str "bar"), ("_new_state", str "valid_new_state")])
      (obj [("_state", str "in_progress"), ("_owner", str "w:0")]) _ rfl).1 (Or.inl rfl),
   (resolve_next_state
      ⟨num 0, num 0, str "w",
        ⟨null, str "in_progress", str "finished_state", str "error", null, num 0⟩⟩
      (obj [("foo", str "bar"), ("_new_state", null)])
      (obj [("_state", str "in_progress"), ("_owner", str "w:0")]) _ rfl).1 (Or.inr rfl),
   (resolve_next_state
      ⟨num 0, num 0, str "w",
        ⟨null, str "in_progress", str "finished_state", str "error", null, num 0⟩⟩
      (obj [("foo", str "bar"),
            ("_new_state", obj [("state", str "object_is_an_invalid_new_state")])])
      (obj [("_state", str "in_progress"), ("_owner", str "w:0")]) _ rfl).2
      (by simp [coerceReplacement, getField, isString])⟩

/-- C8: when `resolveWith` of a plain-object replacement commits a record, that
record has no `_new_state`, has the five bookkeeping fields `_state`,
`_state_changed`, `_owner`, `_progress` and `_error_details`, and on every other
key it has exactly the replacement's field: present when the replacement has it,
with the same value. -/
theorem resolve_payload (h : TransactionHelper) (rep : Fields) (task : JSVal) (r : Fields)
    (hr : resolveWith h (obj rep) task = Except.ok (obj r)) :
    hasField r "_new_state" = false ∧
    (∀ k, k ∈ ["_state", "_state_changed", "_owner", "_progress", "_error_details"] →
      hasField r k = true) ∧
    (∀ k, k ∉ ["_state", "_state_changed", "_owner", "_progress", "_error_details"] →
      k ≠ "_new_state" → hasField r k = hasField rep k ∧ getField r k = getField rep k) := by
  obtain ⟨_, hr2⟩ := resolveWith_commit h (obj rep) task r hr
  subst hr2
  refine ⟨?_, ?_, ?_⟩
  · simp [hasField_setField, hasField_delField]
  · intro k hk
    simp only [List.mem_cons, List.mem_singleton, List.not_mem_nil, or_false] at hk
    rcases hk with hk | hk | hk | hk | hk <;> subst hk <;> simp [hasField_setField]
  · intro k hk hk2
    simp only [List.mem_cons, List.mem_singleton, List.not_mem_nil, or_false, not_or] at hk
    obtain ⟨k1, k2, k3, k4, k5⟩ := hk
    constructor
    · simp [hasField_setField, hasField_delField, coerceReplacement, k1, k2, k3, k4, k5, hk2]
    · simp [getField_setField, getField_delField, coerceReplacement, k1, k2, k3, k4, k5, hk2]

/-- C8, at the spec's example: `{foo: 'bar', _new_state: 'done'}` with no
`finishedState` commits `foo` = 'bar' and no `_new_state`. -/
theorem resolve_payload_witness :
    hasField [("foo", str "bar"), ("_state", str "done"),
        ("_state_changed", SERVER_TIMESTAMP), ("_owner", null), ("_progress", num 100),
        ("_error_details", null)] "_new_state" = false ∧
    (hasField [("foo", str "bar"), ("_state", str "done"),
        ("_state_changed", SERVER_TIMESTAMP), ("_owner", null), ("_progress", num 100),
        ("_error_details", null)] "foo" =
      hasField [("foo", str "bar"), ("_new_state", str "done")] "foo" ∧
     getField [("foo", str "bar"), ("_state", str "done"),
        ("_state_changed", SERVER_TIMESTAMP), ("_owner", null), ("_progress", num 100),
        ("_error_details", null)] "foo" =
      getField [("foo", str "bar"), ("_new_state", str "done")] "foo") :=
  have w := resolve_payload
    ⟨num 0, num 0, str "w", ⟨null, str "busy", null, str "error", null, num 0⟩⟩
    [("foo", str "bar"), ("_new_state", str "done")]
    (obj [("_state", str "busy"), ("_owner", str "w:0")]) _ rfl
  ⟨w.1, w.2.2 "foo" (by decide) (by decide)⟩

end TransactionHelper

/-! ## Reject -/

namespace JSVal

theorem getProp_setProp_obj (fs : Fields) (k k' : String) (v : JSVal) :
    getProp (setProp (obj fs) k v) k' = if k' = k then v else getProp (obj fs) k' := by
  simp [setProp, getProp, getField_setField]

theorem getProp_setProp_arr (es : List JSVal) (ps : Fields) (k k' : String) (v : JSVal) :
    getProp (setProp (arr es ps) k v) k' = if k' = k then v else getProp (arr es ps) k' := by
  simp [setProp, getProp, getField_setField]

/-- Reading through `details || {}` is reading `details`: a falsy value has no
properties. -/
theorem getProp_jsOr_empty (d : JSVal) (k : String) :
    getProp (jsOr d (obj [])) k = getProp d k := by
  cases ht : truthy d
  · rw [jsOr_of_falsy ht]
    cases d <;> simp_all [truthy, getProp, getField]
  · rw [jsOr_of_truthy ht]

/-- A value that `===` some value is `===` itself. -/
theorem strictEq_self_of_strictEq {a b : JSVal} (h : strictEq a b = true) :
    strictEq b b = true := by
  cases a <;> cases b <;> simp_all [strictEq]

theorem defaultTo_num (n : Int) (d : JSVal) : defaultTo (num n) d = num n := rfl

theorem defaultTo_undefined (d : JSVal) : defaultTo undefined d = d := rfl

end JSVal

namespace TransactionHelper

/-- The method `rejectWith` on an in-progress record that the helper owns. -/
theorem rejectWith_of_guard (h : TransactionHelper) (e s task : JSVal)
    (ho : _isOwner h task = true) (hp : _isInProgress h task = true) :
    rejectWith h e s task =
      Except.ok (setProp (setProp (setProp (setProp task
        "_state"
          (if jsGt
              (if strictEq (getProp (jsOr (getProp task "_error_details") (obj []))
                    "previous_state") h.spec.inProgressState = true
                then jsAdd (defaultTo (getProp (jsOr (getProp task "_error_details") (obj []))
                    "attempts") (num 0)) (num 1)
                else num 1) h.spec.retries = true
            then h.spec.errorState else h.spec.startState))
        "_state_changed" SERVER_TIMESTAMP) "_owner" null)
        "_error_details"
          (obj [("previous_state", h.spec.inProgressState), ("error", e), ("error_stack", s),
                ("attempts",
                  if strictEq (getProp (jsOr (getProp task "_error_details") (obj []))
                      "previous_state") h.spec.inProgressState = true
                  then jsAdd (defaultTo (getProp (jsOr (getProp task "_error_details") (obj []))
                      "attempts") (num 0)) (num 1)
                  else num 1)])) := by
  have hnn := ne_null_of_isOwner ho
  cases task <;> simp_all [rejectWith]

/-- A record that passes `_isOwner` is an object or an array with named
properties. -/
theorem objLike_of_isOwner {h : TransactionHelper} {task : JSVal}
    (ho : _isOwner h task = true) :
    (∃ fs, task = obj fs) ∨ (∃ es ps, task = arr es ps) := by
  rw [isOwner_iff, owner_eq_str] at ho
  cases task <;> simp_all [getProp]

/-- The fields `rejectWith` reads back after its four writes. -/
theorem getProp_reject_writes (task : JSVal) (v1 v2 v3 v4 : JSVal)
    (hl : (∃ fs, task = obj fs) ∨ (∃ es ps, task = arr es ps)) :
    getProp (setProp (setProp (setProp (setProp task "_state" v1) "_state_changed" v2)
      "_owner" v3) "_error_details" v4) "_error_details" = v4 ∧
    getProp (setProp (setProp (setProp (setProp task "_state" v1) "_state_changed" v2)
      "_owner" v3) "_error_details" v4) "_state" = v1 := by
  rcases hl with ⟨fs, rfl⟩ | ⟨es, ps, rfl⟩ <;>
    simp [setProp, getProp, getField_setField]

/-- The attempts count read back from the `_error_details` that `rejectWith` writes. -/
theorem getProp_details_attempts (a b c d : JSVal) :
    getProp (obj [("previous_state", a), ("error", b), ("error_stack", c), ("attempts", d)])
      "attempts" = d := by
  simp [getProp, getField]

/-- C9: on an in-progress record owned by the token, `rejectWith` commits
`_error_details.attempts` = stored attempts + 1 (stored attempts an integer `n`
with `-2^53 ≤ n < 2^53`, the range in which the source's addition of 1 is
exact), or 0 + 1 when no attempts are stored, provided the stored
`_error_details.previous_state` equals `inProgressState`; and commits 1 in every
other case (no `_error_details`, or a different or absent `previous_state`). -/
theorem reject_attempts (h : TransactionHelper) (e s task : JSVal)
    (ho : _isOwner h task = true) (hp : _isInProgress h task = true) :
    ∃ r, rejectWith h e s task = Except.ok r ∧
      (getProp (getProp task "_error_details") "previous_state" = h.spec.inProgressState →
        (∀ n : Int, -(2 ^ 53) ≤ n → n < 2 ^ 53 →
          getProp (getProp task "_error_details") "attempts" = num n →
          getProp (getProp r "_error_details") "attempts" = num (n + 1)) ∧
        (getProp (getProp task "_error_details") "attempts" = undefined →
          getProp (getProp r "_error_details") "attempts" = num 1)) ∧
      (getProp (getProp task "_error_details") "previous_state" ≠ h.spec.inProgressState →
        getProp (getProp r "_error_details") "attempts" = num 1) := by
  refine ⟨_, rejectWith_of_guard h e s task ho hp, ?_, ?_⟩
  · intro hprev
    have hm : strictEq (getProp (jsOr (getProp task "_error_details") (obj []))
        "previous_state") h.spec.inProgressState = true := by
      rw [getProp_jsOr_empty, hprev]
      exact strictEq_self_of_strictEq hp
    constructor
    · intro n _ _ hn
      rw [(getProp_reject_writes task _ _ _ _ (objLike_of_isOwner ho)).1,
        getProp_details_attempts, if_pos hm, getProp_jsOr_empty, hn, defaultTo_num,
        jsAdd_num_num]
    · intro hn
      rw [(getProp_reject_writes task _ _ _ _ (objLike_of_isOwner ho)).1,
        getProp_details_attempts, if_pos hm, getProp_jsOr_empty, hn, defaultTo_undefined,
        jsAdd_num_num]
      rfl
  · intro hprev
    have hm : strictEq (getProp (jsOr (getProp task "_error_details") (obj []))
        "previous_state") h.spec.inProgressState = false := by
      rw [getProp_jsOr_empty]
      exact strictEq_false_of_ne hprev
    rw [(getProp_reject_writes task _ _ _ _ (objLike_of_isOwner ho)).1,
      getProp_details_attempts, hm]
    rfl

/-- C9, at the two records of the tests: stored attempts 1 under the same
`previous_state` gives 2, under another `previous_state` gives 1. -/
theorem reject_attempts_witness :
    (∃ r, rejectWith
        ⟨num 0, num 0, str "w", ⟨null, str "in_progress", null, str "error", null, num 4⟩⟩
        undefined undefined
        (obj [("_state", str "in_progress"), ("_owner", str "w:0"), ("_progress", num 0),
              ("_error_details",
                obj [("previous_state", str "in_progress"), ("attempts", num 1)])])
          = Except.ok r ∧
      getProp (getProp r "_error_details") "attempts" = num (1 + 1)) ∧
    (∃ r, rejectWith
        ⟨num 0, num 0, str "w", ⟨null, str "in_progress", null, str "error", null, num 4⟩⟩
        undefined undefined
        (obj [("_state", str "in_progress"), ("_owner", str "w:0"), ("_progress", num 0),
              ("_error_details",
                obj [("previous_state", str "other_in_progress_state"), ("attempts", num 1)])])
          = Except.ok r ∧
      getProp (getProp r "_error_details") "attempts" = num 1) := by
  constructor
  · obtain ⟨r, hr, h1, _⟩ := reject_attempts
      ⟨num 0, num 0, str "w", ⟨null, str "in_progress", null, str "error", null, num 4⟩⟩
      undefined undefined
      (obj [("_state", str "in_progress"), ("_owner", str "w:0"), ("_progress", num 0),
            ("_error_details",
              obj [("previous_state", str "in_progress"), ("attempts", num 1)])]) rfl rfl
    exact ⟨r, hr, (h1 rfl).1 1 (by decide) (by decide) rfl⟩
  · obtain ⟨r, hr, _, h2⟩ := reject_attempts
      ⟨num 0, num 0, str "w", ⟨null, str "in_progress", null, str "error", null, num 4⟩⟩
      undefined undefined
      (obj [("_state", str "in_progress"), ("_owner", str "w:0"), ("_progress", num 0),
            ("_error_details",
              obj [("previous_state", str "other_in_progress_state"), ("attempts", num 1)])])
      rfl rfl
    exact ⟨r, hr, h2 (by simp [getProp, getField])⟩

/-- C10: on an in-progress record owned by the token, with `retries` an integer,
`rejectWith` commits `_state` = `errorState` when the attempts count it commits is
strictly greater than `retries`, and `_state` = `startState` otherwise; where the
two states differ, `_state` = `errorState` if and only if attempts > retries. -/
theorem reject_transition (h : TransactionHelper) (e s task : JSVal) (retries : Int)
    (ho : _isOwner h task = true) (hp : _isInProgress h task = true)
    (hret : h.spec.retries = num retries) :
    ∃ r, rejectWith h e s task = Except.ok r ∧
      ∀ k : Int, getProp (getProp r "_error_details") "attempts" = num k →
        (retries < k → getProp r "_state" = h.spec.errorState) ∧
        (¬ retries < k → getProp r "_state" = h.spec.startState) ∧
        (h.spec.errorState ≠ h.spec.startState →
          (getProp r "_state" = h.spec.errorState ↔ retries < k)) := by
  refine ⟨_, rejectWith_of_guard h e s task ho hp, ?_⟩
  intro k
  rw [(getProp_reject_writes task _ _ _ _ (objLike_of_isOwner ho)).1,
    (getProp_reject_writes task _ _ _ _ (objLike_of_isOwner ho)).2]
  generalize (if strictEq (getProp (jsOr (getProp task "_error_details") (obj []))
      "previous_state") h.spec.inProgressState = true
    then jsAdd (defaultTo (getProp (jsOr (getProp task "_error_details") (obj []))
      "attempts") (num 0)) (num 1)
    else num 1) = a
  intro hk
  rw [getProp_details_attempts] at hk
  have ha : a = num k := hk
  subst ha
  rw [hret, jsGt_num_num]
  by_cases hlt : retries < k
  · simp [hlt]
  · simp only [hlt, decide_False, Bool.false_eq_true, if_false, not_false_eq_true,
      forall_true_left, false_implies, true_and, iff_false]
    intro hne heq
    exact hne heq.symm

/-- C10, at the claim's examples: stored attempts 1 under the same
`previous_state` with retries 1 gives `errorState` and attempts 2, and with
retries 4 gives `startState` and attempts 2. -/
theorem reject_transition_witness :
    (∃ r, rejectWith
        ⟨num 0, num 0, str "w", ⟨str "start", str "busy", null, str "error", null, num 1⟩⟩
        undefined undefined
        (obj [("_state", str "busy"), ("_owner", str "w:0"),
              ("_error_details", obj [("previous_state", str "busy"), ("attempts", num 1)])])
          = Except.ok r ∧
      getProp (getProp r "_error_details") "attempts" = num 2 ∧
      getProp r "_state" = str "error") ∧
    (∃ r, rejectWith
        ⟨num 0, num 0, str "w", ⟨str "start", str "busy", null, str "error", null, num 4⟩⟩
        undefined undefined
        (obj [("_state", str "busy"), ("_owner", str "w:0"),
              ("_error_details", obj [("previous_state", str "busy"), ("attempts", num 1)])])
          = Except.ok r ∧
      getProp (getProp r "_error_details") "attempts" = num 2 ∧
      getProp r "_state" = str "start") := by
  constructor
  · obtain ⟨r, hr, hk⟩ := reject_transition
      ⟨num 0, num 0, str "w", ⟨str "start", str "busy", null, str "error", null, num 1⟩⟩
      undefined undefined
      (obj [("_state", str "busy"), ("_owner", str "w:0"),
            ("_error_details", obj [("previous_state", str "busy"), ("attempts", num 1)])])
      1 rfl rfl rfl
    have ha : getProp (getProp r "_error_details") "attempts" = num 2 := by
      injection hr with hr
      subst hr
      rfl
    exact ⟨r, hr, ha, (hk 2 ha).1 (by decide)⟩
  · obtain ⟨r, hr, hk⟩ := reject_transition
      ⟨num 0, num 0, str "w", ⟨str "start", str "busy", null, str "error", null, num 4⟩⟩
      undefined undefined
      (obj [("_state", str "busy"), ("_owner", str "w:0"),
            ("_error_details", obj [("previous_state", str "busy"), ("attempts", num 1)])])
      4 rfl rfl rfl
    have ha : getProp (getProp r "_error_details") "attempts" = num 2 := by
      injection hr with hr
      subst hr
      rfl
    exact ⟨r, hr, ha, (hk 2 ha).2.1 (by decide)⟩

end TransactionHelper

/-! ## Deleted and malformed values -/

/-- C17: applied to the null record, every transaction function of
`TransactionHelper` (`claim`, `resolveWith(x)`, `rejectWith(e, s)`,
`updateProgressWith(p)`, `resetIfTimedOut`) and of `TaskWorker` (`reset`,
`resetIfTimedOut`, `resolveWith(x)`) returns null, for every spec, argument and
clock reading. -/
theorem null_stays_null (h : TransactionHelper) (w : TaskWorker) (x e s p : JSVal) (now : Int) :
    TransactionHelper.claim h null = Except.ok null ∧
    TransactionHelper.resolveWith h x null = Except.ok null ∧
    TransactionHelper.rejectWith h e s null = Except.ok null ∧
    TransactionHelper.updateProgressWith h p null = Except.ok null ∧
    TransactionHelper.resetIfTimedOut h now null = Except.ok null ∧
    TaskWorker.reset w null = Except.ok null ∧
    TaskWorker.resetIfTimedOut w now null = Except.ok null ∧
    TaskWorker.resolveWith w x null = Except.ok null :=
  ⟨rfl, rfl, rfl, rfl, rfl, rfl, rfl, rfl⟩

namespace TransactionHelper

/-- C19: for every value other than null that is not a plain object, `claim`
returns exactly `{_state: errorState, _state_changed: <server timestamp>,
_error_details: {error: 'Task was malformed', original_task: <the value>}}`: the
record has no `_owner` and no `_progress`, and `original_task` is the value
itself. -/
theorem claim_malformed (h : TransactionHelper) (task : JSVal)
    (hn : task ≠ null) (hp : isPlainObject task = false) :
    claim h task =
      Except.ok (obj [("_state", h.spec.errorState), ("_state_changed", SERVER_TIMESTAMP),
        ("_error_details",
          obj [("error", str "Task was malformed"), ("original_task", task)])]) ∧
    hasField [("_state", h.spec.errorState), ("_state_changed", SERVER_TIMESTAMP),
        ("_error_details",
          obj [("error", str "Task was malformed"), ("original_task", task)])] "_owner"
      = false ∧
    hasField [("_state", h.spec.errorState), ("_state_changed", SERVER_TIMESTAMP),
        ("_error_details",
          obj [("error", str "Task was malformed"), ("original_task", task)])] "_progress"
      = false ∧
    getProp (getField [("_state", h.spec.errorState), ("_state_changed", SERVER_TIMESTAMP),
        ("_error_details",
          obj [("error", str "Task was malformed"), ("original_task", task)])]
        "_error_details") "original_task" = task := by
  refine ⟨?_, ?_, ?_, ?_⟩
  · cases task <;> simp_all [claim, isPlainObject]
  · simp [hasField]
  · simp [hasField]
  · simp [getField, getProp]

/-- C19, at the string 'invalid' of the tests and at an array. -/
theorem claim_malformed_witness :
    claim ⟨num 0, num 0, str "w", ⟨null, str "in_progress", null, str "error", null, num 0⟩⟩
        (str "invalid") =
      Except.ok (obj [("_state", str "error"), ("_state_changed", SERVER_TIMESTAMP),
        ("_error_details",
          obj [("error", str "Task was malformed"), ("original_task", str "invalid")])]) ∧
    claim ⟨num 0, num 0, str "w", ⟨null, str "in_progress", null, str "error", null, num 0⟩⟩
        (arr [str "foo", num 1] []) =
      Except.ok (obj [("_state", str "error"), ("_state_changed", SERVER_TIMESTAMP),
        ("_error_details",
          obj [("error", str "Task was malformed"),
               ("original_task", arr [str "foo", num 1] [])])]) :=
  ⟨(claim_malformed
      ⟨num 0, num 0, str "w", ⟨null, str "in_progress", null, str "error", null, num 0⟩⟩
      (str "invalid") (by simp) rfl).1,
   (claim_malformed
      ⟨num 0, num 0, str "w", ⟨null, str "in_progress", null, str "error", null, num 0⟩⟩
      (arr [str "foo", num 1] []) (by simp) rfl).1⟩

/-- What `claim` commits on a plain object. -/
theorem claim_commit (h : TransactionHelper) (fs r : Fields)
    (hc : claim h (obj fs) = Except.ok (obj r)) :
    strictEq (jsOr (getField fs "_state") null) h.spec.startState = true ∧
    r = setField (setField (setField (setField fs
        "_state" h.spec.inProgressState) "_state_changed" SERVER_TIMESTAMP)
        "_owner" h.owner) "_progress" (num 0) := by
  cases hm : strictEq (jsOr (getField fs "_state") null) h.spec.startState
  · rw [claim_of_no_match h fs hm] at hc
    cases hc
  · rw [claim_of_match h fs hm] at hc
    injection hc with hc
    injection hc with hc
    exact ⟨rfl, hc.symm⟩

/-- C18: whenever `claim` commits on a plain-object record, the committed record
has `_state` = `inProgressState`, `_state_changed` = the server-timestamp
sentinel, `_owner` = the helper's token and `_progress` = 0, and every other
field of the input record (user fields, an existing `_error_details`) is there
exactly as before. -/
theorem claim_effect (h : TransactionHelper) (fs r : Fields)
    (hc : claim h (obj fs) = Except.ok (obj r)) :
    getField r "_state" = h.spec.inProgressState ∧
    getField r "_state_changed" = SERVER_TIMESTAMP ∧
    getField r "_owner" = h.owner ∧
    getField r "_progress" = num 0 ∧
    (∀ k, k ∉ ["_state", "_state_changed", "_owner", "_progress"] →
      getField r k = getField fs k ∧ hasField r k = hasField fs k) := by
  obtain ⟨_, hr⟩ := claim_commit h fs r hc
  subst hr
  refine ⟨?_, ?_, ?_, ?_, ?_⟩
  · simp [getField_setField]
  · simp [getField_setField]
  · simp [getField_setField]
  · simp [getField_setField]
  · intro k hk
    simp only [List.mem_cons, List.mem_singleton, List.not_mem_nil, or_false, not_or] at hk
    obtain ⟨k1, k2, k3, k4⟩ := hk
    constructor
    · simp [getField_setField, k1, k2, k3, k4]
    · simp [hasField_setField, k1, k2, k3, k4]

/-- C18, at the spec's example `{_state: 'start'}` with a user field and an
`_error_details` added. -/
theorem claim_effect_witness :
    claim ⟨num 0, num 0, str "w", ⟨str "start", str "busy", null, str "error", null, num 0⟩⟩
        (obj [("_state", str "start")]) =
      Except.ok (obj [("_state", str "busy"), ("_state_changed", SERVER_TIMESTAMP),
                      ("_owner", str "w:0"), ("_progress", num 0)]) ∧
    (getField [("_state", str "busy"), ("foo", str "bar"),
        ("_error_details", obj [("attempts", num 1)]),
        ("_state_changed", SERVER_TIMESTAMP), ("_owner", str "w:0"), ("_progress", num 0)]
        "_error_details" =
      getField [("_state", str "start"), ("foo", str "bar"),
        ("_error_details", obj [("attempts", num 1)])] "_error_details" ∧
     hasField [("_state", str "busy"), ("foo", str "bar"),
        ("_error_details", obj [("attempts", num 1)]),
        ("_state_changed", SERVER_TIMESTAMP), ("_owner", str "w:0"), ("_progress", num 0)]
        "_error_details" =
      hasField [("_state", str "start"), ("foo", str "bar"),
        ("_error_details", obj [("attempts", num 1)])] "_error_details") :=
  ⟨rfl,
   (claim_effect
      ⟨num 0, num 0, str "w", ⟨str "start", str "busy", null, str "error", null, num 0⟩⟩
      [("_state", str "start"), ("foo", str "bar"),
        ("_error_details", obj [("attempts", num 1)])] _ rfl).2.2.2.2
      "_error_details" (by decide)⟩

end TransactionHelper

/-! ## Reset -/

namespace JSVal

theorem jsSub_num_num (x y : Int) : jsSub (num x) (num y) = num (x - y) := by
  simp [jsSub, toNumber]

theorem jsGe_num_num (x y : Int) : jsGe (num x) (num y) = decide (y ≤ x) := by
  by_cases hle : y ≤ x
  · have hlt : ¬ x < y := not_lt.mpr hle
    simp [jsGe, jsLess, toPrimitive, toNumber, hle, hlt]
  · have hlt : x < y := lt_of_not_le hle
    simp [jsGe, jsLess, toPrimitive, toNumber, hle, hlt]

/-- The expression `c || 0` on a number is that number. -/
theorem jsOr_num_zero (c : Int) : jsOr (num c) (num 0) = num c := by
  by_cases hc : c = 0
  · subst hc
    simp [jsOr, truthy]
  · simp [jsOr, truthy, hc]

/-- The expression `undefined || 0`. -/
theorem jsOr_undefined_zero : jsOr undefined (num 0) = num 0 := rfl

theorem truthy_num (n : Int) (hn : n ≠ 0) : truthy (num n) = true := by
  simp [truthy, hn]

end JSVal

namespace TaskWorker

/-- The method `reset` on a plain object, branch by branch. -/
theorem worker_reset_obj (w : TaskWorker) (fs : Fields) :
    reset w (obj fs) =
      if (_isOwner w (obj fs) && _isInProgress w (obj fs)) = true then
        Except.ok (obj (setField (setField (setField (setField (setField fs
          "_state" w.spec.startState) "_state_changed" SERVER_TIMESTAMP)
          "_owner" null) "_progress" null) "_error_details" null))
      else Except.ok undefined := by
  simp [reset, _reset, setProp]

/-- The method `resetIfTimedOut` on a plain object, branch by branch. -/
theorem worker_resetIfTimedOut_obj (w : TaskWorker) (now : Int) (fs : Fields) :
    resetIfTimedOut w now (obj fs) =
      if (_isInProgress w (obj fs) && (truthy w.spec.timeout &&
            jsGe (jsSub (jsSub (num now) w.serverOffset)
              (jsOr (getField fs "_state_changed") (num 0))) w.spec.timeout)) = true then
        Except.ok (obj (setField (setField (setField (setField (setField fs
          "_state" w.spec.startState) "_state_changed" SERVER_TIMESTAMP)
          "_owner" null) "_progress" null) "_error_details" null))
      else Except.ok undefined := by
  simp [resetIfTimedOut, _reset, TransactionHelper.truthy_jsAnd_bool, setProp, getProp]

end TaskWorker

/-- The five writes of a reset, read back key by key. -/
theorem reset_writes (fs : Fields) (start : JSVal) :
    getField (setField (setField (setField (setField (setField fs
        "_state" start) "_state_changed" SERVER_TIMESTAMP)
        "_owner" null) "_progress" null) "_error_details" null) "_state" = start ∧
    getField (setField (setField (setField (setField (setField fs
        "_state" start) "_state_changed" SERVER_TIMESTAMP)
        "_owner" null) "_progress" null) "_error_details" null) "_state_changed"
      = SERVER_TIMESTAMP ∧
    getField (setField (setField (setField (setField (setField fs
        "_state" start) "_state_changed" SERVER_TIMESTAMP)
        "_owner" null) "_progress" null) "_error_details" null) "_owner" = null ∧
    getField (setField (setField (setField (setField (setField fs
        "_state" start) "_state_changed" SERVER_TIMESTAMP)
        "_owner" null) "_progress" null) "_error_details" null) "_progress" = null ∧
    getField (setField (setField (setField (setField (setField fs
        "_state" start) "_state_changed" SERVER_TIMESTAMP)
        "_owner" null) "_progress" null) "_error_details" null) "_error_details" = null ∧
    (∀ k, k ∉ ["_state", "_state_changed", "_owner", "_progress", "_error_details"] →
      getField (setField (setField (setField (setField (setField fs
        "_state" start) "_state_changed" SERVER_TIMESTAMP)
        "_owner" null) "_progress" null) "_error_details" null) k = getField fs k ∧
      hasField (setField (setField (setField (setField (setField fs
        "_state" start) "_state_changed" SERVER_TIMESTAMP)
        "_owner" null) "_progress" null) "_error_details" null) k = hasField fs k) := by
  refine ⟨?_, ?_, ?_, ?_, ?_, ?_⟩
  · simp [getField_setField]
  · simp [getField_setField]
  · simp [getField_setField]
  · simp [getField_setField]
  · simp [getField_setField]
  · intro k hk
    simp only [List.mem_cons, List.mem_singleton, List.not_mem_nil, or_false, not_or] at hk
    obtain ⟨k1, k2, k3, k4, k5⟩ := hk
    constructor
    · simp [getField_setField, k1, k2, k3, k4, k5]
    · simp [hasField_setField, k1, k2, k3, k4, k5]

/-- C13: on a plain-object record, with `serverOffset` a number, a configured
timeout (a number other than 0) and `_state_changed` a number or missing
(counted as 0), `TransactionHelper.resetIfTimedOut` commits a record if and only
if `_state` is `inProgressState` and now + serverOffset - `_state_changed` is at
least the timeout, exactly the timeout included; in every other case, and
whenever no timeout is configured (null, absent), it returns `undefined`. -/
theorem resetIfTimedOut_iff (h : TransactionHelper) (now offset : Int) (fs : Fields)
    (p : String) (hoff : h.serverOffset = num offset)
    (hips : h.spec.inProgressState = str p) :
    (∀ timeout changed : Int, h.spec.timeout = num timeout → timeout ≠ 0 →
      (getField fs "_state_changed" = num changed ∨
        (getField fs "_state_changed" = undefined ∧ changed = 0)) →
      (((∃ r, TransactionHelper.resetIfTimedOut h now (obj fs) = Except.ok (obj r)) ↔
          (getField fs "_state" = str p ∧ timeout ≤ now + offset - changed)) ∧
       (¬ (getField fs "_state" = str p ∧ timeout ≤ now + offset - changed) →
          TransactionHelper.resetIfTimedOut h now (obj fs) = Except.ok undefined))) ∧
    (truthy h.spec.timeout = false →
      TransactionHelper.resetIfTimedOut h now (obj fs) = Except.ok undefined) := by
  constructor
  · intro timeout changed ht hne hch
    have hsub : jsSub (jsAdd (num now) h.serverOffset)
        (jsOr (getField fs "_state_changed") (num 0)) = num (now + offset - changed) := by
      rcases hch with hc | ⟨hc, h0⟩
      · rw [hoff, hc, jsAdd_num_num, jsOr_num_zero, jsSub_num_num]
      · rw [hoff, hc, h0, jsAdd_num_num, jsOr_undefined_zero, jsSub_num_num]
    have hprog : TransactionHelper._isInProgress h (obj fs) = true ↔
        getField fs "_state" = str p := by
      unfold TransactionHelper._isInProgress
      rw [hips, strictEq_str]
      rfl
    have hguard : (TransactionHelper._isInProgress h (obj fs) && (truthy h.spec.timeout &&
        jsGe (jsSub (jsAdd (num now) h.serverOffset)
          (jsOr (getField fs "_state_changed") (num 0))) h.spec.timeout)) = true ↔
        (getField fs "_state" = str p ∧ timeout ≤ now + offset - changed) := by
      rw [hsub, ht, jsGe_num_num, truthy_num timeout hne]
      simp [hprog]
    rw [TransactionHelper.resetIfTimedOut_obj]
    constructor
    · constructor
      · rintro ⟨r, hr⟩
        split at hr
        · rename_i hc
          exact hguard.mp hc
        · cases hr
      · intro hc
        rw [if_pos (hguard.mpr hc)]
        exact ⟨_, rfl⟩
    · intro hc
      rw [if_neg (fun hg => hc (hguard.mp hg))]
  · intro ht
    rw [TransactionHelper.resetIfTimedOut_obj, ht]
    simp

/-- C13, at the record of the tests: exactly `timeout` = 10 elapsed resets, one
millisecond less does not, and without a timeout nothing resets. -/
theorem resetIfTimedOut_iff_witness :
    ((∃ r, TransactionHelper.resetIfTimedOut
        ⟨num 0, num 0, str "w", ⟨null, str "in_progress", null, str "error", num 10, num 0⟩⟩
        1010 (obj [("_state", str "in_progress"), ("_state_changed", num 1000),
                   ("_owner", str "someone"), ("_progress", num 10)]) = Except.ok (obj r)) ↔
      (getField [("_state", str "in_progress"), ("_state_changed", num 1000),
          ("_owner", str "someone"), ("_progress", num 10)] "_state" = str "in_progress" ∧
        (10 : Int) ≤ 1010 + 0 - 1000)) ∧
    TransactionHelper.resetIfTimedOut
        ⟨num 0, num 0, str "w", ⟨null, str "in_progress", null, str "error", num 10, num 0⟩⟩
        1009 (obj [("_state", str "in_progress"), ("_state_changed", num 1000),
                   ("_owner", str "someone"), ("_progress", num 10)]) = Except.ok undefined ∧
    TransactionHelper.resetIfTimedOut
        ⟨num 0, num 0, str "w", ⟨null, str "in_progress", null, str "error", null, num 0⟩⟩
        5000 (obj [("_state", str "in_progress"), ("_state_changed", num 1000),
                   ("_owner", str "someone"), ("_progress", num 10)]) = Except.ok undefined :=
  ⟨((resetIfTimedOut_iff
      ⟨num 0, num 0, str "w", ⟨null, str "in_progress", null, str "error", num 10, num 0⟩⟩
      1010 0 [("_state", str "in_progress"), ("_state_changed", num 1000),
              ("_owner", str "someone"), ("_progress", num 10)] "in_progress" rfl rfl).1
      10 1000 rfl (by decide) (Or.inl rfl)).1,
   ((resetIfTimedOut_iff
      ⟨num 0, num 0, str "w", ⟨null, str "in_progress", null, str "error", num 10, num 0⟩⟩
      1009 0 [("_state", str "in_progress"), ("_state_changed", num 1000),
              ("_owner", str "someone"), ("_progress", num 10)] "in_progress" rfl rfl).1
      10 1000 rfl (by decide) (Or.inl rfl)).2 (fun hc => absurd hc.2 (by decide)),
   (resetIfTimedOut_iff
      ⟨num 0, num 0, str "w", ⟨null, str "in_progress", null, str "error", null, num 0⟩⟩
      5000 0 [("_state", str "in_progress"), ("_state_changed", num 1000),
              ("_owner", str "someone"), ("_progress", num 10)] "in_progress" rfl rfl).2 rfl⟩

/-- C14: whenever `TransactionHelper.resetIfTimedOut`, `TaskWorker.resetIfTimedOut`
or `TaskWorker.reset` commits on a plain-object record, the committed record has
`_state` = `startState`, `_state_changed` = the server-timestamp sentinel,
`_owner` = null, `_progress` = null and `_error_details` = null, and every other
field is there exactly as before. -/
theorem reset_effect (h : TransactionHelper) (w : TaskWorker) (now : Int) (fs r : Fields)
    (start : JSVal)
    (hr : (TransactionHelper.resetIfTimedOut h now (obj fs) = Except.ok (obj r) ∧
            start = h.spec.startState) ∨
          (TaskWorker.resetIfTimedOut w now (obj fs) = Except.ok (obj r) ∧
            start = w.spec.startState) ∨
          (TaskWorker.reset w (obj fs) = Except.ok (obj r) ∧ start = w.spec.startState)) :
    getField r "_state" = start ∧
    getField r "_state_changed" = SERVER_TIMESTAMP ∧
    getField r "_owner" = null ∧
    getField r "_progress" = null ∧
    getField r "_error_details" = null ∧
    (∀ k, k ∉ ["_state", "_state_changed", "_owner", "_progress", "_error_details"] →
      getField r k = getField fs k ∧ hasField r k = hasField fs k) := by
  have key : r = setField (setField (setField (setField (setField fs
      "_state" start) "_state_changed" SERVER_TIMESTAMP)
      "_owner" null) "_progress" null) "_error_details" null := by
    rcases hr with ⟨hr, hs⟩ | ⟨hr, hs⟩ | ⟨hr, hs⟩
    · rw [TransactionHelper.resetIfTimedOut_obj] at hr
      split at hr
      · injection hr with hr
        injection hr with hr
        rw [hs]
        exact hr.symm
      · cases hr
    · rw [TaskWorker.worker_resetIfTimedOut_obj] at hr
      split at hr
      · injection hr with hr
        injection hr with hr
        rw [hs]
        exact hr.symm
      · cases hr
    · rw [TaskWorker.worker_reset_obj] at hr
      split at hr
      · injection hr with hr
        injection hr with hr
        rw [hs]
        exact hr.symm
      · cases hr
  rw [key]
  exact reset_writes fs start

/-- C14, at the timed-out record of the tests with a user field, reset by the
helper. -/
theorem reset_effect_witness :
    getField [("_state", null), ("_state_changed", SERVER_TIMESTAMP), ("_owner", null),
        ("_progress", null), ("foo", str "bar"), ("_error_details", null)] "_state" = null ∧
    getField [("_state", null), ("_state_changed", SERVER_TIMESTAMP), ("_owner", null),
        ("_progress", null), ("foo", str "bar"), ("_error_details", null)] "foo" =
      getField [("_state", str "in_progress"), ("_state_changed", num 1000),
        ("_owner", str "someone"), ("_progress", num 10), ("foo", str "bar")] "foo" :=
  have w := reset_effect
    ⟨num 0, num 0, str "w", ⟨null, str "in_progress", null, str "error", num 10, num 0⟩⟩
    ⟨num 0, str "w:0", ⟨null, str "in_progress", null, str "error", num 10, num 0⟩⟩
    1010 [("_state", str "in_progress"), ("_state_changed", num 1000),
          ("_owner", str "someone"), ("_progress", num 10), ("foo", str "bar")] _ null
    (Or.inl ⟨rfl, rfl⟩)
  ⟨w.1, (w.2.2.2.2.2 "foo" (by decide)).1⟩

/-- C15: for two helpers with the same spec and `serverOffset` (whatever their
`processId` and `taskNumber`), any clock reading and two plain-object records
that agree on every field other than `_owner`, `resetIfTimedOut` either returns
`undefined` for both or commits for both, and the two committed records agree on
every field. -/
theorem reset_ignores_owner (h1 h2 : TransactionHelper) (now : Int) (fs1 fs2 : Fields)
    (hspec : h2.spec = h1.spec) (hoff : h2.serverOffset = h1.serverOffset)
    (hsame : ∀ k, k ≠ "_owner" → getField fs1 k = getField fs2 k ∧ hasField fs1 k = hasField fs2 k) :
    (TransactionHelper.resetIfTimedOut h1 now (obj fs1) = Except.ok undefined ∧
      TransactionHelper.resetIfTimedOut h2 now (obj fs2) = Except.ok undefined) ∨
    (∃ r1 r2, TransactionHelper.resetIfTimedOut h1 now (obj fs1) = Except.ok (obj r1) ∧
      TransactionHelper.resetIfTimedOut h2 now (obj fs2) = Except.ok (obj r2) ∧
      ∀ k, getField r1 k = getField r2 k ∧ hasField r1 k = hasField r2 k) := by
  have hst : getField fs1 "_state" = getField fs2 "_state" := (hsame "_state" (by decide)).1
  have hch : getField fs1 "_state_changed" = getField fs2 "_state_changed" :=
    (hsame "_state_changed" (by decide)).1
  rw [TransactionHelper.resetIfTimedOut_obj, TransactionHelper.resetIfTimedOut_obj]
  unfold TransactionHelper._isInProgress
  simp only [getProp, hspec, hoff, ← hst, ← hch]
  split
  · right
    refine ⟨_, _, rfl, rfl, ?_⟩
    intro k
    by_cases hk : k = "_owner"
    · subst hk
      simp [getField_setField, hasField_setField]
    · obtain ⟨hg, hh⟩ := hsame k hk
      constructor
      · simp only [getField_setField]
        split_ifs <;> first | rfl | exact hg
      · simp only [hasField_setField]
        split_ifs <;> first | rfl | exact hh
  · left
    exact ⟨rfl, rfl⟩

/-- C15, at the timed-out record of the tests, once owned by 'someone' and once
without `_owner`, seen by two different workers. -/
theorem reset_ignores_owner_witness :
    (TransactionHelper.resetIfTimedOut
        ⟨num 0, num 0, str "a", ⟨null, str "in_progress", null, str "error", num 10, num 0⟩⟩
        1010 (obj [("_state", str "in_progress"), ("_state_changed", num 1000),
                   ("_owner", str "someone")]) = Except.ok undefined ∧
      TransactionHelper.resetIfTimedOut
        ⟨num 0, num 7, str "b", ⟨null, str "in_progress", null, str "error", num 10, num 0⟩⟩
        1010 (obj [("_state", str "in_progress"), ("_state_changed", num 1000)])
          = Except.ok undefined) ∨
    (∃ r1 r2, TransactionHelper.resetIfTimedOut
        ⟨num 0, num 0, str "a", ⟨null, str "in_progress", null, str "error", num 10, num 0⟩⟩
        1010 (obj [("_state", str "in_progress"), ("_state_changed", num 1000),
                   ("_owner", str "someone")]) = Except.ok (obj r1) ∧
      TransactionHelper.resetIfTimedOut
        ⟨num 0, num 7, str "b", ⟨null, str "in_progress", null, str "error", num 10, num 0⟩⟩
        1010 (obj [("_state", str "in_progress"), ("_state_changed", num 1000)])
          = Except.ok (obj r2) ∧
      ∀ k, getField r1 k = getField r2 k ∧ hasField r1 k = hasField r2 k) :=
  reset_ignores_owner
    ⟨num 0, num 0, str "a", ⟨null, str "in_progress", null, str "error", num 10, num 0⟩⟩
    ⟨num 0, num 7, str "b", ⟨null, str "in_progress", null, str "error", num 10, num 0⟩⟩
    1010 [("_state", str "in_progress"), ("_state_changed", num 1000), ("_owner", str "someone")]
    [("_state", str "in_progress"), ("_state_changed", num 1000)] rfl rfl
    (by
      intro k hk
      have hk2 : ¬ "_owner" = k := fun e => hk e.symm
      simp [getField, hasField, hk2])

namespace TransactionHelper

/-- What `rejectWith` commits when it returns a plain object. -/
theorem rejectWith_commit (h : TransactionHelper) (e s task : JSVal) (r : Fields)
    (hr : rejectWith h e s task = Except.ok (obj r)) :
    ∃ fs st a, task = obj fs ∧
      _isOwner h (obj fs) = true ∧ _isInProgress h (obj fs) = true ∧
      r = setField (setField (setField (setField fs "_state" st)
            "_state_changed" SERVER_TIMESTAMP) "_owner" null)
            "_error_details"
              (obj [("previous_state", h.spec.inProgressState), ("error", e),
                    ("error_stack", s), ("attempts", a)]) := by
  cases hg : (_isOwner h task && _isInProgress h task)
  · exfalso
    cases task <;> simp_all [rejectWith]
  · simp only [Bool.and_eq_true] at hg
    rw [rejectWith_of_guard h e s task hg.1 hg.2] at hr
    rcases objLike_of_isOwner hg.1 with ⟨fs, rfl⟩ | ⟨es, ps, rfl⟩
    · simp only [setProp] at hr
      injection hr with hr
      injection hr with hr
      exact ⟨fs, _, _, rfl, hg.1, hg.2, hr.symm⟩
    · simp [setProp] at hr

/-- C20: whenever `rejectWith(error, stack)` commits a plain-object record, the
input was a plain-object record and the committed record has `_owner` = null,
`_state_changed` = the server-timestamp sentinel and `_error_details` exactly
`{previous_state: inProgressState, error: error, error_stack: stack, attempts}`;
`_progress` and every field other than `_state`, `_state_changed`, `_owner` and
`_error_details` are there exactly as before. -/
theorem reject_effect (h : TransactionHelper) (e s task : JSVal) (r : Fields)
    (hr : rejectWith h e s task = Except.ok (obj r)) :
    ∃ fs, task = obj fs ∧
      getField r "_owner" = null ∧
      getField r "_state_changed" = SERVER_TIMESTAMP ∧
      (∃ a, getField r "_error_details" =
        obj [("previous_state", h.spec.inProgressState), ("error", e),
             ("error_stack", s), ("attempts", a)]) ∧
      getField r "_progress" = getField fs "_progress" ∧
      hasField r "_progress" = hasField fs "_progress" ∧
      (∀ k, k ∉ ["_state", "_state_changed", "_owner", "_error_details"] →
        getField r k = getField fs k ∧ hasField r k = hasField fs k) := by
  obtain ⟨fs, st, a, rfl, _, _, rfl⟩ := rejectWith_commit h e s task r hr
  refine ⟨fs, rfl, ?_, ?_, ⟨a, ?_⟩, ?_, ?_, ?_⟩
  · simp [getField_setField]
  · simp [getField_setField]
  · simp [getField_setField]
  · simp [getField_setField]
  · simp [hasField_setField]
  · intro k hk
    simp only [List.mem_cons, List.mem_singleton, List.not_mem_nil, or_false, not_or] at hk
    obtain ⟨k1, k2, k3, k4⟩ := hk
    constructor
    · simp [getField_setField, k1, k2, k3, k4]
    · simp [hasField_setField, k1, k2, k3, k4]

/-- C20, at a record with a user field, a progress value and an older
`_error_details` that carries an extra field. -/
theorem reject_effect_witness :
    ∃ fs, obj [("_state", str "in_progress"), ("_owner", str "w:0"), ("_progress", num 40),
          ("foo", str "bar"),
          ("_error_details", obj [("previous_state", str "in_progress"),
            ("attempts", num 1), ("note", str "old")])] = obj fs ∧
      getField [("_state", str "error"), ("_owner", null), ("_progress", num 40),
          ("foo", str "bar"),
          ("_error_details", obj [("previous_state", str "in_progress"),
            ("error", str "boom"), ("error_stack", str "at line 1"), ("attempts", num 2)]),
          ("_state_changed", SERVER_TIMESTAMP)] "_owner" = null ∧
      getField [("_state", str "error"), ("_owner", null), ("_progress", num 40),
          ("foo", str "bar"),
          ("_error_details", obj [("previous_state", str "in_progress"),
            ("error", str "boom"), ("error_stack", str "at line 1"), ("attempts", num 2)]),
          ("_state_changed", SERVER_TIMESTAMP)] "_state_changed" = SERVER_TIMESTAMP ∧
      (∃ a, getField [("_state", str "error"), ("_owner", null), ("_progress", num 40),
          ("foo", str "bar"),
          ("_error_details", obj [("previous_state", str "in_progress"),
            ("error", str "boom"), ("error_stack", str "at line 1"), ("attempts", num 2)]),
          ("_state_changed", SERVER_TIMESTAMP)] "_error_details" =
        obj [("previous_state", str "in_progress"), ("error", str "boom"),
             ("error_stack", str "at line 1"), ("attempts", a)]) :=
  have w := reject_effect
    ⟨num 0, num 0, str "w", ⟨null, str "in_progress", null, str "error", null, num 0⟩⟩
    (str "boom") (str "at line 1")
    (obj [("_state", str "in_progress"), ("_owner", str "w:0"), ("_progress", num 40),
          ("foo", str "bar"),
          ("_error_details", obj [("previous_state", str "in_progress"),
            ("attempts", num 1), ("note", str "old")])]) _ rfl
  match w with
  | ⟨fs, h1, h2, h3, h4, _⟩ => ⟨fs, h1, h2, h3, h4⟩

end TransactionHelper

/-! ## Retries over a lifecycle -/

/-- A transaction function that returns a plain object commits it. -/
theorem transact_obj (f : JSVal → Except String JSVal) (stored : JSVal) (r : Fields)
    (hf : f stored = Except.ok (obj r)) : transact f stored = obj r := by
  simp [transact, hf]

/-- If some `_state` passes the start-state test of `claim`, so does `startState`
itself. -/
theorem startState_claimable {v start : JSVal}
    (hm : strictEq (jsOr v null) start = true) : strictEq (jsOr start null) start = true := by
  cases ht : truthy v
  · rw [jsOr_of_falsy ht] at hm
    have e : start = null := (strictEq_eq hm).symm
    subst e
    rfl
  · rw [jsOr_of_truthy ht] at hm
    have e : v = start := strictEq_eq hm
    subst e
    rw [jsOr_of_truthy ht]
    exact hm

/-- The attempts count that `rejectWith` computes, from what is stored: `k + 1`
when `k` attempts are on record under this `inProgressState`, and 1 when there
are no `_error_details`. -/
theorem attempts_step (d : JSVal) (p : String) (k : Int)
    (hk : (k = 0 ∧ d = undefined) ∨
      (getProp d "previous_state" = str p ∧ getProp d "attempts" = num k)) :
    (if strictEq (getProp (jsOr d (obj [])) "previous_state") (str p) = true
      then jsAdd (defaultTo (getProp (jsOr d (obj [])) "attempts") (num 0)) (num 1)
      else num 1) = num (k + 1) := by
  rw [getProp_jsOr_empty, getProp_jsOr_empty]
  rcases hk with ⟨h0, hd⟩ | ⟨hp, ha⟩
  · subst h0
    subst hd
    simp [getProp, strictEq]
  · rw [hp, ha, defaultTo_num, jsAdd_num_num]
    simp [strictEq]

/-- One cycle of the retry scenario on a record that `claim` accepts: both
transactions commit, and the record comes back with one more attempt on record. -/
theorem claimThenReject_step (h : TransactionHelper) (e s : JSVal) (fs : Fields)
    (p : String) (k : Int) (hips : h.spec.inProgressState = str p)
    (hcl : strictEq (jsOr (getField fs "_state") null) h.spec.startState = true)
    (hk : (k = 0 ∧ getField fs "_error_details" = undefined) ∨
      (getProp (getField fs "_error_details") "previous_state" = str p ∧
        getProp (getField fs "_error_details") "attempts" = num k)) :
    ∃ fs', claimThenReject h e s (obj fs) = obj fs' ∧
      getField fs' "_state" =
        (if jsGt (num (k + 1)) h.spec.retries = true then h.spec.errorState
          else h.spec.startState) ∧
      getProp (getField fs' "_error_details") "previous_state" = str p ∧
      getProp (getField fs' "_error_details") "attempts" = num (k + 1) := by
  have hclaim := TransactionHelper.claim_of_match h fs hcl
  have ho : TransactionHelper._isOwner h (obj (setField (setField (setField (setField fs
      "_state" h.spec.inProgressState) "_state_changed" SERVER_TIMESTAMP)
      "_owner" h.owner) "_progress" (num 0))) = true := by
    rw [TransactionHelper.isOwner_iff]
    simp [getProp, getField_setField]
  have hp : TransactionHelper._isInProgress h (obj (setField (setField (setField (setField fs
      "_state" h.spec.inProgressState) "_state_changed" SERVER_TIMESTAMP)
      "_owner" h.owner) "_progress" (num 0))) = true := by
    unfold TransactionHelper._isInProgress
    simp [getProp, getField_setField, hips, strictEq]
  have hed : getProp (obj (setField (setField (setField (setField fs
      "_state" h.spec.inProgressState) "_state_changed" SERVER_TIMESTAMP)
      "_owner" h.owner) "_progress" (num 0))) "_error_details" =
      getField fs "_error_details" := by
    simp [getProp, getField_setField]
  have hrej := TransactionHelper.rejectWith_of_guard h e s _ ho hp
  rw [hed, hips, attempts_step (getField fs "_error_details") p k hk, ← hips] at hrej
  simp only [setProp] at hrej
  have hres := transact_obj _ _ _ hrej
  rw [← transact_obj _ _ _ hclaim] at hres
  refine ⟨_, hres, ?_, ?_, ?_⟩
  · simp [getField_setField]
  · simp [getField_setField, getProp, getField, hips]
  · simp [getField_setField, getProp, getField]

/-- The retry scenario, from a record with `k` attempts on record: while the
budget lasts every cycle commits, and after `n` more cycles `k + n` attempts are
on record, in `startState` up to `retries` attempts and in `errorState` beyond. -/
theorem rejectionCycles_from (sp : TaskSpec) (retries : Nat) (p : String)
    (hret : sp.retries = num retries) (hips : sp.inProgressState = str p)
    (hstart : strictEq (jsOr sp.startState null) sp.startState = true)
    (cycles : List (TransactionHelper × JSVal × JSVal)) :
    ∀ (k : Nat) (fs : Fields), (∀ c ∈ cycles, c.1.spec = sp) →
      k + cycles.length ≤ retries + 1 →
      strictEq (jsOr (getField fs "_state") null) sp.startState = true →
      ((k = 0 ∧ getField fs "_error_details" = undefined) ∨
        (getProp (getField fs "_error_details") "previous_state" = str p ∧
          getProp (getField fs "_error_details") "attempts" = num k)) →
      1 ≤ cycles.length →
      ∃ fs', rejectionCycles cycles (obj fs) = obj fs' ∧
        getProp (getField fs' "_error_details") "attempts" = num ((k + cycles.length : Nat)) ∧
        getField fs' "_state" =
          (if k + cycles.length ≤ retries then sp.startState else sp.errorState) := by
  induction cycles with
  | nil =>
    intro k fs _ _ _ _ hpos
    simp at hpos
  | cons c rest ih =>
    intro k fs hspec hlen hcl hk _
    obtain ⟨h, e, s⟩ := c
    have hsp : h.spec = sp := hspec (h, e, s) (List.mem_cons_self _ _)
    have hk' : (((k : Nat) : Int) = 0 ∧ getField fs "_error_details" = undefined) ∨
        (getProp (getField fs "_error_details") "previous_state" = str p ∧
          getProp (getField fs "_error_details") "attempts" = num ((k : Nat) : Int)) := by
      rcases hk with ⟨h0, hd⟩ | hk
      · left
        exact ⟨by simp [h0], hd⟩
      · right
        exact hk
    obtain ⟨fs1, h1, hst1, hprev1, hatt1⟩ :=
      claimThenReject_step h e s fs p k (by rw [hsp]; exact hips) (by rw [hsp]; exact hcl) hk'
    rw [hsp, hret, jsGt_num_num] at hst1
    have hatt1' : getProp (getField fs1 "_error_details") "attempts" = num ((k + 1 : Nat)) := by
      rw [hatt1]
      simp
    simp only [List.length_cons] at hlen ⊢
    cases rest with
    | nil =>
      refine ⟨fs1, ?_, ?_, ?_⟩
      · simp [rejectionCycles, h1]
      · simpa using hatt1'
      · rw [hst1]
        by_cases hle : k + 1 ≤ retries
        · have : ¬ ((retries : Int) < (k : Int) + 1) := by omega
          simp [this, hle]
        · have : ((retries : Int) < (k : Int) + 1) := by omega
          simp [this, hle]
    | cons c2 rest2 =>
      simp only [List.length_cons] at hlen
      have hle : ¬ ((retries : Int) < (k : Int) + 1) := by omega
      have hst1' : getField fs1 "_state" = sp.startState := by
        rw [hst1]
        simp [hle]
      have hcl1 : strictEq (jsOr (getField fs1 "_state") null) sp.startState = true := by
        rw [hst1']
        exact hstart
      obtain ⟨fs2, h2, hatt2, hst2⟩ := ih (k + 1) fs1
        (fun c hc => hspec c (List.mem_cons_of_mem _ hc))
        (by simp only [List.length_cons]; omega) hcl1 (Or.inr ⟨hprev1, hatt1'⟩)
        (by simp)
      refine ⟨fs2, ?_, ?_, ?_⟩
      · simp only [rejectionCycles, h1]
        exact h2
      · rw [hatt2]
        congr 2
        simp only [List.length_cons]
        omega
      · rw [hst2]
        simp only [List.length_cons]
        have e : k + 1 + (rest2.length + 1) ≤ retries ↔ k + (rest2.length + 1 + 1) ≤ retries := by
          omega
        simp only [e]

/-- C11: for every spec with `retries` = r and `inProgressState` a string, from a
plain-object record that is in `startState` (it passes the start-state test of
`claim`) and has no `_error_details`, after n cycles of 'claim by some helper of
that spec, then `rejectWith` by the same helper', 1 ≤ n ≤ r + 1, the record has
`_error_details.attempts` = n; it is in `startState` while n ≤ r and in
`errorState` when n = r + 1. -/
theorem bounded_retries (sp : TaskSpec) (retries : Nat) (p : String)
    (cycles : List (TransactionHelper × JSVal × JSVal)) (fs : Fields)
    (hret : sp.retries = num retries) (hips : sp.inProgressState = str p)
    (hspec : ∀ c ∈ cycles, c.1.spec = sp)
    (hstart : strictEq (jsOr (getField fs "_state") null) sp.startState = true)
    (hnone : getField fs "_error_details" = undefined)
    (hpos : 1 ≤ cycles.length) (hlen : cycles.length ≤ retries + 1) :
    ∃ fs', rejectionCycles cycles (obj fs) = obj fs' ∧
      getProp (getField fs' "_error_details") "attempts" = num cycles.length ∧
      (cycles.length ≤ retries → getField fs' "_state" = sp.startState) ∧
      (cycles.length = retries + 1 → getField fs' "_state" = sp.errorState) := by
  obtain ⟨fs', h1, h2, h3⟩ := rejectionCycles_from sp retries p hret hips
    (startState_claimable hstart) cycles 0 fs hspec (by omega) hstart (Or.inl ⟨rfl, hnone⟩) hpos
  refine ⟨fs', h1, ?_, ?_, ?_⟩
  · simpa using h2
  · intro hle
    have hle0 : 0 + cycles.length ≤ retries := by omega
    rw [h3, if_pos hle0]
  · intro heq
    rw [h3]
    have hgt : ¬ (0 + cycles.length ≤ retries) := by omega
    rw [if_neg hgt]

/-- C11, with `retries` = 2 and three workers' cycles on `{_state: 'start', foo:
'bar'}`: back in 'start' with 2 attempts after two cycles, in 'error' with 3
attempts after the third. -/
theorem bounded_retries_witness :
    (∃ fs', rejectionCycles
        [(⟨num 0, num 0, str "a", ⟨str "start", str "busy", null, str "error", null, num 2⟩⟩,
            str "boom", undefined),
         (⟨num 0, num 0, str "b", ⟨str "start", str "busy", null, str "error", null, num 2⟩⟩,
            str "boom", undefined)]
        (obj [("_state", str "start"), ("foo", str "bar")]) = obj fs' ∧
      getProp (getField fs' "_error_details") "attempts" = num 2 ∧
      getField fs' "_state" = str "start") ∧
    (∃ fs', rejectionCycles
        [(⟨num 0, num 0, str "a", ⟨str "start", str "busy", null, str "error", null, num 2⟩⟩,
            str "boom", undefined),
         (⟨num 0, num 0, str "b", ⟨str "start", str "busy", null, str "error", null, num 2⟩⟩,
            str "boom", undefined),
         (⟨num 0, num 1, str "a", ⟨str "start", str "busy", null, str "error", null, num 2⟩⟩,
            str "boom", undefined)]
        (obj [("_state", str "start"), ("foo", str "bar")]) = obj fs' ∧
      getProp (getField fs' "_error_details") "attempts" = num 3 ∧
      getField fs' "_state" = str "error") := by
  constructor
  · obtain ⟨fs', h1, h2, h3, _⟩ := bounded_retries
      ⟨str "start", str "busy", null, str "error", null, num 2⟩ 2 "busy"
      [(⟨num 0, num 0, str "a", ⟨str "start", str "busy", null, str "error", null, num 2⟩⟩,
          str "boom", undefined),
       (⟨num 0, num 0, str "b", ⟨str "start", str "busy", null, str "error", null, num 2⟩⟩,
          str "boom", undefined)]
      [("_state", str "start"), ("foo", str "bar")] rfl rfl
      (by
        intro c hc
        simp only [List.mem_cons, List.mem_singleton, List.not_mem_nil, or_false] at hc
        rcases hc with rfl | rfl <;> rfl)
      rfl rfl (by decide) (by decide)
    exact ⟨fs', h1, h2, h3 (by decide)⟩
  · obtain ⟨fs', h1, h2, _, h4⟩ := bounded_retries
      ⟨str "start", str "busy", null, str "error", null, num 2⟩ 2 "busy"
      [(⟨num 0, num 0, str "a", ⟨str "start", str "busy", null, str "error", null, num 2⟩⟩,
          str "boom", undefined),
       (⟨num 0, num 0, str "b", ⟨str "start", str "busy", null, str "error", null, num 2⟩⟩,
          str "boom", undefined),
       (⟨num 0, num 1, str "a", ⟨str "start", str "busy", null, str "error", null, num 2⟩⟩,
          str "boom", undefined)]
      [("_state", str "start"), ("foo", str "bar")] rfl rfl
      (by
        intro c hc
        simp only [List.mem_cons, List.mem_singleton, List.not_mem_nil, or_false] at hc
        rcases hc with rfl | rfl | rfl <;> rfl)
      rfl rfl (by decide) (by decide)
    exact ⟨fs', h1, h2, h4 (by decide)⟩

/-! ## After a timeout, after an error -/

namespace TransactionHelper

/-- The guard of `claim` fails on a record whose `_state` is a truthy value
other than `startState`. -/
theorem claim_guard_of_state (h : TransactionHelper) (fs : Fields) (v : JSVal)
    (hs : getField fs "_state" = v) (hnz : truthy v = true) (hne : v ≠ h.spec.startState) :
    strictEq (jsOr (getField fs "_state") null) h.spec.startState = false := by
  rw [hs, jsOr_of_truthy hnz]
  exact strictEq_false_of_ne hne

/-- C16: after `resetIfTimedOut` commits on a plain-object record, whatever
`_error_details` it held, a claim that commits followed by `rejectWith` of the
claiming helper (its `inProgressState` a string) commits
`_error_details.attempts` = 1; and the claim does commit when the resetting
helper has the same `startState` and that is null or a non-empty string. -/
theorem timeout_not_an_attempt (hR h : TransactionHelper) (now : Int) (fs r1 : Fields)
    (e s : JSVal) (p : String)
    (hips : h.spec.inProgressState = str p)
    (hreset : resetIfTimedOut hR now (obj fs) = Except.ok (obj r1)) :
    (hR.spec.startState = h.spec.startState →
      (h.spec.startState = null ∨ ∃ st, st ≠ "" ∧ h.spec.startState = str st) →
      ∃ r2, claim h (obj r1) = Except.ok (obj r2)) ∧
    (∀ r2, claim h (obj r1) = Except.ok (obj r2) →
      ∃ r3, rejectWith h e s (obj r2) = Except.ok (obj r3) ∧
        getProp (getField r3 "_error_details") "attempts" = num 1) := by
  have hr1 : r1 = setField (setField (setField (setField (setField fs
      "_state" hR.spec.startState) "_state_changed" SERVER_TIMESTAMP)
      "_owner" null) "_progress" null) "_error_details" null := by
    rw [resetIfTimedOut_obj] at hreset
    split at hreset
    · injection hreset with hreset
      injection hreset with hreset
      exact hreset.symm
    · cases hreset
  constructor
  · intro hsame hst
    refine ⟨_, claim_of_match h (r1) ?_⟩
    have hs1 : getField r1 "_state" = h.spec.startState := by
      rw [hr1, ← hsame]
      simp [getField_setField]
    rw [hs1]
    rcases hst with hnull | ⟨st, hne, hstr⟩
    · rw [hnull]
      rfl
    · rw [hstr]
      simp [jsOr, truthy, hne, strictEq]
  · intro r2 hc
    obtain ⟨_, hr2⟩ := claim_commit h r1 r2 hc
    have ho : _isOwner h (obj r2) = true := by
      rw [isOwner_iff, hr2]
      simp [getProp, getField_setField]
    have hp : _isInProgress h (obj r2) = true := by
      unfold _isInProgress
      rw [hr2]
      simp [getProp, getField_setField, hips, strictEq]
    have hed : getProp (obj r2) "_error_details" = null := by
      rw [hr2, hr1]
      simp [getProp, getField_setField]
    have hrej := rejectWith_of_guard h e s (obj r2) ho hp
    rw [hed] at hrej
    simp only [setProp] at hrej
    refine ⟨_, hrej, ?_⟩
    simp [getField_setField, getProp, getField, jsOr, truthy, hips, strictEq]

/-- C16, at a timed-out record with 3 attempts on record: reset by worker `a`,
claimed and rejected by worker `b`. -/
theorem timeout_not_an_attempt_witness :
    (∃ r2, claim ⟨num 0, num 0, str "b", ⟨null, str "busy", null, str "error", num 10, num 4⟩⟩
        (obj [("_state", null), ("_state_changed", SERVER_TIMESTAMP), ("_owner", null),
              ("_error_details", null), ("_progress", null)]) = Except.ok (obj r2)) ∧
    (∀ r2, claim ⟨num 0, num 0, str "b", ⟨null, str "busy", null, str "error", num 10, num 4⟩⟩
        (obj [("_state", null), ("_state_changed", SERVER_TIMESTAMP), ("_owner", null),
              ("_error_details", null), ("_progress", null)]) = Except.ok (obj r2) →
      ∃ r3, rejectWith
          ⟨num 0, num 0, str "b", ⟨null, str "busy", null, str "error", num 10, num 4⟩⟩
          (str "boom") undefined (obj r2) = Except.ok (obj r3) ∧
        getProp (getField r3 "_error_details") "attempts" = num 1) :=
  have w := timeout_not_an_attempt
    ⟨num 0, num 0, str "a", ⟨null, str "busy", null, str "error", num 10, num 4⟩⟩
    ⟨num 0, num 0, str "b", ⟨null, str "busy", null, str "error", num 10, num 4⟩⟩
    1010 [("_state", str "busy"), ("_state_changed", num 1000), ("_owner", str "c:0"),
          ("_error_details", obj [("previous_state", str "busy"), ("attempts", num 3)])]
    _ (str "boom") undefined "busy" rfl rfl
  ⟨w.1 rfl (Or.inl rfl), w.2⟩

/-- C12, as stated, fails in three ways, each under a spec whose
`inProgressState` 'busy' differs from `startState` and from `finishedState`.
With `errorState` = `startState` = 'start', the record that `rejectWith` moved to
`errorState` is claimed again by another worker. With `errorState` =
`inProgressState` = 'busy' and a timeout of 10, that record, stored with
timestamp 1000, is reset to `startState` by `resetIfTimedOut` at clock reading
2000. With `errorState` the empty string and no start state, it is claimed again. -/
theorem error_state_not_permanent_counterexample :
    (rejectWith ⟨num 0, num 0, str "w", ⟨str "start", str "busy", null, str "start", null, num 0⟩⟩
        (str "boom") undefined (obj [("_state", str "busy"), ("_owner", str "w:0")]) =
      Except.ok (obj [("_state", str "start"), ("_owner", null),
        ("_state_changed", SERVER_TIMESTAMP),
        ("_error_details", obj [("previous_state", str "busy"), ("error", str "boom"),
          ("error_stack", undefined), ("attempts", num 1)])]) ∧
     claim ⟨num 0, num 0, str "v", ⟨str "start", str "busy", null, str "start", null, num 0⟩⟩
        (obj [("_state", str "start"), ("_owner", null),
          ("_state_changed", SERVER_TIMESTAMP),
          ("_error_details", obj [("previous_state", str "busy"), ("error", str "boom"),
            ("error_stack", undefined), ("attempts", num 1)])]) =
      Except.ok (obj [("_state", str "busy"), ("_owner", str "v:0"),
        ("_state_changed", SERVER_TIMESTAMP),
        ("_error_details", obj [("previous_state", str "busy"), ("error", str "boom"),
          ("error_stack", undefined), ("attempts", num 1)]),
        ("_progress", num 0)])) ∧
    (rejectWith ⟨num 0, num 0, str "w", ⟨str "start", str "busy", null, str "busy", num 10, num 0⟩⟩
        (str "boom") undefined (obj [("_state", str "busy"), ("_owner", str "w:0")]) =
      Except.ok (obj [("_state", str "busy"), ("_owner", null),
        ("_state_changed", SERVER_TIMESTAMP),
        ("_error_details", obj [("previous_state", str "busy"), ("error", str "boom"),
          ("error_stack", undefined), ("attempts", num 1)])]) ∧
     resetIfTimedOut
        ⟨num 0, num 0, str "v", ⟨str "start", str "busy", null, str "busy", num 10, num 0⟩⟩ 2000
        (obj [("_state", str "busy"), ("_owner", null), ("_state_changed", num 1000),
          ("_error_details", obj [("previous_state", str "busy"), ("error", str "boom"),
            ("error_stack", undefined), ("attempts", num 1)])]) =
      Except.ok (obj [("_state", str "start"), ("_owner", null),
        ("_state_changed", SERVER_TIMESTAMP), ("_error_details", null),
        ("_progress", null)])) ∧
    (rejectWith ⟨num 0, num 0, str "w", ⟨null, str "busy", null, str "", null, num 0⟩⟩
        (str "boom") undefined (obj [("_state", str "busy"), ("_owner", str "w:0")]) =
      Except.ok (obj [("_state", str ""), ("_owner", null),
        ("_state_changed", SERVER_TIMESTAMP),
        ("_error_details", obj [("previous_state", str "busy"), ("error", str "boom"),
          ("error_stack", undefined), ("attempts", num 1)])]) ∧
     claim ⟨num 0, num 0, str "v", ⟨null, str "busy", null, str "", null, num 0⟩⟩
        (obj [("_state", str ""), ("_owner", null),
          ("_state_changed", SERVER_TIMESTAMP),
          ("_error_details", obj [("previous_state", str "busy"), ("error", str "boom"),
            ("error_stack", undefined), ("attempts", num 1)])]) =
      Except.ok (obj [("_state", str "busy"), ("_owner", str "v:0"),
        ("_state_changed", SERVER_TIMESTAMP),
        ("_error_details", obj [("previous_state", str "busy"), ("error", str "boom"),
          ("error_stack", undefined), ("attempts", num 1)]),
        ("_progress", num 0)])) :=
  ⟨⟨rfl, rfl⟩, ⟨rfl, rfl⟩, ⟨rfl, rfl⟩⟩

/-- C12 (amended): for every spec whose `errorState` is truthy (a non-empty
string) and differs from `startState` and from `inProgressState`, a plain-object
record that `rejectWith` has moved to `errorState`, stored with any value `t` in
place of the timestamp sentinel, is left untouched by `claim`, `resolveWith`,
`rejectWith`, `updateProgressWith` and `resetIfTimedOut` of every helper with
that spec, at every clock reading. -/
theorem error_state_permanent (h0 h : TransactionHelper) (e s task : JSVal) (r : Fields)
    (t : JSVal) (hspec : h0.spec = h.spec)
    (hr : rejectWith h0 e s task = Except.ok (obj r))
    (hst : getField r "_state" = h0.spec.errorState)
    (hnz : truthy h.spec.errorState = true)
    (hne1 : h.spec.errorState ≠ h.spec.startState)
    (hne2 : h.spec.errorState ≠ h.spec.inProgressState) :
    claim h (obj (setField r "_state_changed" t)) = Except.ok undefined ∧
    (∀ x, resolveWith h x (obj (setField r "_state_changed" t)) = Except.ok undefined) ∧
    (∀ e' s', rejectWith h e' s' (obj (setField r "_state_changed" t)) = Except.ok undefined) ∧
    (∀ q, updateProgressWith h q (obj (setField r "_state_changed" t)) = Except.ok undefined) ∧
    (∀ now : Int,
      resetIfTimedOut h now (obj (setField r "_state_changed" t)) = Except.ok undefined) := by
  obtain ⟨fs, st, a, _, _, _, hrr⟩ := rejectWith_commit h0 e s task r hr
  have hstate : getField (setField r "_state_changed" t) "_state" = h.spec.errorState := by
    rw [getField_setField, ← hspec, ← hst]
    simp
  have hown : getProp (obj (setField r "_state_changed" t)) "_owner" ≠ h.owner := by
    rw [hrr, owner_eq_str]
    simp [getProp, getField_setField]
  have hg := guard_false_of_ne h (obj (setField r "_state_changed" t)) (Or.inl hown)
  refine ⟨?_, ?_, ?_, ?_, ?_⟩
  · exact claim_of_no_match h _ (claim_guard_of_state h _ _ hstate hnz hne1)
  · intro x
    exact resolveWith_of_guard_false h x _ (by simp) (by simp) hg
  · intro e' s'
    exact rejectWith_of_guard_false h e' s' _ (by simp) (by simp) hg
  · intro q
    exact updateProgressWith_of_guard_false h q _ (by simp) (by simp) hg
  · intro now
    rw [resetIfTimedOut_obj]
    have hp : _isInProgress h (obj (setField r "_state_changed" t)) = false := by
      unfold _isInProgress
      simp only [getProp]
      rw [hstate]
      exact strictEq_false_of_ne hne2
    rw [hp]
    simp

/-- C12 (amended), at the default `errorState` 'error': the rejected record,
stored with timestamp 1000, is not claimed and not reset at clock reading 5000. -/
theorem error_state_permanent_witness :
    claim ⟨num 0, num 0, str "v", ⟨str "start", str "busy", null, str "error", num 10, num 0⟩⟩
        (obj [("_state", str "error"), ("_owner", null), ("_state_changed", num 1000),
          ("_error_details", obj [("previous_state", str "busy"), ("error", str "boom"),
            ("error_stack", undefined), ("attempts", num 1)])]) = Except.ok undefined ∧
    resetIfTimedOut
        ⟨num 0, num 0, str "v", ⟨str "start", str "busy", null, str "error", num 10, num 0⟩⟩ 5000
        (obj [("_state", str "error"), ("_owner", null), ("_state_changed", num 1000),
          ("_error_details", obj [("previous_state", str "busy"), ("error", str "boom"),
            ("error_stack", undefined), ("attempts", num 1)])]) = Except.ok undefined :=
  have w := error_state_permanent
    ⟨num 0, num 0, str "w", ⟨str "start", str "busy", null, str "error", num 10, num 0⟩⟩
    ⟨num 0, num 0, str "v", ⟨str "start", str "busy", null, str "error", num 10, num 0⟩⟩
    (str "boom") undefined (obj [("_state", str "busy"), ("_owner", str "w:0")]) _
    (num 1000) rfl rfl rfl rfl (by simp) (by simp)
  ⟨w.1, w.2.2.2.2 5000⟩

end TransactionHelper

/-! ## Retries not configured, progress, non-object replacements -/

namespace JSVal

/-- Comparing with `null` is comparing with 0. -/
theorem jsGt_null (a : JSVal) : jsGt a null = jsGt a (num 0) := by
  cases a <;> simp [jsGt, jsLess, toPrimitive, toNumber]

/-- Comparing with `undefined` is false. -/
theorem jsGt_undefined (a : JSVal) : jsGt a undefined = false := by
  cases a <;> simp [jsGt, jsLess, toPrimitive, toNumber]

theorem setField_setField_same (fs : Fields) (k : String) (v w : JSVal) :
    setField (setField fs k v) k w = setField fs k w := by
  induction fs with
  | nil => simp [setField]
  | cons q rest ih =>
    obtain ⟨a, u⟩ := q
    by_cases ha : a = k
    · simp [setField, ha]
    · simp [setField, ha, ih]

end JSVal

namespace TransactionHelper

/-- C21: with `retries` null, on an in-progress record owned by the token with
no `_error_details`, `rejectWith` commits `_state` = `errorState` and
`_error_details.attempts` = 1; and on every stored value `rejectWith` returns
what it returns under the same spec with `retries` = 0. -/
theorem reject_without_retries (h : TransactionHelper) (e s task : JSVal)
    (hret : h.spec.retries = null) :
    (_isOwner h task = true → _isInProgress h task = true →
      getProp task "_error_details" = undefined →
      ∃ r, rejectWith h e s task = Except.ok r ∧
        getProp r "_state" = h.spec.errorState ∧
        getProp (getProp r "_error_details") "attempts" = num 1) ∧
    rejectWith h e s task =
      rejectWith ⟨h.serverOffset, h.taskNumber, h.processId,
        ⟨h.spec.startState, h.spec.inProgressState, h.spec.finishedState,
          h.spec.errorState, h.spec.timeout, num 0⟩⟩ e s task := by
  constructor
  · intro ho hp hnone
    have hatt : (if strictEq (getProp (jsOr (getProp task "_error_details") (obj []))
          "previous_state") h.spec.inProgressState = true
        then jsAdd (defaultTo (getProp (jsOr (getProp task "_error_details") (obj []))
          "attempts") (num 0)) (num 1)
        else num 1) = num 1 := by
      rw [hnone]
      split
      · simp [jsOr, truthy, getProp, getField, defaultTo, jsAdd_num_num]
      · rfl
    have hrej := rejectWith_of_guard h e s task ho hp
    rw [hatt, hret] at hrej
    refine ⟨_, hrej, ?_, ?_⟩
    · rw [(getProp_reject_writes task _ _ _ _ (objLike_of_isOwner ho)).2]
      rfl
    · rw [(getProp_reject_writes task _ _ _ _ (objLike_of_isOwner ho)).1,
        getProp_details_attempts]
  · cases task <;> simp [rejectWith, _isOwner, _isInProgress, owner, hret, jsGt_null]

/-- C21, at the record of the tests, with the default `errorState` 'error'. -/
theorem reject_without_retries_witness :
    ∃ r, rejectWith
        ⟨num 0, num 0, str "w", ⟨null, str "in_progress", null, str "error", null, null⟩⟩
        undefined undefined
        (obj [("_state", str "in_progress"), ("_state_changed", num 1000),
              ("_owner", str "w:0"), ("_progress", num 0)]) = Except.ok r ∧
      getProp r "_state" = str "error" ∧
      getProp (getProp r "_error_details") "attempts" = num 1 :=
  (reject_without_retries
    ⟨num 0, num 0, str "w", ⟨null, str "in_progress", null, str "error", null, null⟩⟩
    undefined undefined
    (obj [("_state", str "in_progress"), ("_state_changed", num 1000),
          ("_owner", str "w:0"), ("_progress", num 0)]) rfl).1 rfl rfl rfl

/-- The method `updateProgressWith` on an in-progress record that the helper owns. -/
theorem updateProgressWith_of_guard (h : TransactionHelper) (p task : JSVal)
    (ho : _isOwner h task = true) (hp : _isInProgress h task = true) :
    updateProgressWith h p task = Except.ok (setProp task "_progress" p) := by
  have hnn := ne_null_of_isOwner ho
  cases task <;> simp_all [updateProgressWith]

/-- C22: on a plain-object record in `inProgressState` owned by the token,
`updateProgressWith(p)` commits, for every value `p`, the record with
`_progress` = `p`; every other field (`_state`, `_owner`, `_state_changed`,
`_error_details`, user fields) is there exactly as before. -/
theorem update_progress_effect (h : TransactionHelper) (p : JSVal) (fs : Fields)
    (ho : _isOwner h (obj fs) = true) (hp : _isInProgress h (obj fs) = true) :
    ∃ r, updateProgressWith h p (obj fs) = Except.ok (obj r) ∧
      getField r "_progress" = p ∧
      (∀ k, k ≠ "_progress" → getField r k = getField fs k ∧ hasField r k = hasField fs k) := by
  refine ⟨setField fs "_progress" p, ?_, ?_, ?_⟩
  · rw [updateProgressWith_of_guard h p _ ho hp]
    rfl
  · simp [getField_setField]
  · intro k hk
    simp [getField_setField, hasField_setField, hk]

/-- C22, at the record of the tests with progress 10. -/
theorem update_progress_effect_witness :
    ∃ r, updateProgressWith
        ⟨num 0, num 0, str "w", ⟨null, str "in_progress", null, str "error", null, num 0⟩⟩
        (num 10) (obj [("_state", str "in_progress"), ("_owner", str "w:0")])
          = Except.ok (obj r) ∧
      getField r "_progress" = num 10 ∧
      (∀ k, k ≠ "_progress" →
        getField r k = getField [("_state", str "in_progress"), ("_owner", str "w:0")] k ∧
        hasField r k = hasField [("_state", str "in_progress"), ("_owner", str "w:0")] k) :=
  update_progress_effect
    ⟨num 0, num 0, str "w", ⟨null, str "in_progress", null, str "error", null, num 0⟩⟩
    (num 10) [("_state", str "in_progress"), ("_owner", str "w:0")] rfl rfl

/-- C23, as stated, fails: on an in-progress record owned by the token,
`updateProgressWith` commits the progress values -1, 101 and 'foo'. -/
theorem update_progress_out_of_range_counterexample :
    updateProgressWith
        ⟨num 0, num 0, str "w", ⟨null, str "in_progress", null, str "error", null, num 0⟩⟩
        (num (-1)) (obj [("_state", str "in_progress"), ("_owner", str "w:0")]) =
      Except.ok (obj [("_state", str "in_progress"), ("_owner", str "w:0"),
        ("_progress", num (-1))]) ∧
    updateProgressWith
        ⟨num 0, num 0, str "w", ⟨null, str "in_progress", null, str "error", null, num 0⟩⟩
        (num 101) (obj [("_state", str "in_progress"), ("_owner", str "w:0")]) =
      Except.ok (obj [("_state", str "in_progress"), ("_owner", str "w:0"),
        ("_progress", num 101)]) ∧
    updateProgressWith
        ⟨num 0, num 0, str "w", ⟨null, str "in_progress", null, str "error", null, num 0⟩⟩
        (str "foo") (obj [("_state", str "in_progress"), ("_owner", str "w:0")]) =
      Except.ok (obj [("_state", str "in_progress"), ("_owner", str "w:0"),
        ("_progress", str "foo")]) :=
  ⟨rfl, rfl, rfl⟩

/-- C23 (amended): `updateProgressWith(p)` makes no range check. On every stored
value other than null it commits the value with `_progress` = `p` exactly when
the value is in `inProgressState` and owned by the token, whatever `p` is, and
returns `undefined` otherwise. -/
theorem update_progress_unchecked (h : TransactionHelper) (p task : JSVal)
    (hn : task ≠ null) (hu : task ≠ undefined) :
    ((_isOwner h task && _isInProgress h task) = true ∧
      updateProgressWith h p task = Except.ok (setProp task "_progress" p) ∧
      getProp (setProp task "_progress" p) "_progress" = p) ∨
    ((_isOwner h task && _isInProgress h task) = false ∧
      updateProgressWith h p task = Except.ok undefined) := by
  cases hg : (_isOwner h task && _isInProgress h task)
  · right
    exact ⟨rfl, updateProgressWith_of_guard_false h p task hn hu hg⟩
  · left
    simp only [Bool.and_eq_true] at hg
    refine ⟨rfl, updateProgressWith_of_guard h p task hg.1 hg.2, ?_⟩
    rcases objLike_of_isOwner hg.1 with ⟨fs, rfl⟩ | ⟨es, ps, rfl⟩
    · simp [getProp_setProp_obj]
    · simp [getProp_setProp_arr]

/-- C23 (amended), at progress -1 on an owned record and progress 10 on a
record of another worker. -/
theorem update_progress_unchecked_witness :
    (((_isOwner ⟨num 0, num 0, str "w", ⟨null, str "busy", null, str "error", null, num 0⟩⟩
          (obj [("_state", str "busy"), ("_owner", str "w:0")]) &&
        _isInProgress ⟨num 0, num 0, str "w", ⟨null, str "busy", null, str "error", null, num 0⟩⟩
          (obj [("_state", str "busy"), ("_owner", str "w:0")])) = true ∧
      updateProgressWith
          ⟨num 0, num 0, str "w", ⟨null, str "busy", null, str "error", null, num 0⟩⟩
          (num (-1)) (obj [("_state", str "busy"), ("_owner", str "w:0")]) =
        Except.ok (setProp (obj [("_state", str "busy"), ("_owner", str "w:0")])
          "_progress" (num (-1))) ∧
      getProp (setProp (obj [("_state", str "busy"), ("_owner", str "w:0")])
          "_progress" (num (-1))) "_progress" = num (-1)) ∨
    ((_isOwner ⟨num 0, num 0, str "w", ⟨null, str "busy", null, str "error", null, num 0⟩⟩
          (obj [("_state", str "busy"), ("_owner", str "w:0")]) &&
        _isInProgress ⟨num 0, num 0, str "w", ⟨null, str "busy", null, str "error", null, num 0⟩⟩
          (obj [("_state", str "busy"), ("_owner", str "w:0")])) = false ∧
      updateProgressWith
          ⟨num 0, num 0, str "w", ⟨null, str "busy", null, str "error", null, num 0⟩⟩
          (num (-1)) (obj [("_state", str "busy"), ("_owner", str "w:0")]) =
        Except.ok undefined)) :=
  update_progress_unchecked
    ⟨num 0, num 0, str "w", ⟨null, str "busy", null, str "error", null, num 0⟩⟩
    (num (-1)) (obj [("_state", str "busy"), ("_owner", str "w:0")]) (by simp) (by simp)

/-- C27: for every replacement that is not a plain object, `resolveWith` returns
on every stored value what `resolveWith` of the empty object returns; a record
it commits is exactly `{_state: finishedState, _state_changed: <server
timestamp>, _owner: null, _progress: 100, _error_details: null}`, and it commits
that record on every in-progress record owned by the token when `finishedState`
is truthy. -/
theorem resolve_non_object (h : TransactionHelper) (x task : JSVal)
    (hx : isPlainObject x = false) :
    resolveWith h x task = resolveWith h (obj []) task ∧
    (∀ r, resolveWith h x task = Except.ok (obj r) →
      r = [("_state", h.spec.finishedState), ("_state_changed", SERVER_TIMESTAMP),
           ("_owner", null), ("_progress", num 100), ("_error_details", null)]) ∧
    (_isOwner h task = true → _isInProgress h task = true →
      truthy h.spec.finishedState = true →
      resolveWith h x task =
        Except.ok (obj [("_state", h.spec.finishedState),
          ("_state_changed", SERVER_TIMESTAMP), ("_owner", null), ("_progress", num 100),
          ("_error_details", null)])) := by
  have hc : coerceReplacement x = [] := by
    cases x <;> simp_all [coerceReplacement, isPlainObject]
  refine ⟨?_, ?_, ?_⟩
  · have hc2 : coerceReplacement (obj []) = [] := rfl
    cases task <;> simp only [resolveWith, hc, hc2]
  · intro r hr
    obtain ⟨_, hr2⟩ := resolveWith_commit h x task r hr
    rw [hr2, hc]
    simp [getField, delField, setField, strictEq, isString]
  · intro ho hp hf
    rw [resolveWith_of_guard h x task ho hp, hc]
    simp [getField, delField, setField, strictEq, isString, hf]

/-- C27, at the replacements of the tests (a string, a number, an array, null,
nothing) with `finishedState` 'finished_state'. -/
theorem resolve_non_object_witness :
    resolveWith
        ⟨num 0, num 0, str "w", ⟨null, str "in_progress", str "finished_state", str "error",
          null, num 0⟩⟩
        (arr [str "foo", str "bar"] [])
        (obj [("_state", str "in_progress"), ("_owner", str "w:0"), ("_progress", num 0)]) =
      Except.ok (obj [("_state", str "finished_state"), ("_state_changed", SERVER_TIMESTAMP),
        ("_owner", null), ("_progress", num 100), ("_error_details", null)]) ∧
    resolveWith
        ⟨num 0, num 0, str "w", ⟨null, str "in_progress", str "finished_state", str "error",
          null, num 0⟩⟩
        undefined
        (obj [("_state", str "in_progress"), ("_owner", str "w:0"), ("_progress", num 0)]) =
      resolveWith
        ⟨num 0, num 0, str "w", ⟨null, str "in_progress", str "finished_state", str "error",
          null, num 0⟩⟩
        (obj [])
        (obj [("_state", str "in_progress"), ("_owner", str "w:0"), ("_progress", num 0)]) :=
  ⟨(resolve_non_object
      ⟨num 0, num 0, str "w", ⟨null, str "in_progress", str "finished_state", str "error",
        null, num 0⟩⟩
      (arr [str "foo", str "bar"] [])
      (obj [("_state", str "in_progress"), ("_owner", str "w:0"), ("_progress", num 0)])
      rfl).2.2 rfl rfl rfl,
   (resolve_non_object
      ⟨num 0, num 0, str "w", ⟨null, str "in_progress", str "finished_state", str "error",
        null, num 0⟩⟩
      undefined
      (obj [("_state", str "in_progress"), ("_owner", str "w:0"), ("_progress", num 0)])
      rfl).1⟩

end TransactionHelper

/-! ## The worker's reset and the two timeout tests -/

/-- C25: for a worker whose owner token and `inProgressState` are strings,
`TaskWorker.reset` commits on a plain-object record if and only if the record's
`_owner` is the token and its `_state` is `inProgressState`, and returns
`undefined` in every other case; the decision is the same under any other
`serverOffset` and timeout and for any other `_state_changed`. -/
theorem worker_reset_iff (w : TaskWorker) (fs : Fields) (o p : String)
    (how : w.owner = str o) (hips : w.spec.inProgressState = str p) :
    ((∃ r, TaskWorker.reset w (obj fs) = Except.ok (obj r)) ↔
      (getField fs "_owner" = str o ∧ getField fs "_state" = str p)) ∧
    (¬ (getField fs "_owner" = str o ∧ getField fs "_state" = str p) →
      TaskWorker.reset w (obj fs) = Except.ok undefined) ∧
    (∀ offset timeout changed : JSVal,
      ((∃ r, TaskWorker.reset w (obj fs) = Except.ok (obj r)) ↔
        ∃ r, TaskWorker.reset
          ⟨offset, w.owner, ⟨w.spec.startState, w.spec.inProgressState, w.spec.finishedState,
            w.spec.errorState, timeout, w.spec.retries⟩⟩
          (obj (setField fs "_state_changed" changed)) = Except.ok (obj r))) := by
  have hguard : ∀ (w' : TaskWorker) (fs' : Fields), w'.owner = str o →
      w'.spec.inProgressState = str p →
      ((TaskWorker._isOwner w' (obj fs') && TaskWorker._isInProgress w' (obj fs')) = true ↔
        (getField fs' "_owner" = str o ∧ getField fs' "_state" = str p)) := by
    intro w' fs' ho' hp'
    unfold TaskWorker._isOwner TaskWorker._isInProgress
    rw [ho', hp', Bool.and_eq_true, strictEq_str, strictEq_str]
    rfl
  have hiff : ∀ (w' : TaskWorker) (fs' : Fields), w'.owner = str o →
      w'.spec.inProgressState = str p →
      ((∃ r, TaskWorker.reset w' (obj fs') = Except.ok (obj r)) ↔
        (getField fs' "_owner" = str o ∧ getField fs' "_state" = str p)) := by
    intro w' fs' ho' hp'
    rw [TaskWorker.worker_reset_obj]
    constructor
    · rintro ⟨r, hr⟩
      split at hr
      · rename_i hc
        exact (hguard w' fs' ho' hp').mp hc
      · cases hr
    · intro hc
      rw [if_pos ((hguard w' fs' ho' hp').mpr hc)]
      exact ⟨_, rfl⟩
  refine ⟨hiff w fs how hips, ?_, ?_⟩
  · intro hc
    rw [TaskWorker.worker_reset_obj, if_neg (fun hg => hc ((hguard w fs how hips).mp hg))]
  · intro offset timeout changed
    have h2 := hiff
      ⟨offset, w.owner, ⟨w.spec.startState, w.spec.inProgressState, w.spec.finishedState,
        w.spec.errorState, timeout, w.spec.retries⟩⟩
      (setField fs "_state_changed" changed) how hips
    rw [hiff w fs how hips, h2]
    simp [getField_setField]

/-- C25, at the records of the tests: the worker's own in-progress record is
reset, a record owned by 'someone' is not. -/
theorem worker_reset_iff_witness :
    ((∃ r, TaskWorker.reset
        ⟨num 0, str "w:0", ⟨null, str "in_progress", null, str "error", null, num 0⟩⟩
        (obj [("_state", str "in_progress"), ("_state_changed", num 1000),
              ("_owner", str "w:0"), ("_progress", num 0)]) = Except.ok (obj r)) ↔
      (getField [("_state", str "in_progress"), ("_state_changed", num 1000),
          ("_owner", str "w:0"), ("_progress", num 0)] "_owner" = str "w:0" ∧
        getField [("_state", str "in_progress"), ("_state_changed", num 1000),
          ("_owner", str "w:0"), ("_progress", num 0)] "_state" = str "in_progress")) ∧
    TaskWorker.reset
        ⟨num 0, str "w:0", ⟨null, str "in_progress", null, str "error", null, num 0⟩⟩
        (obj [("_state", str "in_progress"), ("_state_changed", num 1000),
              ("_owner", str "someone"), ("_progress", num 0)]) = Except.ok undefined :=
  ⟨(worker_reset_iff
      ⟨num 0, str "w:0", ⟨null, str "in_progress", null, str "error", null, num 0⟩⟩
      [("_state", str "in_progress"), ("_state_changed", num 1000),
       ("_owner", str "w:0"), ("_progress", num 0)] "w:0" "in_progress" rfl rfl).1,
   (worker_reset_iff
      ⟨num 0, str "w:0", ⟨null, str "in_progress", null, str "error", null, num 0⟩⟩
      [("_state", str "in_progress"), ("_state_changed", num 1000),
       ("_owner", str "someone"), ("_progress", num 0)] "w:0" "in_progress" rfl rfl).2.1
      (fun hc => absurd hc.1 (by simp [getField]))⟩

/-- C28: the two timeout tests disagree. With `serverOffset` 100, timeout 10 and
the same spec, on the record `{_state: 'in_progress', _state_changed: 1000,
_owner: 'someone'}` at clock reading 950, `TransactionHelper.resetIfTimedOut`
computes 950 + 100 - 1000 = 50 and resets, while `TaskWorker.resetIfTimedOut`
computes 950 - 100 - 1000 = -150 and returns `undefined`. -/
theorem timeout_tests_disagree :
    TransactionHelper.resetIfTimedOut
        ⟨num 100, num 0, str "w", ⟨null, str "in_progress", null, str "error", num 10, num 0⟩⟩
        950 (obj [("_state", str "in_progress"), ("_state_changed", num 1000),
                  ("_owner", str "someone")]) =
      Except.ok (obj [("_state", null), ("_state_changed", SERVER_TIMESTAMP), ("_owner", null),
        ("_progress", null), ("_error_details", null)]) ∧
    TaskWorker.resetIfTimedOut
        ⟨num 100, str "w:0", ⟨null, str "in_progress", null, str "error", num 10, num 0⟩⟩
        950 (obj [("_state", str "in_progress"), ("_state_changed", num 1000),
                  ("_owner", str "someone")]) = Except.ok undefined :=
  ⟨rfl, rfl⟩

/-! ## Ownership implies in progress -/

/-- After the five writes of a reset the value has no owner: `_owner` is null,
or the value is a primitive and has no properties. -/
theorem owner_after_reset_writes (t start : JSVal) :
    getProp (setProp (setProp (setProp (setProp (setProp t "_state" start)
      "_state_changed" SERVER_TIMESTAMP) "_owner" null) "_progress" null)
      "_error_details" null) "_owner" = null ∨
    getProp (setProp (setProp (setProp (setProp (setProp t "_state" start)
      "_state_changed" SERVER_TIMESTAMP) "_owner" null) "_progress" null)
      "_error_details" null) "_owner" = undefined := by
  cases t <;> simp [setProp, getProp, getField_setField]

/-- The two outcomes of `TransactionHelper.resetIfTimedOut` on a stored value
other than null. -/
theorem resetIfTimedOut_form (h : TransactionHelper) (now : Int) (t : JSVal)
    (hn : t ≠ null) (hu : t ≠ undefined) :
    TransactionHelper.resetIfTimedOut h now t = Except.ok undefined ∨
    TransactionHelper.resetIfTimedOut h now t =
      Except.ok (setProp (setProp (setProp (setProp (setProp t "_state" h.spec.startState)
        "_state_changed" SERVER_TIMESTAMP) "_owner" null) "_progress" null)
        "_error_details" null) := by
  cases t <;>
    first
    | exact absurd rfl hn
    | exact absurd rfl hu
    | (simp only [TransactionHelper.resetIfTimedOut]
       split
       · exact Or.inr rfl
       · exact Or.inl rfl)

/-- The two outcomes of `TaskWorker.reset` on a stored value other than null. -/
theorem worker_reset_form (w : TaskWorker) (t : JSVal)
    (hn : t ≠ null) (hu : t ≠ undefined) :
    TaskWorker.reset w t = Except.ok undefined ∨
    TaskWorker.reset w t =
      Except.ok (setProp (setProp (setProp (setProp (setProp t "_state" w.spec.startState)
        "_state_changed" SERVER_TIMESTAMP) "_owner" null) "_progress" null)
        "_error_details" null) := by
  cases t <;>
    first
    | exact absurd rfl hn
    | exact absurd rfl hu
    | (simp only [TaskWorker.reset, TaskWorker._reset]
       split
       · exact Or.inr rfl
       · exact Or.inl rfl)

/-- What `TransactionHelper.resetIfTimedOut` can return. -/
theorem resetIfTimedOut_result (h : TransactionHelper) (now : Int) (t v : JSVal)
    (hv : TransactionHelper.resetIfTimedOut h now t = Except.ok v) :
    v = undefined ∨ v = null ∨ getProp v "_owner" = null ∨ getProp v "_owner" = undefined := by
  by_cases hn : t = null
  · subst hn
    right
    left
    injection hv with hv
    exact hv.symm
  by_cases hu : t = undefined
  · subst hu
    cases hv
  rcases resetIfTimedOut_form h now t hn hu with hf | hf
  · rw [hf] at hv
    injection hv with hv
    exact Or.inl hv.symm
  · rw [hf] at hv
    injection hv with hv
    subst hv
    right
    right
    exact owner_after_reset_writes t _

/-- What `TaskWorker.reset` can return. -/
theorem worker_reset_result (w : TaskWorker) (t v : JSVal)
    (hv : TaskWorker.reset w t = Except.ok v) :
    v = undefined ∨ v = null ∨ getProp v "_owner" = null ∨ getProp v "_owner" = undefined := by
  by_cases hn : t = null
  · subst hn
    right
    left
    injection hv with hv
    exact hv.symm
  by_cases hu : t = undefined
  · subst hu
    cases hv
  rcases worker_reset_form w t hn hu with hf | hf
  · rw [hf] at hv
    injection hv with hv
    exact Or.inl hv.symm
  · rw [hf] at hv
    injection hv with hv
    subst hv
    right
    right
    exact owner_after_reset_writes t _

namespace TransactionHelper

/-- What `resolveWith` can return. -/
theorem resolveWith_result (h : TransactionHelper) (x t v : JSVal)
    (hv : resolveWith h x t = Except.ok v) :
    v = undefined ∨ v = null ∨ getProp v "_owner" = null := by
  cases hg : (_isOwner h t && _isInProgress h t)
  · by_cases hn : t = null
    · subst hn
      injection hv with hv
      exact Or.inr (Or.inl hv.symm)
    by_cases hu : t = undefined
    · subst hu
      cases hv
    rw [resolveWith_of_guard_false h x t hn hu hg] at hv
    injection hv with hv
    exact Or.inl hv.symm
  · simp only [Bool.and_eq_true] at hg
    rw [resolveWith_of_guard h x t hg.1 hg.2] at hv
    split at hv
    · injection hv with hv
      exact Or.inr (Or.inl hv.symm)
    · injection hv with hv
      subst hv
      right
      right
      simp [getProp, getField_setField]

/-- What `rejectWith` can return. -/
theorem rejectWith_result (h : TransactionHelper) (e s t v : JSVal)
    (hv : rejectWith h e s t = Except.ok v) :
    v = undefined ∨ v = null ∨ getProp v "_owner" = null := by
  cases hg : (_isOwner h t && _isInProgress h t)
  · by_cases hn : t = null
    · subst hn
      injection hv with hv
      exact Or.inr (Or.inl hv.symm)
    by_cases hu : t = undefined
    · subst hu
      cases hv
    rw [rejectWith_of_guard_false h e s t hn hu hg] at hv
    injection hv with hv
    exact Or.inl hv.symm
  · simp only [Bool.and_eq_true] at hg
    rw [rejectWith_of_guard h e s t hg.1 hg.2] at hv
    injection hv with hv
    subst hv
    right
    right
    rcases objLike_of_isOwner hg.1 with ⟨fs, rfl⟩ | ⟨es, ps, rfl⟩ <;>
      simp [setProp, getProp, getField_setField]

/-- What `updateProgressWith` can return. -/
theorem updateProgressWith_result (h : TransactionHelper) (p t v : JSVal)
    (hv : updateProgressWith h p t = Except.ok v) :
    v = undefined ∨ v = null ∨ getProp v "_state" = h.spec.inProgressState := by
  cases hg : (_isOwner h t && _isInProgress h t)
  · by_cases hn : t = null
    · subst hn
      injection hv with hv
      exact Or.inr (Or.inl hv.symm)
    by_cases hu : t = undefined
    · subst hu
      cases hv
    rw [updateProgressWith_of_guard_false h p t hn hu hg] at hv
    injection hv with hv
    exact Or.inl hv.symm
  · simp only [Bool.and_eq_true] at hg
    rw [updateProgressWith_of_guard h p t hg.1 hg.2] at hv
    injection hv with hv
    subst hv
    right
    right
    have hst := isInProgress_eq hg.2
    rcases objLike_of_isOwner hg.1 with ⟨fs, rfl⟩ | ⟨es, ps, rfl⟩
    · rw [getProp_setProp_obj]
      simpa using hst
    · rw [getProp_setProp_arr]
      simpa using hst

/-- What `claim` can return. -/
theorem claim_result (h : TransactionHelper) (t v : JSVal)
    (hv : claim h t = Except.ok v) :
    v = undefined ∨ v = null ∨ getProp v "_state" = h.spec.inProgressState ∨
      getProp v "_owner" = undefined := by
  by_cases hn : t = null
  · subst hn
    injection hv with hv
    exact Or.inr (Or.inl hv.symm)
  cases hp : isPlainObject t
  · rw [(claim_malformed h t hn hp).1] at hv
    injection hv with hv
    subst hv
    right
    right
    right
    simp [getProp, getField]
  · cases t <;> simp [isPlainObject] at hp
    rename_i fs
    cases hm : strictEq (jsOr (getField fs "_state") null) h.spec.startState
    · rw [claim_of_no_match h fs hm] at hv
      injection hv with hv
      exact Or.inl hv.symm
    · rw [claim_of_match h fs hm] at hv
      injection hv with hv
      subst hv
      right
      right
      left
      simp [getProp, getField_setField]

end TransactionHelper

/-- C29: with P(v) = '`_owner` of v is neither null nor absent implies `_state`
of v is `inProgressState`', whatever `claim`, `resolveWith(x)`,
`rejectWith(e, s)`, `updateProgressWith(p)`, `resetIfTimedOut` of a helper and
`reset` of a worker with the same spec return on any stored value `t` is
`undefined` (untouched), null (delete) or a value that satisfies P; the
malformed-task record of `claim` is among these. -/
theorem owner_implies_in_progress (h : TransactionHelper) (w : TaskWorker)
    (x e s p t v : JSVal) (now : Int)
    (hv : TransactionHelper.claim h t = Except.ok v ∨
      TransactionHelper.resolveWith h x t = Except.ok v ∨
      TransactionHelper.rejectWith h e s t = Except.ok v ∨
      TransactionHelper.updateProgressWith h p t = Except.ok v ∨
      TransactionHelper.resetIfTimedOut h now t = Except.ok v ∨
      TaskWorker.reset w t = Except.ok v) :
    v = undefined ∨ v = null ∨
    (getProp v "_owner" ≠ null → getProp v "_owner" ≠ undefined →
      getProp v "_state" = h.spec.inProgressState) := by
  rcases hv with hv | hv | hv | hv | hv | hv
  · rcases TransactionHelper.claim_result h t v hv with h1 | h1 | h1 | h1
    · exact Or.inl h1
    · exact Or.inr (Or.inl h1)
    · exact Or.inr (Or.inr (fun _ _ => h1))
    · exact Or.inr (Or.inr (fun _ hu => absurd h1 hu))
  · rcases TransactionHelper.resolveWith_result h x t v hv with h1 | h1 | h1
    · exact Or.inl h1
    · exact Or.inr (Or.inl h1)
    · exact Or.inr (Or.inr (fun hn _ => absurd h1 hn))
  · rcases TransactionHelper.rejectWith_result h e s t v hv with h1 | h1 | h1
    · exact Or.inl h1
    · exact Or.inr (Or.inl h1)
    · exact Or.inr (Or.inr (fun hn _ => absurd h1 hn))
  · rcases TransactionHelper.updateProgressWith_result h p t v hv with h1 | h1 | h1
    · exact Or.inl h1
    · exact Or.inr (Or.inl h1)
    · exact Or.inr (Or.inr (fun _ _ => h1))
  · rcases resetIfTimedOut_result h now t v hv with h1 | h1 | h1 | h1
    · exact Or.inl h1
    · exact Or.inr (Or.inl h1)
    · exact Or.inr (Or.inr (fun hn _ => absurd h1 hn))
    · exact Or.inr (Or.inr (fun _ hu => absurd h1 hu))
  · rcases worker_reset_result w t v hv with h1 | h1 | h1 | h1
    · exact Or.inl h1
    · exact Or.inr (Or.inl h1)
    · exact Or.inr (Or.inr (fun hn _ => absurd h1 hn))
    · exact Or.inr (Or.inr (fun _ hu => absurd h1 hu))

/-- C29, at a claim that commits and at the malformed-task record. -/
theorem owner_implies_in_progress_witness :
    (obj [("_state", str "busy"), ("_state_changed", SERVER_TIMESTAMP),
          ("_owner", str "w:0"), ("_progress", num 0)] = undefined ∨
      obj [("_state", str "busy"), ("_state_changed", SERVER_TIMESTAMP),
          ("_owner", str "w:0"), ("_progress", num 0)] = null ∨
      (getProp (obj [("_state", str "busy"), ("_state_changed", SERVER_TIMESTAMP),
          ("_owner", str "w:0"), ("_progress", num 0)]) "_owner" ≠ null →
        getProp (obj [("_state", str "busy"), ("_state_changed", SERVER_TIMESTAMP),
          ("_owner", str "w:0"), ("_progress", num 0)]) "_owner" ≠ undefined →
        getProp (obj [("_state", str "busy"), ("_state_changed", SERVER_TIMESTAMP),
          ("_owner", str "w:0"), ("_progress", num 0)]) "_state" = str "busy")) ∧
    (obj [("_state", str "error"), ("_state_changed", SERVER_TIMESTAMP),
          ("_error_details",
            obj [("error", str "Task was malformed"), ("original_task", num 7)])]
        = undefined ∨
      obj [("_state", str "error"), ("_state_changed", SERVER_TIMESTAMP),
          ("_error_details",
            obj [("error", str "Task was malformed"), ("original_task", num 7)])] = null ∨
      (getProp (obj [("_state", str "error"), ("_state_changed", SERVER_TIMESTAMP),
          ("_error_details",
            obj [("error", str "Task was malformed"), ("original_task", num 7)])])
          "_owner" ≠ null →
        getProp (obj [("_state", str "error"), ("_state_changed", SERVER_TIMESTAMP),
          ("_error_details",
            obj [("error", str "Task was malformed"), ("original_task", num 7)])])
          "_owner" ≠ undefined →
        getProp (obj [("_state", str "error"), ("_state_changed", SERVER_TIMESTAMP),
          ("_error_details",
            obj [("error", str "Task was malformed"), ("original_task", num 7)])])
          "_state" = str "busy")) :=
  ⟨owner_implies_in_progress
      ⟨num 0, num 0, str "w", ⟨str "start", str "busy", null, str "error", null, num 0⟩⟩
      ⟨num 0, str "w:0", ⟨str "start", str "busy", null, str "error", null, num 0⟩⟩
      undefined undefined undefined undefined (obj [("_state", str "start")]) _ 0
      (Or.inl rfl),
   owner_implies_in_progress
      ⟨num 0, num 0, str "w", ⟨str "start", str "busy", null, str "error", null, num 0⟩⟩
      ⟨num 0, str "w:0", ⟨str "start", str "busy", null, str "error", null, num 0⟩⟩
      undefined undefined undefined undefined (num 7) _ 0
      (Or.inl rfl)⟩

/-! ## Owner tokens -/

namespace JSVal

theorem digitChar_toNat (k : Nat) (hk : k < 10) : (Nat.digitChar k).toNat = 48 + k := by
  interval_cases k <;> rfl

/-- Reading back the decimal digits that `Nat.toDigitsCore` puts in front of
`ds` gives the number itself. -/
theorem digitsValue_toDigitsCore (fuel : Nat) :
    ∀ (n : Nat) (ds : List Char), n < fuel →
      digitsValue (Nat.toDigitsCore 10 fuel n ds) 0 = digitsValue ds n := by
  induction fuel with
  | zero =>
    intro n ds hn
    omega
  | succ fuel ih =>
    intro n ds hn
    have hd : (Nat.digitChar (n % 10)).toNat = 48 + n % 10 :=
      digitChar_toNat _ (Nat.mod_lt _ (by decide))
    have hlt : n % 10 < 10 := Nat.mod_lt _ (by decide)
    simp only [Nat.toDigitsCore]
    by_cases h0 : n / 10 = 0
    · rw [if_pos h0]
      have hn10 : n < 10 := by omega
      simp only [digitsValue, hd]
      rw [if_pos (by omega)]
      congr 1
      omega
    · rw [if_neg h0, ih (n / 10) _ (by omega)]
      simp only [digitsValue, hd]
      rw [if_pos (by omega)]
      congr 1
      omega

/-- The decimal representation of a natural number reads back as that number. -/
theorem digitsValue_toDigits (n : Nat) : digitsValue (Nat.toDigits 10 n) 0 = some n := by
  unfold Nat.toDigits
  rw [digitsValue_toDigitsCore (n + 1) n [] (by omega)]
  rfl

theorem digitsValue_digits : ∀ (cs : List Char) (acc v : Nat),
    digitsValue cs acc = some v → ∀ c ∈ cs, 48 ≤ c.toNat ∧ c.toNat ≤ 57 := by
  intro cs
  induction cs with
  | nil =>
    intro _ _ _ c hc
    simp at hc
  | cons d ds ih =>
    intro acc v hv c hc
    simp only [digitsValue] at hv
    by_cases hd : 48 ≤ d.toNat ∧ d.toNat ≤ 57
    · rw [if_pos hd] at hv
      rcases List.mem_cons.mp hc with rfl | hc
      · exact hd
      · exact ih _ _ hv c hc
    · rw [if_neg hd] at hv
      cases hv

/-- Two natural numbers with the same decimal representation are equal. -/
theorem natRepr_injective (m n : Nat) (h : Nat.repr m = Nat.repr n) : m = n := by
  have h2 : Nat.toDigits 10 m = Nat.toDigits 10 n := by
    have := congrArg String.data h
    simpa [Nat.repr, List.asString] using this
  have h3 := digitsValue_toDigits m
  rw [h2, digitsValue_toDigits n] at h3
  injection h3 with h3
  exact h3.symm

/-- A decimal representation has no colon. -/
theorem colon_not_in_natRepr (n : Nat) : ':' ∉ (Nat.repr n).data := by
  intro hc
  have hd := digitsValue_digits _ _ _ (digitsValue_toDigits n) ':'
    (by simpa [Nat.repr, List.asString] using hc)
  revert hd
  decide

/-- A list splits in one way only at the last occurrence of an element. -/
theorem split_at_last {α : Type} (a : α) : ∀ (l1 l2 r1 r2 : List α),
    a ∉ r1 → a ∉ r2 → l1 ++ a :: r1 = l2 ++ a :: r2 → l1 = l2 ∧ r1 = r2 := by
  intro l1
  induction l1 with
  | nil =>
    intro l2 r1 r2 h1 h2 he
    cases l2 with
    | nil => simpa using he
    | cons b l2' =>
      exfalso
      simp only [List.nil_append, List.cons_append, List.cons.injEq] at he
      apply h1
      rw [he.2]
      simp
  | cons x l1' ih =>
    intro l2 r1 r2 h1 h2 he
    cases l2 with
    | nil =>
      exfalso
      simp only [List.nil_append, List.cons_append, List.cons.injEq] at he
      apply h2
      rw [← he.2]
      simp
    | cons y l2' =>
      simp only [List.cons_append, List.cons.injEq] at he
      obtain ⟨hxy, hr⟩ := he
      obtain ⟨hl, hrr⟩ := ih l2' r1 r2 h1 h2 hr
      exact ⟨by rw [hxy, hl], hrr⟩

/-- The string of a natural number as a number of the model: its decimal
digits (what the source prints up to `2^53`). -/
theorem toStr_num_nat (n : Nat) : toStr (toPrimitive (num (n : Int))) = Nat.repr n := rfl

end JSVal

namespace TransactionHelper

/-- The token of a helper with a string process id and a natural task number,
in the model (the source prints the same up to `2^53`). -/
theorem owner_str_nat (off : JSVal) (sp : TaskSpec) (p : String) (m : Nat) :
    owner ⟨off, num (m : Int), str p, sp⟩ = str (p ++ ":" ++ Nat.repr m) := by
  rw [owner_eq_str]
  rfl

/-- C30: the owner token of a helper with process id `p` (a string) and task
number `m` (a natural number up to `2^53`, the range in which the source prints
a number by its decimal digits) is `p` followed by ':' and the decimal digits of
`m`, with `m` = 0 when no task number is given; and equal tokens come from equal
process ids and equal task numbers, also when a process id contains ':'. -/
theorem owner_injective (off1 off2 : JSVal) (sp1 sp2 : TaskSpec) (p q : String) (m n : Nat) :
    m ≤ 2 ^ 53 → n ≤ 2 ^ 53 →
    owner ⟨off1, num (m : Int), str p, sp1⟩ = str (p ++ ":" ++ toString m) ∧
    (p ≠ "" →
      create off1 (num (m : Int)) (str p) sp1 = Except.ok ⟨off1, num (m : Int), str p, sp1⟩ ∧
      create off1 undefined (str p) sp1 = Except.ok ⟨off1, num 0, str p, sp1⟩ ∧
      owner ⟨off1, num 0, str p, sp1⟩ = str (p ++ ":" ++ "0")) ∧
    (owner ⟨off1, num (m : Int), str p, sp1⟩ = owner ⟨off2, num (n : Int), str q, sp2⟩ →
      p = q ∧ m = n) := by
  intro _ _
  refine ⟨owner_str_nat off1 sp1 p m, ?_, ?_⟩
  · intro hp
    refine ⟨?_, ?_, ?_⟩
    · simp [create, truthy, hp, defaultTo]
    · simp [create, truthy, hp, defaultTo]
    · exact owner_str_nat off1 sp1 p 0
  · intro he
    rw [owner_str_nat, owner_str_nat] at he
    injection he with he
    have hd := congrArg String.data he
    simp only [String.data_append] at hd
    have hd2 : p.data ++ ':' :: (Nat.repr m).data = q.data ++ ':' :: (Nat.repr n).data := by
      simpa using hd
    obtain ⟨hpq, hmn⟩ := split_at_last ':' _ _ _ _
      (colon_not_in_natRepr m) (colon_not_in_natRepr n) hd2
    constructor
    · exact String.ext hpq
    · exact natRepr_injective m n (String.ext hmn)

/-- C30, at the process ids 'a:1' and 'a': the tokens 'a:1:2' and 'a:12' differ. -/
theorem owner_injective_witness :
    owner ⟨num 0, num ((2 : Nat) : Int), str "a:1",
        ⟨null, str "busy", null, str "error", null, num 0⟩⟩ = str ("a:1" ++ ":" ++ toString 2) ∧
    owner ⟨num 0, num ((2 : Nat) : Int), str "a:1",
        ⟨null, str "busy", null, str "error", null, num 0⟩⟩ ≠
      owner ⟨num 0, num ((12 : Nat) : Int), str "a",
        ⟨null, str "busy", null, str "error", null, num 0⟩⟩ :=
  ⟨(owner_injective (num 0) (num 0) ⟨null, str "busy", null, str "error", null, num 0⟩
      ⟨null, str "busy", null, str "error", null, num 0⟩ "a:1" "a" 2 12
      (by decide) (by decide)).1,
   fun he => absurd ((owner_injective (num 0) (num 0)
      ⟨null, str "busy", null, str "error", null, num 0⟩
      ⟨null, str "busy", null, str "error", null, num 0⟩ "a:1" "a" 2 12
      (by decide) (by decide)).2.2 he).2
      (by decide)⟩

/-- The tokens of two consecutive task numbers differ, in the model (in the
source for task numbers below `2^53`, where adding 1 is exact). -/
theorem owner_ne_next (off1 off2 pid : JSVal) (sp1 sp2 : TaskSpec) (n : Nat) :
    owner ⟨off1, num ((n + 1 : Nat) : Int), pid, sp1⟩ ≠ owner ⟨off2, num (n : Int), pid, sp2⟩ := by
  intro he
  rw [owner_eq_str, owner_eq_str] at he
  injection he with he
  have hd := congrArg String.data he
  simp only [String.data_append, toStr_num_nat, List.append_assoc] at hd
  have h1 := List.append_cancel_left hd
  have h2 := List.append_cancel_left h1
  have h3 := natRepr_injective _ _ (String.ext h2)
  omega

/-- C24: for every helper `h` with a truthy process id and task number `n` (a
natural number below `2^53`, the range in which the source's `taskNumber + 1`
is exact), `h.cloneForNextTask()` is a helper with the same `processId`,
`serverOffset` and spec, task number `n + 1` and an owner token other than
`h.owner`; so `resolveWith`, `rejectWith` and `updateProgressWith` of the new
helper return `undefined` on every value whose `_owner` is `h.owner`, and those
of `h` return `undefined` on every value whose `_owner` is the new token. -/
theorem clone_invalidates (h : TransactionHelper) (n : Nat)
    (hpid : truthy h.processId = true) (hnum : h.taskNumber = num (n : Int)) :
    n < 2 ^ 53 →
    ∃ h', cloneForNextTask h = Except.ok h' ∧
      h'.processId = h.processId ∧ h'.serverOffset = h.serverOffset ∧ h'.spec = h.spec ∧
      h'.taskNumber = num ((n + 1 : Nat) : Int) ∧
      h'.owner ≠ h.owner ∧
      (∀ x e s p task, getProp task "_owner" = h.owner →
        resolveWith h' x task = Except.ok undefined ∧
        rejectWith h' e s task = Except.ok undefined ∧
        updateProgressWith h' p task = Except.ok undefined) ∧
      (∀ x e s p task, getProp task "_owner" = h'.owner →
        resolveWith h x task = Except.ok undefined ∧
        rejectWith h e s task = Except.ok undefined ∧
        updateProgressWith h p task = Except.ok undefined) := by
  intro _
  obtain ⟨off, tn, pid, sp⟩ := h
  simp only at hpid hnum
  subst hnum
  have hne : owner ⟨off, num ((n + 1 : Nat) : Int), pid, sp⟩ ≠ owner ⟨off, num (n : Int), pid, sp⟩ :=
    owner_ne_next off off pid sp sp n
  have key : ∀ (a b : TransactionHelper) (x e s p task : JSVal), b.owner ≠ a.owner →
      getProp task "_owner" = a.owner →
      resolveWith b x task = Except.ok undefined ∧
      rejectWith b e s task = Except.ok undefined ∧
      updateProgressWith b p task = Except.ok undefined := by
    intro a b x e s p task hab ht
    have hnn := ne_null_of_isOwner ((isOwner_iff a task).mpr ht)
    have hg := guard_false_of_ne b task (Or.inl (by rw [ht]; exact fun e => hab e.symm))
    exact ⟨resolveWith_of_guard_false b x task hnn.1 hnn.2 hg,
      rejectWith_of_guard_false b e s task hnn.1 hnn.2 hg,
      updateProgressWith_of_guard_false b p task hnn.1 hnn.2 hg⟩
  refine ⟨⟨off, num ((n + 1 : Nat) : Int), pid, sp⟩, ?_, rfl, rfl, rfl, rfl, hne, ?_, ?_⟩
  · simp [cloneForNextTask, create, hpid, jsAdd_num_num, defaultTo]
  · intro x e s p task ht
    exact key _ _ x e s p task hne ht
  · intro x e s p task ht
    exact key _ _ x e s p task (fun e => hne e.symm) ht

/-- C24, at the helper of worker 'w' with task number 0 and a record it claimed. -/
theorem clone_invalidates_witness :
    ∃ h', cloneForNextTask
        ⟨num 0, num ((0 : Nat) : Int), str "w",
          ⟨null, str "busy", null, str "error", null, num 0⟩⟩ = Except.ok h' ∧
      h'.taskNumber = num ((0 + 1 : Nat) : Int) ∧
      h'.owner ≠ owner ⟨num 0, num ((0 : Nat) : Int), str "w",
          ⟨null, str "busy", null, str "error", null, num 0⟩⟩ ∧
      resolveWith h' undefined (obj [("_state", str "busy"), ("_owner", str "w:0")])
        = Except.ok undefined :=
  match clone_invalidates
      ⟨num 0, num ((0 : Nat) : Int), str "w", ⟨null, str "busy", null, str "error", null, num 0⟩⟩
      0 rfl rfl (by decide) with
  | ⟨h', h1, _, _, _, h5, h6, h7, _⟩ =>
    ⟨h', h1, h5, h6,
      (h7 undefined undefined undefined undefined
        (obj [("_state", str "busy"), ("_owner", str "w:0")]) rfl).1⟩

end TransactionHelper

/-! ## Idempotence -/

theorem transact_keep (f : JSVal → Except String JSVal) (t : JSVal)
    (hf : f t = Except.ok undefined) : transact f t = t := by
  simp [transact, hf]

theorem transact_commit (f : JSVal → Except String JSVal) (t v : JSVal)
    (hf : f t = Except.ok v) (hv : v ≠ undefined) : transact f t = v := by
  cases v <;> simp_all [transact]

theorem transact_error (f : JSVal → Except String JSVal) (t : JSVal) (m : String)
    (hf : f t = Except.error m) : transact f t = t := by
  simp [transact, hf]

/-- A transaction function that changes nothing on its own result is idempotent
on the store. -/
theorem transact_twice_of_keep (f : JSVal → Except String JSVal) (t : JSVal)
    (hf : f (transact f t) = Except.ok undefined ∨ f (transact f t) = Except.ok (transact f t)) :
    transact f (transact f t) = transact f t := by
  rcases hf with hf | hf
  · exact transact_keep f _ hf
  · by_cases hu : transact f t = undefined
    · rw [hu] at hf ⊢
      exact transact_keep f _ hf
    · exact transact_commit f _ _ hf hu

namespace JSVal

theorem setProp_ne_undefined (t : JSVal) (k : String) (x : JSVal) (ht : t ≠ undefined) :
    setProp t k x ≠ undefined := by
  cases t <;> simp_all [setProp]

theorem setProp_ne_null (t : JSVal) (k : String) (x : JSVal) (ht : t ≠ null) :
    setProp t k x ≠ null := by
  cases t <;> simp_all [setProp]

theorem setProp_setProp_same (t : JSVal) (k : String) (v w : JSVal) :
    setProp (setProp t k v) k w = setProp t k w := by
  cases t <;> simp [setProp, setField_setField_same]

/-- Writing the value a present key already has changes nothing. -/
theorem setField_of_getField (fs : Fields) (k : String) (v : JSVal)
    (hh : hasField fs k = true) (hg : getField fs k = v) : setField fs k v = fs := by
  induction fs with
  | nil => simp [hasField] at hh
  | cons q rest ih =>
    obtain ⟨a, u⟩ := q
    by_cases ha : a = k
    · simp only [getField, ha, if_true] at hg
      simp [setField, ha, hg]
    · simp only [getField, hasField, ha, if_false] at hg hh
      simp [setField, ha, ih hh hg]

end JSVal

namespace TransactionHelper

/-- The four writes of `claim` change nothing on a record that `claim` has
written. -/
theorem claim_writes_twice (fs : Fields) (a b c d : JSVal) :
    setField (setField (setField (setField
      (setField (setField (setField (setField fs "_state" a) "_state_changed" b) "_owner" c)
        "_progress" d)
      "_state" a) "_state_changed" b) "_owner" c) "_progress" d =
    setField (setField (setField (setField fs "_state" a) "_state_changed" b) "_owner" c)
      "_progress" d := by
  have h1 : setField (setField (setField (setField (setField fs "_state" a)
      "_state_changed" b) "_owner" c) "_progress" d) "_state" a =
      setField (setField (setField (setField fs "_state" a) "_state_changed" b) "_owner" c)
        "_progress" d :=
    setField_of_getField _ _ _ (by simp [hasField_setField]) (by simp [getField_setField])
  have h2 : setField (setField (setField (setField (setField fs "_state" a)
      "_state_changed" b) "_owner" c) "_progress" d) "_state_changed" b =
      setField (setField (setField (setField fs "_state" a) "_state_changed" b) "_owner" c)
        "_progress" d :=
    setField_of_getField _ _ _ (by simp [hasField_setField]) (by simp [getField_setField])
  have h3 : setField (setField (setField (setField (setField fs "_state" a)
      "_state_changed" b) "_owner" c) "_progress" d) "_owner" c =
      setField (setField (setField (setField fs "_state" a) "_state_changed" b) "_owner" c)
        "_progress" d :=
    setField_of_getField _ _ _ (by simp [hasField_setField]) (by simp [getField_setField])
  rw [h1, h2, h3, setField_setField_same]

/-- Applying `claim` twice to any stored value leaves what applying it once
leaves, when `claim` does not accept its own malformed-task record. -/
theorem claim_idempotent (h : TransactionHelper) (t : JSVal)
    (hnz : truthy h.spec.errorState = true)
    (hes : h.spec.errorState ≠ h.spec.startState) :
    transact (claim h) (transact (claim h) t) = transact (claim h) t := by
  apply transact_twice_of_keep
  by_cases hn : t = null
  · subst hn
    right
    rfl
  cases hp : isPlainObject t
  · have hc := (claim_malformed h t hn hp).1
    rw [transact_commit _ _ _ hc (by simp)]
    left
    exact claim_of_no_match h _ (claim_guard_of_state h _ _ (by simp [getField]) hnz hes)
  · cases t <;> simp [isPlainObject] at hp
    rename_i fs
    cases hm : strictEq (jsOr (getField fs "_state") null) h.spec.startState
    · rw [transact_keep _ _ (claim_of_no_match h fs hm)]
      left
      exact claim_of_no_match h fs hm
    · rw [transact_commit _ _ _ (claim_of_match h fs hm) (by simp)]
      cases hm2 : strictEq (jsOr (getField (setField (setField (setField (setField fs
          "_state" h.spec.inProgressState) "_state_changed" SERVER_TIMESTAMP)
          "_owner" h.owner) "_progress" (num 0)) "_state") null) h.spec.startState
      · left
        exact claim_of_no_match h _ hm2
      · right
        rw [claim_of_match h _ hm2, claim_writes_twice]

/-- After one `claim` a second `claim` writes nothing: it returns `undefined`, or
null on a deleted record. -/
theorem claim_second_is_noop (h : TransactionHelper) (t : JSVal)
    (hnzp : truthy h.spec.inProgressState = true)
    (hne : h.spec.inProgressState ≠ h.spec.startState)
    (hnz : truthy h.spec.errorState = true)
    (hes : h.spec.errorState ≠ h.spec.startState) :
    claim h (transact (claim h) t) = Except.ok undefined ∨
    claim h (transact (claim h) t) = Except.ok null := by
  by_cases hn : t = null
  · subst hn
    right
    rfl
  cases hp : isPlainObject t
  · have hc := (claim_malformed h t hn hp).1
    rw [transact_commit _ _ _ hc (by simp)]
    left
    exact claim_of_no_match h _ (claim_guard_of_state h _ _ (by simp [getField]) hnz hes)
  · cases t <;> simp [isPlainObject] at hp
    rename_i fs
    cases hm : strictEq (jsOr (getField fs "_state") null) h.spec.startState
    · rw [transact_keep _ _ (claim_of_no_match h fs hm)]
      left
      exact claim_of_no_match h fs hm
    · rw [transact_commit _ _ _ (claim_of_match h fs hm) (by simp)]
      left
      exact claim_of_no_match h _
        (claim_guard_of_state h _ _ (by simp [getField_setField]) hnzp hne)

/-- Applying `resolveWith(x)` twice leaves what applying it once leaves. -/
theorem resolveWith_idempotent (h : TransactionHelper) (x t : JSVal) :
    transact (resolveWith h x) (transact (resolveWith h x) t) =
      transact (resolveWith h x) t := by
  by_cases hu : t = undefined
  · subst hu
    rfl
  apply transact_twice_of_keep
  by_cases hn : t = null
  · subst hn
    right
    rfl
  cases hg : (_isOwner h t && _isInProgress h t)
  · have hf := resolveWith_of_guard_false h x t hn hu hg
    rw [transact_keep _ _ hf]
    exact Or.inl hf
  · simp only [Bool.and_eq_true] at hg
    have hf := resolveWith_of_guard h x t hg.1 hg.2
    split at hf
    · rw [transact_commit _ _ _ hf (by simp)]
      right
      rfl
    · rw [transact_commit _ _ _ hf (by simp)]
      left
      apply resolveWith_of_guard_false h x _ (by simp) (by simp)
      apply guard_false_of_ne
      left
      rw [owner_eq_str]
      simp [getProp, getField_setField]

/-- Applying `rejectWith(e, s)` twice leaves what applying it once leaves. -/
theorem rejectWith_idempotent (h : TransactionHelper) (e s t : JSVal) :
    transact (rejectWith h e s) (transact (rejectWith h e s) t) =
      transact (rejectWith h e s) t := by
  by_cases hu : t = undefined
  · subst hu
    rfl
  apply transact_twice_of_keep
  by_cases hn : t = null
  · subst hn
    right
    rfl
  cases hg : (_isOwner h t && _isInProgress h t)
  · have hf := rejectWith_of_guard_false h e s t hn hu hg
    rw [transact_keep _ _ hf]
    exact Or.inl hf
  · simp only [Bool.and_eq_true] at hg
    have hf := rejectWith_of_guard h e s t hg.1 hg.2
    have hne : ∀ v1 v2 v3 v4, setProp (setProp (setProp (setProp t "_state" v1)
        "_state_changed" v2) "_owner" v3) "_error_details" v4 ≠ undefined := fun _ _ _ _ =>
      setProp_ne_undefined _ _ _ (setProp_ne_undefined _ _ _ (setProp_ne_undefined _ _ _
        (setProp_ne_undefined _ _ _ hu)))
    have hnn : ∀ v1 v2 v3 v4, setProp (setProp (setProp (setProp t "_state" v1)
        "_state_changed" v2) "_owner" v3) "_error_details" v4 ≠ null := fun _ _ _ _ =>
      setProp_ne_null _ _ _ (setProp_ne_null _ _ _ (setProp_ne_null _ _ _
        (setProp_ne_null _ _ _ hn)))
    rw [transact_commit _ _ _ hf (hne _ _ _ _)]
    left
    apply rejectWith_of_guard_false h e s _ (hnn _ _ _ _) (hne _ _ _ _)
    apply guard_false_of_ne
    left
    rw [owner_eq_str]
    rcases objLike_of_isOwner hg.1 with ⟨fs, rfl⟩ | ⟨es, ps, rfl⟩ <;>
      simp [setProp, getProp, getField_setField]

/-- Applying `updateProgressWith(p)` twice leaves what applying it once leaves. -/
theorem updateProgressWith_idempotent (h : TransactionHelper) (p t : JSVal) :
    transact (updateProgressWith h p) (transact (updateProgressWith h p) t) =
      transact (updateProgressWith h p) t := by
  by_cases hu : t = undefined
  · subst hu
    rfl
  apply transact_twice_of_keep
  by_cases hn : t = null
  · subst hn
    right
    rfl
  cases hg : (_isOwner h t && _isInProgress h t)
  · have hf := updateProgressWith_of_guard_false h p t hn hu hg
    rw [transact_keep _ _ hf]
    exact Or.inl hf
  · simp only [Bool.and_eq_true] at hg
    have hf := updateProgressWith_of_guard h p t hg.1 hg.2
    rw [transact_commit _ _ _ hf (setProp_ne_undefined _ _ _ hu)]
    right
    have ho2 : _isOwner h (setProp t "_progress" p) = true := by
      have ho := hg.1
      unfold _isOwner at ho ⊢
      rcases objLike_of_isOwner hg.1 with ⟨fs, rfl⟩ | ⟨es, ps, rfl⟩
      · rw [getProp_setProp_obj]
        simpa using ho
      · rw [getProp_setProp_arr]
        simpa using ho
    have hp2 : _isInProgress h (setProp t "_progress" p) = true := by
      have hp' := hg.2
      unfold _isInProgress at hp' ⊢
      rcases objLike_of_isOwner hg.1 with ⟨fs, rfl⟩ | ⟨es, ps, rfl⟩
      · rw [getProp_setProp_obj]
        simpa using hp'
      · rw [getProp_setProp_arr]
        simpa using hp'
    rw [updateProgressWith_of_guard h p _ ho2 hp2, setProp_setProp_same]

end TransactionHelper

/-- Without the in-progress state `resetIfTimedOut` changes nothing. -/
theorem resetIfTimedOut_of_not_in_progress (h : TransactionHelper) (now : Int) (t : JSVal)
    (hn : t ≠ null) (hu : t ≠ undefined)
    (hp : TransactionHelper._isInProgress h t = false) :
    TransactionHelper.resetIfTimedOut h now t = Except.ok undefined := by
  cases t <;>
    first
    | exact absurd rfl hn
    | exact absurd rfl hu
    | (simp only [TransactionHelper.resetIfTimedOut, hp]
       rfl)

/-- The five writes of a reset leave a primitive as it is, and leave `_state` =
`start` in an object or array. -/
theorem state_after_reset_writes (t start : JSVal) :
    setProp (setProp (setProp (setProp (setProp t "_state" start)
      "_state_changed" SERVER_TIMESTAMP) "_owner" null) "_progress" null)
      "_error_details" null = t ∨
    getProp (setProp (setProp (setProp (setProp (setProp t "_state" start)
      "_state_changed" SERVER_TIMESTAMP) "_owner" null) "_progress" null)
      "_error_details" null) "_state" = start := by
  cases t <;> simp [setProp, getProp, getField_setField]

/-- Applying `resetIfTimedOut` twice at one clock reading leaves what applying it
once leaves, when `startState` is not `inProgressState`. -/
theorem resetIfTimedOut_idempotent (h : TransactionHelper) (now : Int) (t : JSVal)
    (hne : h.spec.inProgressState ≠ h.spec.startState) :
    transact (TransactionHelper.resetIfTimedOut h now)
        (transact (TransactionHelper.resetIfTimedOut h now) t) =
      transact (TransactionHelper.resetIfTimedOut h now) t := by
  by_cases hn : t = null
  · subst hn
    rfl
  by_cases hu : t = undefined
  · subst hu
    rfl
  rcases resetIfTimedOut_form h now t hn hu with hf | hf
  · rw [transact_keep _ _ hf, transact_keep _ _ hf]
  · have hvu := setProp_ne_undefined _ "_error_details" null
      (setProp_ne_undefined _ "_progress" null (setProp_ne_undefined _ "_owner" null
        (setProp_ne_undefined _ "_state_changed" SERVER_TIMESTAMP
          (setProp_ne_undefined t "_state" h.spec.startState hu))))
    have hvn := setProp_ne_null _ "_error_details" null
      (setProp_ne_null _ "_progress" null (setProp_ne_null _ "_owner" null
        (setProp_ne_null _ "_state_changed" SERVER_TIMESTAMP
          (setProp_ne_null t "_state" h.spec.startState hn))))
    have hone := transact_commit _ _ _ hf hvu
    rcases state_after_reset_writes t h.spec.startState with hsame | hst
    · rw [hsame] at hone
      rw [hone, hone]
    · rw [hone]
      apply transact_keep
      apply resetIfTimedOut_of_not_in_progress h now _ hvn hvu
      unfold TransactionHelper._isInProgress
      rw [hst]
      exact strictEq_false_of_ne (fun e => hne e.symm)

/-- C26, as stated, fails: under a spec with `errorState` = `startState` =
'todo' (and `inProgressState` 'busy', different from both other states), one
`claim` on the malformed value 'invalid' stores the malformed-task record, and a
second `claim` takes that record into progress. And under a spec with
`inProgressState` the empty string and no start state, the second `claim` on
`{foo: 'bar'}` commits again, a second write with a fresh server timestamp. -/
theorem claim_not_idempotent_counterexample :
    transact (TransactionHelper.claim
        ⟨num 0, num 0, str "w", ⟨str "todo", str "busy", null, str "todo", null, num 0⟩⟩)
        (str "invalid") =
      obj [("_state", str "todo"), ("_state_changed", SERVER_TIMESTAMP),
        ("_error_details",
          obj [("error", str "Task was malformed"), ("original_task", str "invalid")])] ∧
    transact (TransactionHelper.claim
        ⟨num 0, num 0, str "w", ⟨str "todo", str "busy", null, str "todo", null, num 0⟩⟩)
      (transact (TransactionHelper.claim
        ⟨num 0, num 0, str "w", ⟨str "todo", str "busy", null, str "todo", null, num 0⟩⟩)
        (str "invalid")) =
      obj [("_state", str "busy"), ("_state_changed", SERVER_TIMESTAMP),
        ("_error_details",
          obj [("error", str "Task was malformed"), ("original_task", str "invalid")]),
        ("_owner", str "w:0"), ("_progress", num 0)] ∧
    transact (TransactionHelper.claim
        ⟨num 0, num 0, str "w", ⟨str "todo", str "busy", null, str "todo", null, num 0⟩⟩)
      (transact (TransactionHelper.claim
        ⟨num 0, num 0, str "w", ⟨str "todo", str "busy", null, str "todo", null, num 0⟩⟩)
        (str "invalid")) ≠
    transact (TransactionHelper.claim
        ⟨num 0, num 0, str "w", ⟨str "todo", str "busy", null, str "todo", null, num 0⟩⟩)
        (str "invalid") ∧
    TransactionHelper.claim
        ⟨num 0, num 0, str "w", ⟨null, str "", null, str "error", null, num 0⟩⟩
      (transact (TransactionHelper.claim
        ⟨num 0, num 0, str "w", ⟨null, str "", null, str "error", null, num 0⟩⟩)
        (obj [("foo", str "bar")])) =
      Except.ok (obj [("foo", str "bar"), ("_state", str ""),
        ("_state_changed", SERVER_TIMESTAMP), ("_owner", str "w:0"), ("_progress", num 0)]) := by
  have h1 : transact (TransactionHelper.claim
        ⟨num 0, num 0, str "w", ⟨str "todo", str "busy", null, str "todo", null, num 0⟩⟩)
        (str "invalid") =
      obj [("_state", str "todo"), ("_state_changed", SERVER_TIMESTAMP),
        ("_error_details",
          obj [("error", str "Task was malformed"), ("original_task", str "invalid")])] := rfl
  have h2 : transact (TransactionHelper.claim
        ⟨num 0, num 0, str "w", ⟨str "todo", str "busy", null, str "todo", null, num 0⟩⟩)
      (transact (TransactionHelper.claim
        ⟨num 0, num 0, str "w", ⟨str "todo", str "busy", null, str "todo", null, num 0⟩⟩)
        (str "invalid")) =
      obj [("_state", str "busy"), ("_state_changed", SERVER_TIMESTAMP),
        ("_error_details",
          obj [("error", str "Task was malformed"), ("original_task", str "invalid")]),
        ("_owner", str "w:0"), ("_progress", num 0)] := rfl
  refine ⟨h1, h2, ?_, rfl⟩
  rw [h2, h1]
  simp

/-- C26 (amended): for every spec whose `inProgressState` and `errorState` are
truthy (non-empty strings) and differ from `startState`, every helper, every
stored value `t` and each of `claim`, `resolveWith(x)`, `rejectWith(e, s)`,
`updateProgressWith(p)` and `resetIfTimedOut` at one clock reading: the stored
value after applying the function twice is the stored value after applying it
once; and the second `claim` writes nothing. -/
theorem transactions_idempotent (h : TransactionHelper) (x e s p t : JSVal) (now : Int)
    (hnzp : truthy h.spec.inProgressState = true)
    (hne : h.spec.inProgressState ≠ h.spec.startState)
    (hnz : truthy h.spec.errorState = true)
    (hes : h.spec.errorState ≠ h.spec.startState) :
    (TransactionHelper.claim h (transact (TransactionHelper.claim h) t) = Except.ok undefined ∨
      TransactionHelper.claim h (transact (TransactionHelper.claim h) t) = Except.ok null) ∧
    transact (TransactionHelper.claim h) (transact (TransactionHelper.claim h) t) =
      transact (TransactionHelper.claim h) t ∧
    transact (TransactionHelper.resolveWith h x)
        (transact (TransactionHelper.resolveWith h x) t) =
      transact (TransactionHelper.resolveWith h x) t ∧
    transact (TransactionHelper.rejectWith h e s)
        (transact (TransactionHelper.rejectWith h e s) t) =
      transact (TransactionHelper.rejectWith h e s) t ∧
    transact (TransactionHelper.updateProgressWith h p)
        (transact (TransactionHelper.updateProgressWith h p) t) =
      transact (TransactionHelper.updateProgressWith h p) t ∧
    transact (TransactionHelper.resetIfTimedOut h now)
        (transact (TransactionHelper.resetIfTimedOut h now) t) =
      transact (TransactionHelper.resetIfTimedOut h now) t :=
  ⟨TransactionHelper.claim_second_is_noop h t hnzp hne hnz hes,
   TransactionHelper.claim_idempotent h t hnz hes,
   TransactionHelper.resolveWith_idempotent h x t,
   TransactionHelper.rejectWith_idempotent h e s t,
   TransactionHelper.updateProgressWith_idempotent h p t,
   resetIfTimedOut_idempotent h now t hne⟩

/-- C26 (amended), at the malformed value 'invalid' under the default
`errorState` 'error': the second `claim` leaves the malformed-task record. -/
theorem transactions_idempotent_witness :
    transact (TransactionHelper.claim
        ⟨num 0, num 0, str "w", ⟨str "todo", str "busy", null, str "error", num 10, num 0⟩⟩)
      (transact (TransactionHelper.claim
        ⟨num 0, num 0, str "w", ⟨str "todo", str "busy", null, str "error", num 10, num 0⟩⟩)
        (str "invalid")) =
    transact (TransactionHelper.claim
        ⟨num 0, num 0, str "w", ⟨str "todo", str "busy", null, str "error", num 10, num 0⟩⟩)
        (str "invalid") :=
  (transactions_idempotent
    ⟨num 0, num 0, str "w", ⟨str "todo", str "busy", null, str "error", num 10, num 0⟩⟩
    undefined undefined undefined undefined (str "invalid") 0
    rfl (by simp) rfl (by simp)).2.1

/-! ## Claim and the stored owner -/

namespace TransactionHelper

/-- C31: `claim` does not read `_owner`. On every plain-object record that passes
the test of `claim` on `_state` (`(_state || null) === startState`), `claim`
commits a record whose `_owner` is the caller's token, whatever `_owner` was.
And for two plain-object records that differ only in `_owner` (the same value
and the same presence for every other key), `claim` takes the same decision:
either it returns `undefined` on both, or it commits on both, and the two
committed records carry the caller's token and agree on every key. -/
theorem claim_ignores_owner (h : TransactionHelper) (fs : Fields) :
    (strictEq (jsOr (getField fs "_state") null) h.spec.startState = true →
      ∃ r, claim h (obj fs) = Except.ok (obj r) ∧ getField r "_owner" = h.owner) ∧
    (∀ fs2 : Fields,
      (∀ k, k ≠ "_owner" → getField fs2 k = getField fs k ∧ hasField fs2 k = hasField fs k) →
      (claim h (obj fs) = Except.ok undefined ∧ claim h (obj fs2) = Except.ok undefined) ∨
      (∃ r r2, claim h (obj fs) = Except.ok (obj r) ∧ claim h (obj fs2) = Except.ok (obj r2) ∧
        getField r "_owner" = h.owner ∧ getField r2 "_owner" = h.owner ∧
        ∀ k, getField r2 k = getField r k ∧ hasField r2 k = hasField r k)) := by
  constructor
  · intro hm
    refine ⟨_, claim_of_match h fs hm, ?_⟩
    simp [getField_setField]
  · intro fs2 hsame
    have hst : getField fs2 "_state" = getField fs "_state" := (hsame "_state" (by decide)).1
    cases hm : strictEq (jsOr (getField fs "_state") null) h.spec.startState
    · left
      refine ⟨claim_of_no_match h fs hm, claim_of_no_match h fs2 ?_⟩
      rw [hst]
      exact hm
    · right
      have hm2 : strictEq (jsOr (getField fs2 "_state") null) h.spec.startState = true := by
        rw [hst]
        exact hm
      refine ⟨_, _, claim_of_match h fs hm, claim_of_match h fs2 hm2, ?_, ?_, ?_⟩
      · simp [getField_setField]
      · simp [getField_setField]
      · intro k
        by_cases hk : k = "_owner"
        · subst hk
          simp [getField_setField, hasField_setField]
        · obtain ⟨hg, hh⟩ := hsame k hk
          simp [getField_setField, hasField_setField, hg, hh]

/-- C31, at the record `{_state: 'start'}` of the spec's example, once with
another worker's token in `_owner` and once without `_owner`. -/
theorem claim_ignores_owner_witness :
    (claim ⟨num 0, num 0, str "w", ⟨str "start", str "busy", null, str "error", null, num 0⟩⟩
        (obj [("_state", str "start"), ("_owner", str "a:7")]) = Except.ok undefined ∧
      claim ⟨num 0, num 0, str "w", ⟨str "start", str "busy", null, str "error", null, num 0⟩⟩
        (obj [("_state", str "start")]) = Except.ok undefined) ∨
    (∃ r r2,
      claim ⟨num 0, num 0, str "w", ⟨str "start", str "busy", null, str "error", null, num 0⟩⟩
        (obj [("_state", str "start"), ("_owner", str "a:7")]) = Except.ok (obj r) ∧
      claim ⟨num 0, num 0, str "w", ⟨str "start", str "busy", null, str "error", null, num 0⟩⟩
        (obj [("_state", str "start")]) = Except.ok (obj r2) ∧
      getField r "_owner" =
        owner ⟨num 0, num 0, str "w", ⟨str "start", str "busy", null, str "error", null, num 0⟩⟩ ∧
      getField r2 "_owner" =
        owner ⟨num 0, num 0, str "w", ⟨str "start", str "busy", null, str "error", null, num 0⟩⟩ ∧
      ∀ k, getField r2 k = getField r k ∧ hasField r2 k = hasField r k) :=
  (claim_ignores_owner
    ⟨num 0, num 0, str "w", ⟨str "start", str "busy", null, str "error", null, num 0⟩⟩
    [("_state", str "start"), ("_owner", str "a:7")]).2
    [("_state", str "start")]
    (fun k hk => by
      have hk2 : ¬ "_owner" = k := fun e => hk e.symm
      simp [getField, hasField, hk2])

end TransactionHelper

/-! ## The two implementations of resolve -/

/-- C34: a `TaskWorker` and a `TransactionHelper` with the same owner token, the
same `inProgressState` and the same `finishedState` have the same `resolveWith`:
for every replacement and every stored value (null, a record, or anything else)
the two return the same result, or both throw. -/
theorem resolve_implementations_coincide (w : TaskWorker) (h : TransactionHelper)
    (x task : JSVal)
    (ho : w.owner = h.owner)
    (hi : w.spec.inProgressState = h.spec.inProgressState)
    (hf : w.spec.finishedState = h.spec.finishedState) :
    TaskWorker.resolveWith w x task = TransactionHelper.resolveWith h x task := by
  cases task <;>
    simp only [TaskWorker.resolveWith, TransactionHelper.resolveWith, TaskWorker._isOwner,
      TaskWorker._isInProgress, TransactionHelper._isOwner, TransactionHelper._isInProgress,
      ho, hi, hf]

/-- C34, at the worker with owner 'w:0' and the helper of process 'w', slot 0,
on the resolve example of the spec. -/
theorem resolve_implementations_coincide_witness :
    TaskWorker.resolveWith
        ⟨num 0, str "w:0", ⟨null, str "busy", null, undefined, null, undefined⟩⟩
        (obj [("foo", str "bar"), ("_new_state", str "done")])
        (obj [("_state", str "busy"), ("_owner", str "w:0")]) =
      TransactionHelper.resolveWith
        ⟨num 0, num 0, str "w", ⟨null, str "busy", null, str "error", null, num 0⟩⟩
        (obj [("foo", str "bar"), ("_new_state", str "done")])
        (obj [("_state", str "busy"), ("_owner", str "w:0")]) :=
  resolve_implementations_coincide
    ⟨num 0, str "w:0", ⟨null, str "busy", null, undefined, null, undefined⟩⟩
    ⟨num 0, num 0, str "w", ⟨null, str "busy", null, str "error", null, num 0⟩⟩
    (obj [("foo", str "bar"), ("_new_state", str "done")])
    (obj [("_state", str "busy"), ("_owner", str "w:0")]) rfl rfl rfl

/-! ## Construction -/

namespace TransactionHelper

/-- C35: the constructor throws 'no processId' exactly when `processId` is
falsy, and it throws nothing else; for a `processId` that is a string or absent
that is: exactly when it is absent or the empty string (the other falsy values
null, false, 0 and NaN, which are not process identifiers, are refused in the
same way). In every other case it returns a helper that holds the arguments as
given, the task number defaulted to 0 when absent, whatever the spec is. -/
theorem create_fails_iff (serverOffset taskNumber processId : JSVal) (spec : TaskSpec) :
    (create serverOffset taskNumber processId spec = Except.error "no processId" ↔
      truthy processId = false) ∧
    ((processId = undefined ∨ ∃ s, processId = str s) →
      (create serverOffset taskNumber processId spec = Except.error "no processId" ↔
        (processId = undefined ∨ processId = str ""))) ∧
    (truthy processId = false ↔
      (processId = undefined ∨ processId = null ∨ processId = bool false ∨
        processId = num 0 ∨ processId = nan ∨ processId = str "")) ∧
    (truthy processId = true →
      create serverOffset taskNumber processId spec =
        Except.ok ⟨serverOffset, defaultTo taskNumber (num 0), processId, spec⟩) ∧
    (create serverOffset taskNumber processId spec = Except.error "no processId" ∨
      create serverOffset taskNumber processId spec =
        Except.ok ⟨serverOffset, defaultTo taskNumber (num 0), processId, spec⟩) := by
  have hfail : truthy processId = false →
      create serverOffset taskNumber processId spec = Except.error "no processId" := by
    intro ht
    simp [create, ht]
  have hok : truthy processId = true →
      create serverOffset taskNumber processId spec =
        Except.ok ⟨serverOffset, defaultTo taskNumber (num 0), processId, spec⟩ := by
    intro ht
    simp [create, ht]
  have hiff : create serverOffset taskNumber processId spec = Except.error "no processId" ↔
      truthy processId = false := by
    constructor
    · intro hc
      cases ht : truthy processId
      · rfl
      · rw [hok ht] at hc
        cases hc
    · exact hfail
  refine ⟨hiff, ?_, ?_, hok, ?_⟩
  · intro hty
    rw [hiff]
    rcases hty with hu | ⟨s, hs⟩
    · subst hu
      simp [truthy]
    · subst hs
      simp [truthy]
  · cases processId <;> simp [truthy]
  · cases ht : truthy processId
    · exact Or.inl (hfail ht)
    · exact Or.inr (hok ht)

/-- C35, at the process identifier 'w' with no task number given, and at the
empty process identifier. -/
theorem create_fails_iff_witness :
    create (num 0) undefined (str "w") ⟨null, null, null, null, null, null⟩ =
      Except.ok ⟨num 0, defaultTo undefined (num 0), str "w",
        ⟨null, null, null, null, null, null⟩⟩ ∧
    (create (num 0) undefined (str "") ⟨null, null, null, null, null, null⟩ =
        Except.error "no processId" ↔
      ((str "" : JSVal) = undefined ∨ (str "" : JSVal) = str "")) :=
  ⟨(create_fails_iff (num 0) undefined (str "w") ⟨null, null, null, null, null, null⟩).2.2.2.1 rfl,
   (create_fails_iff (num 0) undefined (str "") ⟨null, null, null, null, null, null⟩).2.1
     (Or.inr ⟨"", rfl⟩)⟩

end TransactionHelper

/-! ## The timeout decision over time -/

namespace JSVal

theorem jsGe_nan (t : JSVal) : jsGe nan t = false := by
  cases t <;> simp [jsGe, jsLess, toPrimitive, toNumber]

theorem jsGe_num_of_toNumber (x : Int) (p : JSVal) (hp : toPrimitive p = p) :
    jsGe (num x) p =
      match toNumber p with
      | some b => decide (b ≤ x)
      | none => false := by
  have hdec : ∀ b : Int, (!decide (x < b)) = decide (b ≤ x) := by
    intro b
    by_cases hb : b ≤ x
    · simp [hb]
    · simp [hb, lt_of_not_le hb]
  unfold jsGe jsLess
  rw [hp]
  cases p with
  | str s =>
    simp only [toPrimitive, toNumber]
    cases stringToNumber s <;> simp [hdec]
  | arr es ps => simp [toPrimitive] at hp
  | obj fs => simp [toPrimitive] at hp
  | bool b => cases b <;> simp [toPrimitive, toNumber, hdec]
  | undefined => simp [toPrimitive, toNumber]
  | null => simp [toPrimitive, toNumber, hdec]
  | nan => simp [toPrimitive, toNumber]
  | num n => simp [toPrimitive, toNumber, hdec]

theorem toPrimitive_idem (t : JSVal) : toPrimitive (toPrimitive t) = toPrimitive t := by
  cases t <;> rfl

theorem jsGe_toPrimitive (a t : JSVal) : jsGe a (toPrimitive t) = jsGe a t := by
  unfold jsGe jsLess
  rw [toPrimitive_idem]

/-- The comparison `x >= t` on a number `x` stays true when `x` grows. -/
theorem jsGe_num_mono (x y : Int) (t : JSVal) (hxy : x ≤ y)
    (hx : jsGe (num x) t = true) : jsGe (num y) t = true := by
  rw [← jsGe_toPrimitive, jsGe_num_of_toNumber _ _ (toPrimitive_idem t)] at hx ⊢
  cases hn : toNumber (toPrimitive t) with
  | none => simp [hn] at hx
  | some b =>
    simp only [hn, decide_eq_true_eq] at hx ⊢
    exact le_trans hx hxy

/-- The elapsed time `now + serverOffset - c`, for a `serverOffset` that is not
a string, an array or an object: NaN at every clock reading, or the clock
reading plus a constant. -/
theorem timeSinceUpdate_shape (off c : JSVal) (hoff : isString (toPrimitive off) = false) :
    (∀ now : Int, jsSub (jsAdd (num now) off) c = nan) ∨
    (∃ d : Int, ∀ now : Int, jsSub (jsAdd (num now) off) c = num (now + d)) := by
  have hadd : ∀ now : Int, jsAdd (num now) off =
      match toNumber (toPrimitive off) with
      | some y => num (now + y)
      | none => nan := by
    intro now
    have e1 : toPrimitive (num now) = num now := rfl
    have e2 : isString (num now) = false := rfl
    have e3 : toNumber (num now) = some now := rfl
    unfold jsAdd
    simp only [e1, e2, e3, hoff, Bool.or_false, Bool.false_eq_true, if_false]
    cases toNumber (toPrimitive off) <;> rfl
  have hsub : ∀ (a : Int) (o : Option Int), toNumber c = o →
      jsSub (num a) c = match o with
        | some z => num (a - z)
        | none => nan := by
    intro a o ho
    have e3 : toNumber (num a) = some a := rfl
    unfold jsSub
    rw [e3, ho]
    cases o <;> rfl
  have hnan : jsSub nan c = nan := by
    have e3 : toNumber nan = none := rfl
    unfold jsSub
    rw [e3]
  cases ho : toNumber (toPrimitive off) with
  | none =>
    left
    intro now
    rw [hadd, ho]
    exact hnan
  | some y =>
    cases hc : toNumber c with
    | none =>
      left
      intro now
      rw [hadd, ho]
      exact hsub _ _ hc
    | some z =>
      right
      refine ⟨y - z, ?_⟩
      intro now
      rw [hadd, ho]
      have e := hsub (now + y) _ hc
      simp only at e
      rw [e]
      congr 1
      ring

end JSVal

/-- The method `TransactionHelper.resetIfTimedOut` on a stored value other than
null, branch by branch. -/
theorem resetIfTimedOut_guarded (h : TransactionHelper) (now : Int) (t : JSVal)
    (hn : t ≠ null) (hu : t ≠ undefined) :
    TransactionHelper.resetIfTimedOut h now t =
      if (TransactionHelper._isInProgress h t && (truthy h.spec.timeout &&
            jsGe (jsSub (jsAdd (num now) h.serverOffset)
              (jsOr (getProp t "_state_changed") (num 0))) h.spec.timeout)) = true then
        Except.ok (setProp (setProp (setProp (setProp (setProp t "_state" h.spec.startState)
          "_state_changed" SERVER_TIMESTAMP) "_owner" null) "_progress" null)
          "_error_details" null)
      else Except.ok undefined := by
  cases t <;>
    first
    | exact absurd rfl hn
    | exact absurd rfl hu
    | simp only [TransactionHelper.resetIfTimedOut, TransactionHelper.truthy_jsAnd_bool]

/-- The timeout test of `resetIfTimedOut` stays true when the clock advances. -/
theorem timedOut_mono (off c timeout : JSVal) (now now2 : Int)
    (hoff : isString (toPrimitive off) = false) (hle : now ≤ now2)
    (ht : jsGe (jsSub (jsAdd (num now) off) c) timeout = true) :
    jsGe (jsSub (jsAdd (num now2) off) c) timeout = true := by
  rcases timeSinceUpdate_shape off c hoff with hnan | ⟨d, hd⟩
  · rw [hnan, jsGe_nan] at ht
    cases ht
  · rw [hd] at ht ⊢
    exact jsGe_num_mono _ _ _ (by omega) ht

/-- C33: for every helper whose `serverOffset` is a number (or absent, null or
a boolean: anything but a string, an array or an object), every timeout and
every stored value, if `resetIfTimedOut` commits a value at clock reading `now`,
then at every clock reading `now2 ≥ now` it commits that same value. -/
theorem reset_decision_monotone (h : TransactionHelper) (now now2 : Int) (task r : JSVal)
    (hoff : isString (toPrimitive h.serverOffset) = false)
    (hr : TransactionHelper.resetIfTimedOut h now task = Except.ok r)
    (hc : r ≠ undefined) (hle : now ≤ now2) :
    TransactionHelper.resetIfTimedOut h now2 task = Except.ok r := by
  by_cases hn : task = null
  · subst hn
    exact hr
  by_cases hu : task = undefined
  · subst hu
    cases hr
  rw [resetIfTimedOut_guarded h now task hn hu] at hr
  rw [resetIfTimedOut_guarded h now2 task hn hu]
  split at hr
  · rename_i hg
    simp only [Bool.and_eq_true] at hg
    have hg2 := timedOut_mono _ _ _ now now2 hoff hle hg.2.2
    rw [if_pos (by simp [hg.1, hg.2.1, hg2])]
    exact hr
  · injection hr with hr
    exact absurd hr.symm hc

/-- C33, at the record of the timeout tests: timed out at 1010 with a timeout
of 10, hence timed out at 5000. -/
theorem reset_decision_monotone_witness :
    TransactionHelper.resetIfTimedOut
        ⟨num 0, num 0, str "w", ⟨null, str "in_progress", null, str "error", num 10, num 0⟩⟩
        5000 (obj [("_state", str "in_progress"), ("_state_changed", num 1000),
                   ("_owner", str "someone"), ("_progress", num 10)]) =
      Except.ok (obj [("_state", null), ("_state_changed", SERVER_TIMESTAMP),
                      ("_owner", null), ("_progress", null), ("_error_details", null)]) :=
  reset_decision_monotone
    ⟨num 0, num 0, str "w", ⟨null, str "in_progress", null, str "error", num 10, num 0⟩⟩
    1010 5000 (obj [("_state", str "in_progress"), ("_state_changed", num 1000),
                    ("_owner", str "someone"), ("_progress", num 10)]) _ rfl rfl
    (by simp) (by decide)

/-! ## Resolving into the in-progress state -/

namespace TransactionHelper

/-- On a record whose `_owner` is null, `resolveWith`, `rejectWith` and
`updateProgressWith` of every helper change nothing: a token is a string. -/
theorem unowned_noop (g : TransactionHelper) (q : Fields) (ho : getField q "_owner" = null) :
    (∀ x, resolveWith g x (obj q) = Except.ok undefined) ∧
    (∀ e s, rejectWith g e s (obj q) = Except.ok undefined) ∧
    (∀ p, updateProgressWith g p (obj q) = Except.ok undefined) := by
  have hne : getProp (obj q) "_owner" ≠ g.owner := by
    rw [owner_eq_str]
    simp [getProp, ho]
  have hg := guard_false_of_ne g (obj q) (Or.inl hne)
  refine ⟨?_, ?_, ?_⟩
  · intro x
    exact resolveWith_of_guard_false g x _ (by simp) (by simp) hg
  · intro e s
    exact rejectWith_of_guard_false g e s _ (by simp) (by simp) hg
  · intro p
    exact updateProgressWith_of_guard_false g p _ (by simp) (by simp) hg

/-- What `resolveWith` commits for a replacement whose `_new_state` is a string. -/
theorem resolveWith_string_state (h : TransactionHelper) (xs : Fields) (task : JSVal)
    (s : String)
    (ho : _isOwner h task = true) (hp : _isInProgress h task = true)
    (hx : getField xs "_new_state" = str s) :
    resolveWith h (obj xs) task =
      Except.ok (obj (setField (setField (setField (setField (setField
        (delField xs "_new_state") "_state" (str s))
        "_state_changed" SERVER_TIMESTAMP) "_owner" null) "_progress" (num 100))
        "_error_details" null)) := by
  rw [resolveWith_of_guard h (obj xs) task ho hp]
  simp [coerceReplacement, hx, strictEq, isString]

/-- C32: `resolveWith` does not check `_new_state` against the spec. For a spec
whose `inProgressState` is a non-empty string `s` other than `startState`, an
in-progress record owned by the helper and a replacement whose `_new_state` is
`s`, `resolveWith` commits a record with `_state` = `s` and `_owner` = null. On
that record as stored (`_state_changed` replaced by any value `t`),
`resolveWith`, `rejectWith` and `updateProgressWith` of every helper and `claim`
of every helper on that spec return `undefined`; `resetIfTimedOut` of a helper
on that spec returns `undefined` at every clock reading when no timeout is
configured, and with a timeout configured it moves the record to `startState`
once the timeout has elapsed. -/
theorem resolve_into_in_progress (h : TransactionHelper) (fs xs : Fields) (s : String)
    (hips : h.spec.inProgressState = str s) (hs : s ≠ "")
    (hne : h.spec.startState ≠ str s)
    (ho : getField fs "_owner" = h.owner) (hst : getField fs "_state" = str s)
    (hx : getField xs "_new_state" = str s) :
    ∃ r, resolveWith h (obj xs) (obj fs) = Except.ok (obj r) ∧
      getField r "_state" = h.spec.inProgressState ∧ getField r "_owner" = null ∧
      ∀ (t : JSVal) (g : TransactionHelper),
        (∀ x, resolveWith g x (obj (setField r "_state_changed" t)) = Except.ok undefined) ∧
        (∀ e st, rejectWith g e st (obj (setField r "_state_changed" t)) =
          Except.ok undefined) ∧
        (∀ p, updateProgressWith g p (obj (setField r "_state_changed" t)) =
          Except.ok undefined) ∧
        (g.spec = h.spec →
          claim g (obj (setField r "_state_changed" t)) = Except.ok undefined ∧
          (truthy h.spec.timeout = false →
            ∀ now : Int, resetIfTimedOut g now (obj (setField r "_state_changed" t)) =
              Except.ok undefined) ∧
          (∀ now off timeout changed : Int, g.serverOffset = num off →
            h.spec.timeout = num timeout → timeout ≠ 0 → t = num changed →
            timeout ≤ now + off - changed →
            ∃ r2, resetIfTimedOut g now (obj (setField r "_state_changed" t)) =
                Except.ok (obj r2) ∧
              getField r2 "_state" = h.spec.startState ∧ getField r2 "_owner" = null)) := by
  have hown : _isOwner h (obj fs) = true := (isOwner_iff h (obj fs)).mpr ho
  have hprog : _isInProgress h (obj fs) = true := by
    unfold _isInProgress
    rw [hips, strictEq_str]
    exact hst
  refine ⟨_, resolveWith_string_state h xs (obj fs) s hown hprog hx, ?_, ?_, ?_⟩
  · rw [hips]
    simp [getField_setField]
  · simp [getField_setField]
  · intro t g
    have hq := unowned_noop g (setField (setField (setField (setField (setField (setField
        (delField xs "_new_state") "_state" (str s))
        "_state_changed" SERVER_TIMESTAMP) "_owner" null) "_progress" (num 100))
        "_error_details" null) "_state_changed" t) (by simp [getField_setField])
    refine ⟨hq.1, hq.2.1, hq.2.2, ?_⟩
    intro hspec
    have hstate : getField (setField (setField (setField (setField (setField (setField
        (delField xs "_new_state") "_state" (str s))
        "_state_changed" SERVER_TIMESTAMP) "_owner" null) "_progress" (num 100))
        "_error_details" null) "_state_changed" t) "_state" = g.spec.inProgressState := by
      rw [hspec, hips]
      simp [getField_setField]
    have hgp : _isInProgress g (obj (setField (setField (setField (setField (setField (setField
        (delField xs "_new_state") "_state" (str s))
        "_state_changed" SERVER_TIMESTAMP) "_owner" null) "_progress" (num 100))
        "_error_details" null) "_state_changed" t)) = true := by
      unfold _isInProgress
      rw [hspec, hips, strictEq_str]
      simp [getProp, getField_setField]
    refine ⟨?_, ?_, ?_⟩
    · apply claim_of_no_match
      apply claim_guard_in_progress _ _ hstate
      · rw [hspec, hips]
        simp [truthy, hs]
      · rw [hspec, hips]
        exact fun e => hne e.symm
    · intro hto now
      rw [resetIfTimedOut_obj, hspec, hto]
      simp
    · intro now off timeout changed hoff hto htne ht hel
      have hch : getField (setField (setField (setField (setField (setField (setField
          (delField xs "_new_state") "_state" (str s))
          "_state_changed" SERVER_TIMESTAMP) "_owner" null) "_progress" (num 100))
          "_error_details" null) "_state_changed" t) "_state_changed" = num changed := by
        rw [ht]
        simp [getField_setField]
      have hguard : (_isInProgress g (obj (setField (setField (setField (setField (setField
          (setField (delField xs "_new_state") "_state" (str s))
          "_state_changed" SERVER_TIMESTAMP) "_owner" null) "_progress" (num 100))
          "_error_details" null) "_state_changed" t)) && (truthy g.spec.timeout &&
          jsGe (jsSub (jsAdd (num now) g.serverOffset)
            (jsOr (getField (setField (setField (setField (setField (setField
              (setField (delField xs "_new_state") "_state" (str s))
              "_state_changed" SERVER_TIMESTAMP) "_owner" null) "_progress" (num 100))
              "_error_details" null) "_state_changed" t) "_state_changed") (num 0)))
            g.spec.timeout)) = true := by
        rw [hgp, hch, hspec, hto, hoff, jsAdd_num_num, jsOr_num_zero, jsSub_num_num,
          jsGe_num_num, truthy_num timeout htne]
        simpa using hel
      rw [resetIfTimedOut_obj, if_pos hguard]
      refine ⟨_, rfl, ?_, ?_⟩
      · rw [hspec]
        simp [getField_setField]
      · simp [getField_setField]

end TransactionHelper

namespace TransactionHelper

/-- C32, at a worker that resolves its record with `_new_state` 'busy' under
`inProgressState` 'busy': the stored record is in progress with no owner, and
`claim` of another helper on that spec leaves it. -/
theorem resolve_into_in_progress_witness :
    ∃ r, resolveWith
        ⟨num 0, num 0, str "w", ⟨str "start", str "busy", null, str "error", num 10, num 0⟩⟩
        (obj [("foo", str "bar"), ("_new_state", str "busy")])
        (obj [("_state", str "busy"), ("_owner", str "w:0")]) = Except.ok (obj r) ∧
      getField r "_state" = str "busy" ∧ getField r "_owner" = null ∧
      claim ⟨num 0, num 4, str "v", ⟨str "start", str "busy", null, str "error", num 10, num 0⟩⟩
        (obj (setField r "_state_changed" (num 1000))) = Except.ok undefined := by
  obtain ⟨r, h1, h2, h3, h4⟩ := resolve_into_in_progress
    ⟨num 0, num 0, str "w", ⟨str "start", str "busy", null, str "error", num 10, num 0⟩⟩
    [("_state", str "busy"), ("_owner", str "w:0")]
    [("foo", str "bar"), ("_new_state", str "busy")] "busy" rfl (by decide) (by simp) rfl rfl rfl
  exact ⟨r, h1, h2, h3,
    ((h4 (num 1000)
      ⟨num 0, num 4, str "v", ⟨str "start", str "busy", null, str "error", num 10, num 0⟩⟩).2.2.2
      rfl).1⟩

end TransactionHelper

end FirebaseQueue
